import Mathlib

/-!
# Verification of the RackMind GPU data-centre simulator

A shallow embedding, in Lean 4, of the core of the RackMind repository:
the failure-injection engine (`dc_sim/failures.py`), the workload queue
(`dc_sim/models/workload.py`), the simulator tick pipeline
(`dc_sim/simulator.py`), the evaluator and session manager
(`dc_sim/evaluation.py`) and the HTTP action handlers
(`dc_sim/api/routes.py`).

Modelling conventions:
* Python floats are modelled as exact rationals (`ℚ`); the claims under
  study are order/structure properties, not rounding properties.
* Python `None` becomes `Option`.
* `numpy` random draws are abstracted into explicit oracle arguments:
  a deterministic stream is a function of the seed and a draw index, so
  theorems quantify over every possible stream.  `uuid4` identifiers are
  modelled by a fresh-name counter (no score or control path in the
  source depends on the identifier text).
* Code that can raise (`KeyError` on a dict access, `ValueError` from
  `max()` on an empty sequence) returns `Option`/`Except`, with `none`
  / `.error` marking the raise.
* The physical models (power / thermal / GPU / network / storage /
  cooling / carbon) are pure per-tick computations recreated from the
  seed on reset; the claims quantify over their outputs, so they enter
  the embedding as an explicit `Physics` parameter rather than as a
  fixed function.
-/

/-- Python `str(d)` for one decimal digit. -/
def digitChar (d : ℕ) : Char := Char.ofNat (48 + d)

/-- Fuel-based decimal printer (most significant digit first); the fuel
keeps the recursion structural so that the kernel can evaluate it. -/
def natStrAux : ℕ → ℕ → List Char → List Char
  | 0, _, acc => acc
  | fuel + 1, n, acc =>
      let acc1 := digitChar (n % 10) :: acc
      if n < 10 then acc1 else natStrAux fuel (n / 10) acc1

/-- Python `str(n)` for a natural number. -/
def natStr (n : ℕ) : String := String.mk (natStrAux (n + 1) n [])

/-- Split a string at `'-'`, like Python `s.split("-")`. -/
def splitDashAux : List Char → List Char → List String
  | [], acc => [String.mk acc.reverse]
  | c :: cs, acc =>
      if c = '-' then String.mk acc.reverse :: splitDashAux cs []
      else splitDashAux cs (c :: acc)

/-- `"a-b-c".split("-") = ["a","b","c"]` -/
def splitDash (s : String) : List String := splitDashAux s.data []

/-- Python `int(s)` restricted to the digit strings the program produces;
non-numeric input gives `none` (the `ValueError` branch). -/
def parseNat (s : String) : Option ℕ :=
  if s.data ≠ [] ∧ s.data.all (fun c => c.isDigit) then
    some (s.data.foldl (fun n c => 10 * n + (c.toNat - 48)) 0)
  else none

/-- Python `s.startswith(pre)`, on the character lists so that the kernel
can evaluate it. -/
def strStartsWith (pre s : String) : Bool := pre.data.isPrefixOf s.data

/-- `"rack-" + str(r)` -/
def rackTarget (r : ℕ) : String := "rack-" ++ natStr r

/-- `"crac-" + str(c)` -/
def cracTarget (c : ℕ) : String := "crac-" ++ natStr c

/-- `"rack-{r}-srv-{s}"` -/
def serverId (r s : ℕ) : String :=
  "rack-" ++ natStr r ++ "-srv-" ++ natStr s

-- ── Config (config.py) ─────────────────────────────────────────

/-- `FacilityConfig` -/
structure FacilityConfig where
  num_racks : ℕ := 8
  servers_per_rack : ℕ := 4
  gpus_per_server : ℕ := 4
deriving Repr, DecidableEq

/-- `ThermalConfig` (the fields the embedded code reads). -/
structure ThermalConfig where
  ambient_temp_c : ℚ := 22
  crac_setpoint_c : ℚ := 18
  max_safe_inlet_temp_c : ℚ := 35
  critical_inlet_temp_c : ℚ := 40
  crac_units : ℕ := 2
deriving Repr, DecidableEq

/-- `WorkloadConfig` (the field the embedded code reads). -/
structure WorkloadConfig where
  mean_job_arrival_interval_s : ℚ := 300
deriving Repr, DecidableEq

/-- `ClockConfig` -/
structure ClockConfig where
  tick_interval_s : ℚ := 60
deriving Repr, DecidableEq

/-- `SimConfig` -/
structure SimConfig where
  facility : FacilityConfig := {}
  thermal : ThermalConfig := {}
  workload : WorkloadConfig := {}
  clock : ClockConfig := {}
  rng_seed : ℤ := 42
deriving Repr, DecidableEq

-- ── Failure engine (failures.py) ───────────────────────────────

/-- `ActiveFailure` (failures.py). -/
structure ActiveFailure where
  failure_id : String
  failure_type : String
  target : String
  started_at : ℚ
  duration_s : Option ℚ
  effect : String := ""
deriving Repr, DecidableEq

/-- The mutable state of `FailureEngine`: the insertion-ordered active
map (ids are unique, so a list of entries), the `_current_time`
attribute (`getattr` default `0.0`), the rng seed and the draw cursor of
its stream, and the fresh-uuid counter. -/
structure EngineState where
  active : List ActiveFailure := []
  current_time : ℚ := 0
  seed : ℤ := 42
  rng_cursor : ℕ := 0
  next_uuid : ℕ := 0
deriving Repr, DecidableEq

namespace FailureEngine

/-- `FailureEngine.__init__(config, rng_seed)` -/
def init (seed : ℤ) : EngineState := { seed := seed }

/-- Fresh failure id (models `uuid.uuid4()`). -/
def freshId (n : ℕ) : String := "failure-" ++ natStr n

/-- `FailureEngine.inject(failure_type, target, duration_s)`.
Returns the updated engine and the list of created failures (`[]` for an
unrecognized type, exactly as the source returns an empty list). -/
def inject (failure_type target : String) (duration_s : Option ℤ)
    (s : EngineState) : EngineState × List ActiveFailure :=
  let failure_id := freshId s.next_uuid
  let current_time := s.current_time
  let mk : Option ℚ → String → ActiveFailure := fun dur eff =>
    { failure_id := failure_id, failure_type := failure_type, target := target,
      started_at := current_time, duration_s := dur, effect := eff }
  let f? : Option ActiveFailure :=
    if failure_type = "crac_degraded" then
      some (mk (some ((duration_s.getD 1200 : ℤ) : ℚ)) "50% cooling capacity")
    else if failure_type = "crac_failure" then
      some (mk (some ((duration_s.getD 600 : ℤ) : ℚ)) "0% cooling capacity")
    else if failure_type = "gpu_degraded" then
      some (mk none "GPU stuck at 30% max util")
    else if failure_type = "pdu_spike" then
      -- `duration_s or 300`: both `None` and `0` fall back to 300
      let d : ℤ := match duration_s with
        | none => 300
        | some d => if d = 0 then 300 else d
      some (mk (some (d : ℚ)) "+20% power draw")
    else if failure_type = "network_partition" then
      some (mk (some 0) "Jobs on rack fail")
    else none
  match f? with
  | none => (s, [])
  | some f =>
      ({ s with active := s.active ++ [f], next_uuid := s.next_uuid + 1 }, [f])

/-- Outcome of the random-injection draws at the head of
`FailureEngine.tick`: either the per-tick coin failed, or it names the
failure drawn (rack id, type, and the duration draw for
`crac_degraded`). -/
inductive InjChoice where
  | quiet
  | cracDegraded (rack_id : ℕ) (dur : ℤ)
  | pduSpike (rack_id : ℕ)
  | netPartition (rack_id : ℕ)
deriving Repr, DecidableEq

/-- `FailureEngine.tick(current_time, facility_state)`: random
injection (driven by the oracle draw), then removal of expired
failures.  Returns the new state and the newly activated failures.
For a `crac_degraded` draw the target CRAC is
`min(rack_id % max(1, crac_units), crac_units - 1)` as in the source. -/
def tick (cfg : SimConfig) (draw : InjChoice) (current_time : ℚ)
    (s : EngineState) : EngineState × List ActiveFailure :=
  let (s1, newly) : EngineState × List ActiveFailure :=
    match draw with
    | .quiet => (s, [])
    | .cracDegraded rack_id dur =>
        let crac_id := min (rack_id % max 1 cfg.thermal.crac_units)
          (cfg.thermal.crac_units - 1)
        (inject "crac_degraded" (cracTarget crac_id) (some dur) s)
    | .pduSpike rack_id =>
        (inject "pdu_spike" (rackTarget rack_id) (some 300) s)
    | .netPartition rack_id =>
        (inject "network_partition" (rackTarget rack_id) (some 0) s)
  let keep := fun (f : ActiveFailure) =>
    match f.duration_s with
    | none => true
    | some d => decide (current_time - f.started_at < d)
  ({ s1 with active := s1.active.filter keep,
             rng_cursor := s1.rng_cursor + 1 }, newly)

/-- `FailureEngine.set_current_time(t)` -/
def set_current_time (t : ℚ) (s : EngineState) : EngineState :=
  { s with current_time := t }

/-- The CRAC unit cooling rack `rack_id`:
`min(crac_units - 1, rack_id // racks_per_crac)` with
`racks_per_crac = max(1, num_racks // crac_units)`. -/
def cracOf (cfg : SimConfig) (rack_id : ℕ) : ℕ :=
  let racks_per_crac := max 1 (cfg.facility.num_racks / cfg.thermal.crac_units)
  min (rack_id / racks_per_crac) (cfg.thermal.crac_units - 1)

/-- Loop body of `get_cooling_capacity_factor`. -/
def coolingFoldStep (tgt : String) (factor : ℚ) (f : ActiveFailure) : ℚ :=
  if f.failure_type = "crac_failure" ∧ f.target = tgt then 0
  else if f.failure_type = "crac_degraded" ∧ f.target = tgt then min factor (1/2)
  else factor

/-- `FailureEngine.get_cooling_capacity_factor(rack_id)` -/
def get_cooling_capacity_factor (cfg : SimConfig) (s : EngineState)
    (rack_id : ℕ) : ℚ :=
  s.active.foldl (coolingFoldStep (cracTarget (cracOf cfg rack_id))) 1

/-- `FailureEngine.get_cooling_capacity_factors()` -/
def get_cooling_capacity_factors (cfg : SimConfig) (s : EngineState) :
    List (ℕ × ℚ) :=
  (List.range cfg.facility.num_racks).map
    (fun r => (r, get_cooling_capacity_factor cfg s r))

/-- `FailureEngine.get_pdu_spike_factor(rack_id)` -/
def get_pdu_spike_factor (s : EngineState) (rack_id : ℕ) : ℚ :=
  if s.active.any (fun f =>
      f.failure_type = "pdu_spike" ∧ f.target = rackTarget rack_id) then
    6/5
  else 1

/-- The rack id an active `network_partition` failure names:
`int(f.target.split("-")[1])` guarded by `startswith("rack-")`, with
`none` for the caught `IndexError`/`ValueError`. -/
def partitionRackOf (f : ActiveFailure) : Option ℕ :=
  if f.failure_type = "network_partition" ∧ strStartsWith "rack-" f.target then
    match (splitDash f.target).get? 1 with
    | some c => parseNat c
    | none => none
  else none

/-- `FailureEngine.get_network_partition_racks()`: the rack ids named by
active `network_partition` failures (a Python `set`; modelled as the
deduplicated list in insertion order — every downstream use is
order-insensitive). -/
def get_network_partition_racks (s : EngineState) : List ℕ :=
  (s.active.filterMap partitionRackOf).dedup

/-- `FailureEngine.get_gpu_degraded_servers()` -/
def get_gpu_degraded_servers (s : EngineState) : List String :=
  ((s.active.filter (fun f => f.failure_type = "gpu_degraded")).map
    (fun f => f.target)).dedup

/-- `FailureEngine.get_active_failures()` -/
def get_active_failures (s : EngineState) : List ActiveFailure := s.active

/-- `FailureEngine.resolve(failure_id)` -/
def resolve (failure_id : String) (s : EngineState) : EngineState × Bool :=
  if s.active.any (fun f => f.failure_id = failure_id) then
    ({ s with active := s.active.filter (fun f => ¬ f.failure_id = failure_id) }, true)
  else (s, false)

end FailureEngine

-- ── Workload queue (models/workload.py) ────────────────────────

/-- `Job` (workload.py). -/
structure Job where
  job_id : String
  name : String
  gpu_requirement : ℕ
  priority : ℤ
  duration_s : ℤ
  submitted_at : ℚ
  started_at : Option ℚ := none
  completed_at : Option ℚ := none
  assigned_servers : List String := []
  status : String := "queued"
  sla_deadline_s : ℚ := 600
  sla_violated : Bool := false
  job_type : String := "batch"
  gpu_util_target : ℚ := 9/10
deriving Repr, DecidableEq

/-- The mutable state of `WorkloadQueue`: the three job lists, the
per-server utilisation map, the rng stream bookkeeping, and the
fresh-uuid counter. -/
structure WorkloadQueue where
  pending : List Job := []
  running : List Job := []
  completed : List Job := []
  server_util : List (String × ℚ) := []
  seed : ℤ := 42
  rng_cursor : ℕ := 0
  next_uuid : ℕ := 0
deriving Repr, DecidableEq

/-- All configured server ids, in rack-major creation order (the dict
insertion order of `_init_server_utilisation`). -/
def serverIdsList (cfg : SimConfig) : List String :=
  (List.range cfg.facility.num_racks).flatMap
    (fun r => (List.range cfg.facility.servers_per_rack).map (serverId r))

/-- `sorted(slots.keys())` — the configured server ids in Python string
order (lexicographic on code points). -/
def sortedServers (cfg : SimConfig) : List String :=
  (serverIdsList cfg).insertionSort (fun a b => a ≤ b)

/-- Occupied GPU slots of one server: occurrences of its id in the
`assigned_servers` multisets of the given (running) jobs. -/
def serverLoad (running : List Job) (sid : String) : ℕ :=
  (running.map (fun j => j.assigned_servers.count sid)).sum

/-- Value of the `_server_gpus_available()` dict at a configured server. -/
def availSlots (cfg : SimConfig) (running : List Job) (sid : String) : ℤ :=
  (cfg.facility.gpus_per_server : ℤ) - (serverLoad running sid : ℤ)

/-- `_server_gpus_available()` raises `KeyError` exactly when a running
job names a server outside the configured set; this guard marks the
calls that succeed. -/
def okServers (cfg : SimConfig) (running : List Job) : Bool :=
  running.all (fun j => j.assigned_servers.all
    (fun sid => (serverIdsList cfg).contains sid))

namespace WorkloadQueue

/-- `WorkloadQueue.__init__` -/
def init (cfg : SimConfig) : WorkloadQueue :=
  { server_util := (serverIdsList cfg).map (fun sid => (sid, 1/20)),
    seed := cfg.rng_seed }

/-- The `_find_placement` loop: first fit over the sorted server ids,
taking `min(needed, avail)` slots per server (only when positive). -/
def placeLoop (avail : String → ℤ) :
    List String → ℤ → List String → List String × ℤ
  | [], needed, assigned => (assigned, needed)
  | sid :: rest, needed, assigned =>
      if needed ≤ 0 then (assigned, needed)
      else
        let take := min needed (avail sid)
        if 0 < take then
          placeLoop avail rest (needed - take)
            (assigned ++ List.replicate take.toNat sid)
        else placeLoop avail rest needed assigned

/-- `WorkloadQueue._find_placement(gpu_req)` against a given running
list. -/
def find_placement (cfg : SimConfig) (running : List Job) (gpu_req : ℕ) :
    Option (List String) :=
  let (assigned, needed) :=
    placeLoop (availSlots cfg running) (sortedServers cfg) (gpu_req : ℤ) []
  if needed = 0 then some assigned else none

/-- One random arrival: the values of the `numpy` draws consumed when
the arrival coin fires (job type index into
`[training, inference, batch]`, then the gpu / duration / priority /
sla draws). -/
structure JobDraw where
  type_idx : Fin 3
  gpu_draw : ℤ
  dur_draw : ℤ
  pri_draw : ℤ
  sla_draw : ℚ
deriving Repr, DecidableEq

/-- `JOB_TYPE_WEIGHTS` key order: the list the sampled index selects
from. -/
def jobTypeNames : List String := ["training", "inference", "batch"]

/-- `JOB_PROFILES[t]["gpu_util"]` -/
def profileGpuUtil : Fin 3 → ℚ
  | 0 => 92/100
  | 1 => 3/5
  | 2 => 85/100

/-- Build the arriving `Job` from the draws (workload.py step, part 1). -/
def mkArrival (d : JobDraw) (current_time : ℚ) (uuid : ℕ) : Job :=
  let jt := jobTypeNames.getD d.type_idx.val "batch"
  let job_id := "job-" ++ natStr uuid
  { job_id := job_id,
    name := jt ++ "-" ++ String.mk (job_id.data.take 8),
    gpu_requirement := (max 1 d.gpu_draw).toNat,
    priority := d.pri_draw,
    duration_s := d.dur_draw,
    submitted_at := current_time,
    sla_deadline_s := d.sla_draw,
    status := "queued",
    job_type := jt,
    gpu_util_target := profileGpuUtil d.type_idx }

/-- Scheduling loop (workload.py step, part 3): first-fit each queued
job in priority order, recomputing availability against the growing
running list. -/
def scheduleLoop (cfg : SimConfig) (t : ℚ) :
    List Job → List Job → List Job → List Job × List Job
  | [], kept, running => (kept, running)
  | job :: rest, kept, running =>
      if job.status ≠ "queued" then
        scheduleLoop cfg t rest (kept ++ [job]) running
      else
        match find_placement cfg running job.gpu_requirement with
        | some placement =>
            scheduleLoop cfg t rest kept (running ++
              [{ job with assigned_servers := placement,
                          started_at := some t, status := "running" }])
        | none => scheduleLoop cfg t rest (kept ++ [job]) running

/-- A running job whose elapsed time has reached its duration
(workload.py step, part 4; jobs with a null `started_at` are skipped). -/
def doneAt (t : ℚ) (j : Job) : Bool :=
  match j.started_at with
  | none => false
  | some st => decide (t - st ≥ (j.duration_s : ℚ))

/-- The completion transition applied to a finished job. -/
def markDone (t : ℚ) (j : Job) : Job :=
  { j with completed_at := some t, status := "completed" }

/-- Completion loop (workload.py step, part 4). -/
def completionLoop (t : ℚ) :
    List Job → List Job → List Job → List Job × List Job
  | [], run, comp => (run, comp)
  | job :: rest, run, comp =>
      if doneAt t job then
        completionLoop t rest run (comp ++ [markDone t job])
      else completionLoop t rest (run ++ [job]) comp

/-- GPU utilisation of one server (workload.py step, part 5): the idle
baseline `0.05` per slot, plus `util − 0.05` per occupied slot,
averaged over `gpus_per_server` and capped at 1. -/
def utilFor (cfg : SimConfig) (running : List Job) (sid : String) : ℚ :=
  let g : ℚ := (cfg.facility.gpus_per_server : ℚ)
  let s := (1/20) * g +
    (running.map (fun j =>
      (j.assigned_servers.count sid : ℚ) * (j.gpu_util_target - 1/20))).sum
  min 1 (s / g)

/-- SLA check (workload.py step, part 2): flag a queued job once its
wait has reached its deadline. -/
def slaUpdate (t : ℚ) (j : Job) : Job :=
  if t - j.submitted_at ≥ j.sla_deadline_s then
    { j with sla_violated := true } else j

/-- Phases 2-5 of `WorkloadQueue.step`, after the arrival phase has
produced the pending list `pending1` and uuid counter `uuid1`. -/
def stepCore (cfg : SimConfig) (t : ℚ) (q : WorkloadQueue)
    (pending1 : List Job) (uuid1 : ℕ) : WorkloadQueue × Bool :=
  let pending2 := pending1.map (slaUpdate t)
  let sorted := pending2.insertionSort (fun a b => b.priority ≤ a.priority)
  if (sorted.any (fun j => j.status = "queued")) ∧ ¬ okServers cfg q.running then
    ({ q with pending := sorted, next_uuid := uuid1,
              rng_cursor := q.rng_cursor + 1 }, false)
  else
    let (kept, running1) := scheduleLoop cfg t sorted [] q.running
    let (running2, newComp) := completionLoop t running1 [] []
    ({ pending := kept, running := running2,
       completed := q.completed ++ newComp,
       server_util := (serverIdsList cfg).map
         (fun sid => (sid, utilFor cfg running2 sid)),
       seed := q.seed, rng_cursor := q.rng_cursor + 1,
       next_uuid := uuid1 }, true)

/-- `WorkloadQueue.step(current_time)`.  Returns the new queue and
`true`, or the partially mutated queue and `false` when the Python call
raises `KeyError` (a running job names an unconfigured server and the
scheduling loop reaches `_find_placement`); in the raise case only the
arrival, SLA and in-place sort mutations have happened. -/
def step (cfg : SimConfig) (draw : Option JobDraw) (t : ℚ)
    (q : WorkloadQueue) : WorkloadQueue × Bool :=
  match draw with
  | none => stepCore cfg t q q.pending q.next_uuid
  | some d =>
      stepCore cfg t q (q.pending ++ [mkArrival d t q.next_uuid])
        (q.next_uuid + 1)

end WorkloadQueue

namespace WorkloadQueue

/-- `WorkloadQueue.get_job(job_id)` -/
def get_job (q : WorkloadQueue) (job_id : String) : Option Job :=
  (q.pending ++ q.running ++ q.completed).find? (fun j => j.job_id = job_id)

/-- The `migrate_job` placement loop over the target rack's servers:
no positivity guard, and `needed -= take` happens unconditionally. -/
def migLoop (avail : String → ℤ) :
    List String → ℤ → List String → List String × ℤ
  | [], needed, assigned => (assigned, needed)
  | sid :: rest, needed, assigned =>
      if needed ≤ 0 then (assigned, needed)
      else
        let take := min needed (avail sid)
        migLoop avail rest (needed - take)
          (assigned ++ List.replicate take.toNat sid)

/-- The in-place reassignment `job.assigned_servers = assigned` of
`migrate_job`, applied to every job carrying the migrating id (ids are
unique in reachable states, so exactly the found job). -/
def updAssign (jid : String) (asg : List String) (j : Job) : Job :=
  if j.job_id = jid then { j with assigned_servers := asg } else j

/-- `slots.get(srv, gpus_per_server)` after the freeing loop of
`migrate_job`: configured servers carry their availability plus the
slots freed from the migrating job, unknown servers fall back to the
dict-get default. -/
def migAvail (cfg : SimConfig) (running : List Job) (job : Job)
    (sid : String) : ℤ :=
  if (serverIdsList cfg).contains sid then
    availSlots cfg running sid + (job.assigned_servers.count sid : ℤ)
  else (cfg.facility.gpus_per_server : ℤ)

/-- `WorkloadQueue.migrate_job(job_id, target_rack_id)`.  `none` marks
the `KeyError` raise of `_server_gpus_available()` (reached only when
the job exists and is running); otherwise the new queue and the
success flag. -/
def migrate_job (cfg : SimConfig) (job_id : String) (target_rack_id : ℕ)
    (q : WorkloadQueue) : Option (WorkloadQueue × Bool) :=
  match q.get_job job_id with
  | none => some (q, false)
  | some job =>
      if job.status ≠ "running" then some (q, false)
      else if ¬ okServers cfg q.running then none
      else
        let targets := (List.range cfg.facility.servers_per_rack).map
          (serverId target_rack_id)
        let (assigned, needed) :=
          migLoop (migAvail cfg q.running job) targets
            (job.gpu_requirement : ℤ) []
        if needed = 0 then
          some ({ q with pending := q.pending.map (updAssign job_id assigned),
                         running := q.running.map (updAssign job_id assigned),
                         completed :=
                           q.completed.map (updAssign job_id assigned) }, true)
        else some (q, false)

/-- `WorkloadQueue.preempt_job(job_id, mark_as_failed)` -/
def preempt_job (job_id : String) (mark_as_failed : Bool)
    (q : WorkloadQueue) : WorkloadQueue × Bool :=
  match q.get_job job_id with
  | none => (q, false)
  | some job =>
      if job.status ≠ "running" then (q, false)
      else
        let job1 := { job with
          status := if mark_as_failed then "failed" else "preempted" }
        (({ q with running := q.running.filter (fun j => ¬ j.job_id = job_id),
                   completed := q.completed ++ [job1] } : WorkloadQueue), true)

/-- `WorkloadQueue.get_sla_violations()` -/
def get_sla_violations (q : WorkloadQueue) : List Job :=
  (q.pending ++ q.completed).filter (fun j => j.sla_violated)

end WorkloadQueue

-- ── Clock (clock.py), telemetry and audit (telemetry.py) ───────

/-- `SimulationClock` -/
structure SimClock where
  tick_interval_s : ℚ
  current_time : ℚ := 0
  tick_count : ℕ := 0
deriving Repr, DecidableEq

/-- `SimulationClock.tick(1)` -/
def SimClock.tick (c : SimClock) : SimClock :=
  { c with tick_count := c.tick_count + 1,
           current_time := c.current_time + c.tick_interval_s }

/-- A JSON-ish audit parameter value. -/
inductive ParamValue where
  | str (v : String)
  | int (v : ℤ)
  | rat (v : ℚ)
  | noneV
deriving Repr, DecidableEq

/-- `AuditEntry` (telemetry.py). -/
structure AuditEntry where
  timestamp : ℚ
  action : String
  params : List (String × ParamValue) := []
  result : String := "ok"
  source : String := "api"
deriving Repr, DecidableEq

/-- `deque(maxlen=cap)` append: push right, dropping from the left when
full. -/
def pushCap {α : Type} (cap : ℕ) (l : List α) (x : α) : List α :=
  let l1 := l ++ [x]
  if cap < l1.length then l1.drop (l1.length - cap) else l1

/-- `AuditLog.record(...)` (capacity 5000). -/
def auditRecord (log : List AuditEntry) (e : AuditEntry) : List AuditEntry :=
  pushCap 5000 log e

-- ── Facility state and the abstracted physical models ──────────

/-- The per-rack thermal fields the evaluator reads. -/
structure ThermalRackState where
  rack_id : ℕ
  inlet_temp_c : ℚ
  throttled : Bool
deriving Repr, DecidableEq

/-- The per-rack storage field the evaluator reads. -/
structure StorageRackState where
  drive_health_pct : ℚ
deriving Repr, DecidableEq

/-- The physical-model portion of a `FacilityState` (the fields the
evaluator and session manager read). -/
structure PhysSnapshot where
  thermal_racks : List ThermalRackState := []
  pue : ℚ := 0
  it_power_kw : ℚ := 0
  total_power_kw : ℚ := 0
  carbon_intensity_gco2_kwh : ℚ := 0
  cumulative_carbon_kg : ℚ := 0
  electricity_price_gbp_kwh : ℚ := 0
  cumulative_cost_gbp : ℚ := 0
  healthy_gpus : ℕ := 0
  avg_sm_util_pct : ℚ := 0
  ecc_error_gpus : ℚ := 0
  total_packet_loss_pct : ℚ := 0
  total_crc_errors : ℚ := 0
  storage_racks : List StorageRackState := []
deriving Repr, DecidableEq

/-- `FacilityState` (models/facility.py). -/
structure FacilityState where
  current_time : ℚ
  tick_count : ℕ
  phys : PhysSnapshot
  workload_pending : ℕ
  workload_running : ℕ
  workload_completed : ℕ
  sla_violations : ℕ
deriving Repr, DecidableEq

/-- The inputs `Facility.step` hands to the physical models each tick
(the per-server utilisation from the workload step, the failure-effect
maps collected by `Simulator.tick`, the operator caps, and the clock). -/
structure PhysicsInputs where
  server_gpu_util : List (String × ℚ)
  cooling_capacity_factor : List (ℕ × ℚ)
  server_max_util_override : Option (List (String × ℚ))
  rack_power_multiplier : Option (List (ℕ × ℚ))
  network_partition_racks : Option (List ℕ)
  server_power_caps : List (String × ℚ)
  running_jobs : List Job
  sim_time : ℚ
  tick_count : ℕ
  tick_interval_s : ℚ
deriving Repr, DecidableEq

/-- The chain of physical models (power, thermal, GPU, network,
storage, cooling, carbon).  Each is a deterministic per-tick
computation over internal state `Φ` recreated from the config (and its
seed) on reset; every claim below holds for an arbitrary such chain, so
the chain is a parameter of the embedding. -/
structure Physics (Φ : Type) where
  init : SimConfig → Φ
  step : Φ → PhysicsInputs → Φ × PhysSnapshot

-- ── Simulator (simulator.py) ───────────────────────────────────

/-- The state owned by `Simulator`: config, clock, workload queue,
failure engine, physics internals, the facility's operator maps
(`_crac_setpoints`, `_server_power_caps`), the telemetry ring buffer,
the audit log, and the continuous-run flag. -/
structure SimState (Φ : Type) where
  config : SimConfig
  clock : SimClock
  queue : WorkloadQueue
  engine : EngineState
  phys : Φ
  crac_setpoints : List (ℕ × ℚ) := []
  server_power_caps : List (String × ℚ) := []
  telemetry : List (ℚ × FacilityState) := []
  audit : List AuditEntry := []
  running : Bool := false

/-- `Simulator.__init__(config)` — also the state produced by
`Simulator.reset()`, which reconstructs every component from the
config. -/
def initSim {Φ : Type} (P : Physics Φ) (cfg : SimConfig) : SimState Φ :=
  { config := cfg,
    clock := { tick_interval_s := cfg.clock.tick_interval_s },
    queue := WorkloadQueue.init cfg,
    engine := FailureEngine.init cfg.rng_seed,
    phys := P.init cfg }

/-- `Simulator.reset()` -/
def simReset {Φ : Type} (P : Physics Φ) (s : SimState Φ) : SimState Φ :=
  initSim P s.config

/-- The partition effect applied by `Simulator.tick`: preempt (to
`failed`) every running job whose first assigned server starts with
`rack-{r}-`. -/
def failRack (r : ℕ) (q : WorkloadQueue) : WorkloadQueue :=
  q.running.foldl (fun q1 j =>
    if (j.assigned_servers.head?.elim false
        (fun h => strStartsWith (rackTarget r ++ "-") h)) then
      (WorkloadQueue.preempt_job j.job_id true q1).1
    else q1) q

/-- A deterministic random stream for the failure engine: the draw is a
function of the seed and the draw cursor. -/
def EngOracle : Type := ℤ → ℕ → FailureEngine.InjChoice

/-- A deterministic random stream for the workload queue. -/
def ArrOracle : Type := ℤ → ℕ → Option WorkloadQueue.JobDraw

/-- `Simulator.tick(1)` (simulator.py): advance the clock, give the
engine the new time, run its random-injection/expiry tick, apply the
network-partition preemption loop, collect the failure effect maps
(cooling factors adjusted by the CRAC setpoints, GPU-degraded max-util
overrides, PDU-spike rack multipliers), step the facility, and append
the produced state to telemetry.  `none` marks the `KeyError` raise
escaping from `WorkloadQueue.step`. -/
def simTick {Φ : Type} (P : Physics Φ) (engO : EngOracle) (arrO : ArrOracle)
    (s : SimState Φ) : Option (SimState Φ × FacilityState) :=
  let clock1 := s.clock.tick
  let t := clock1.current_time
  let eng0 := FailureEngine.set_current_time t s.engine
  let (eng1, _) :=
    FailureEngine.tick s.config (engO eng0.seed eng0.rng_cursor) t eng0
  let partition_racks := FailureEngine.get_network_partition_racks eng1
  let queue1 := partition_racks.foldl (fun q r => failRack r q) s.queue
  let default_sp := s.config.thermal.crac_setpoint_c
  let cooling := (FailureEngine.get_cooling_capacity_factors s.config eng1).map
    (fun rc =>
      match s.crac_setpoints.lookup rc.1 with
      | some sp =>
          (rc.1, rc.2 * max (4/5) (min (6/5) (1 + (default_sp - sp) * (3/100))))
      | none => rc)
  let gpu_degraded := FailureEngine.get_gpu_degraded_servers eng1
  let server_max_util : Option (List (String × ℚ)) :=
    if gpu_degraded.isEmpty then none
    else some (gpu_degraded.map (fun sid => (sid, 3/10)))
  let rack_mult := (List.range s.config.facility.num_racks).filterMap
    (fun r =>
      let m := FailureEngine.get_pdu_spike_factor eng1 r
      if m ≠ 1 then some (r, m) else none)
  match WorkloadQueue.step s.config (arrO queue1.seed queue1.rng_cursor) t queue1 with
  | (_, false) => none
  | (q2, true) =>
      let inputs : PhysicsInputs :=
        { server_gpu_util := q2.server_util,
          cooling_capacity_factor := cooling,
          server_max_util_override := server_max_util,
          rack_power_multiplier :=
            if rack_mult.isEmpty then none else some rack_mult,
          network_partition_racks :=
            if partition_racks.isEmpty then none else some partition_racks,
          server_power_caps := s.server_power_caps,
          running_jobs := q2.running,
          sim_time := t,
          tick_count := clock1.tick_count,
          tick_interval_s := s.config.clock.tick_interval_s }
      let (phys1, snap) := P.step s.phys inputs
      let st : FacilityState :=
        { current_time := t, tick_count := clock1.tick_count, phys := snap,
          workload_pending := q2.pending.length,
          workload_running := q2.running.length,
          workload_completed := q2.completed.length,
          sla_violations := q2.get_sla_violations.length }
      some ({ s with clock := clock1, queue := q2, engine := eng1,
                     phys := phys1,
                     telemetry := pushCap 1000 s.telemetry (t, st) }, st)

-- ── Facts about the failure engine ─────────────────────────────

namespace FailureEngine

/-- `inject` either creates nothing (unknown type) or appends exactly
one failure stamped with the engine's `_current_time`. -/
theorem inject_spec (ft tgt : String) (d : Option ℤ) (s : EngineState) :
    ((inject ft tgt d s).2 = [] ∧ (inject ft tgt d s).1 = s) ∨
    (∃ f, (inject ft tgt d s).2 = [f] ∧
      (inject ft tgt d s).1 =
        { s with active := s.active ++ [f], next_uuid := s.next_uuid + 1 } ∧
      f.started_at = s.current_time) := by
  unfold inject
  dsimp only
  split
  · exact Or.inl ⟨rfl, rfl⟩
  · next f heq =>
      refine Or.inr ⟨f, rfl, rfl, ?_⟩
      repeat' split at heq
      all_goals first
        | exact Option.noConfusion heq
        | (injection heq with h; subst h; rfl)

end FailureEngine

namespace FailureEngine

/-- A failure whose (non-null) duration has already elapsed at time `t`
never survives the expiry filter of `tick`. -/
theorem not_mem_expiry_filter (t : ℚ) (l : List ActiveFailure)
    (f : ActiveFailure) (q : ℚ) (hdur : f.duration_s = some q)
    (hle : q ≤ t - f.started_at) :
    f ∉ l.filter (fun g =>
      match g.duration_s with
      | none => true
      | some d => decide (t - g.started_at < d)) := by
  intro hmem
  have hk := List.of_mem_filter hmem
  rw [hdur] at hk
  simp only [decide_eq_true_eq] at hk
  linarith

end FailureEngine

/-- C2.  A failure injected with `duration_s ≤ 0` (for instance every
`network_partition`) stays in the active set — visible to
`get_active_failures` and, via its parsed rack, to
`get_network_partition_racks` — for the whole window between its
injection and the next `FailureEngine.tick`; that first tick (at any
time not before the injection time) then removes it, for every random
draw. -/
theorem instant_failure_occupies_one_tick_window
    (s s' : EngineState) (ft tgt : String) (d : Option ℤ)
    (f : ActiveFailure) (q : ℚ)
    (hinj : FailureEngine.inject ft tgt d s = (s', [f]))
    (hdur : f.duration_s = some q) (hq : q ≤ 0) :
    f ∈ FailureEngine.get_active_failures s' ∧
    (∀ r, FailureEngine.partitionRackOf f = some r →
      r ∈ FailureEngine.get_network_partition_racks s') ∧
    (∀ cfg draw t, s.current_time ≤ t →
      f ∉ (FailureEngine.tick cfg draw t s').1.active) := by
  rcases FailureEngine.inject_spec ft tgt d s with ⟨h2, _⟩ | ⟨g, h2, h1, hst⟩
  · rw [hinj] at h2; exact absurd h2 (by simp)
  · have hfs : [f] = [g] := by rw [← h2, hinj]
    injection hfs with hf _
    subst hf
    have hs' : s' =
        { s with active := s.active ++ [f], next_uuid := s.next_uuid + 1 } := by
      rw [← h1, hinj]
    have hmem : f ∈ s'.active := by rw [hs']; simp
    refine ⟨hmem, ?_, ?_⟩
    · intro r hr
      unfold FailureEngine.get_network_partition_racks
      exact List.mem_dedup.mpr (List.mem_filterMap.mpr ⟨f, hmem, hr⟩)
    · intro cfg draw t ht hcontra
      have hle : q ≤ t - f.started_at := by
        rw [hst]; linarith
      cases draw <;>
        exact FailureEngine.not_mem_expiry_filter t _ f q hdur hle
          (by simpa [FailureEngine.tick] using hcontra)

/-- Concrete failure for the C2 witness. -/
def c2fail : ActiveFailure :=
  { failure_id := "failure-0", failure_type := "network_partition",
    target := "rack-0", started_at := 0, duration_s := some 0,
    effect := "Jobs on rack fail" }

/-- Engine state right after the C2 witness injection. -/
def c2eng : EngineState := { active := [c2fail], next_uuid := 1 }

/-- Witness for C2: a `network_partition` injected into a fresh engine. -/
theorem instant_failure_occupies_one_tick_window_witness :
    FailureEngine.inject "network_partition" "rack-0" none {} = (c2eng, [c2fail]) ∧
    c2fail.duration_s = some 0 ∧ (0:ℚ) ≤ 0 ∧
    (c2fail ∈ FailureEngine.get_active_failures c2eng ∧
     (∀ r, FailureEngine.partitionRackOf c2fail = some r →
       r ∈ FailureEngine.get_network_partition_racks c2eng) ∧
     (∀ cfg draw t, ({} : EngineState).current_time ≤ t →
       c2fail ∉ (FailureEngine.tick cfg draw t c2eng).1.active)) :=
  ⟨rfl, rfl, le_refl 0,
    instant_failure_occupies_one_tick_window {} c2eng "network_partition"
      "rack-0" none c2fail 0 rfl rfl (le_refl 0)⟩

/-- C3.  `inject` hard-codes `duration_s = 0.0` for `network_partition`
whatever the caller passes, while an explicit positive duration is
honoured by `crac_degraded`, `crac_failure` and `pdu_spike`. -/
theorem network_partition_duration_ignored
    (s : EngineState) (tgt : String) (d : Option ℤ) :
    ((FailureEngine.inject "network_partition" tgt d s).2.map
        (fun f => f.duration_s) = [some 0]) ∧
    (∀ dd : ℤ, 0 < dd →
      ((FailureEngine.inject "crac_degraded" tgt (some dd) s).2.map
          (fun f => f.duration_s) = [some (dd:ℚ)]) ∧
      ((FailureEngine.inject "crac_failure" tgt (some dd) s).2.map
          (fun f => f.duration_s) = [some (dd:ℚ)]) ∧
      ((FailureEngine.inject "pdu_spike" tgt (some dd) s).2.map
          (fun f => f.duration_s) = [some (dd:ℚ)])) := by
  refine ⟨by simp [FailureEngine.inject], ?_⟩
  intro dd hdd
  have hne : ¬ dd = 0 := by omega
  exact ⟨by simp [FailureEngine.inject], by simp [FailureEngine.inject],
    by simp [FailureEngine.inject, hne]⟩

/-- Witness for C3 with an explicit positive duration. -/
theorem network_partition_duration_ignored_witness :
    (0:ℤ) < 5 ∧
    (((FailureEngine.inject "network_partition" "rack-3" (some 5) {}).2.map
        (fun f => f.duration_s) = [some 0]) ∧
     ((FailureEngine.inject "crac_degraded" "crac-0" (some 5) {}).2.map
        (fun f => f.duration_s) = [some (5:ℚ)])) :=
  ⟨by decide,
   (network_partition_duration_ignored {} "rack-3" (some 5)).1,
   ((network_partition_duration_ignored {} "crac-0" (some 5)).2 5
     (by decide)).1⟩

namespace FailureEngine

/-- Characterisation of the `get_cooling_capacity_factor` loop: a
`crac_failure` on the CRAC pins the factor at 0 wherever it sits in the
iteration; otherwise any number of `crac_degraded` entries
min-accumulate at 1/2. -/
theorem coolingFold_char (tgt : String) (l : List ActiveFailure) (x : ℚ) :
    l.foldl (coolingFoldStep tgt) x =
      if l.any (fun f => f.failure_type = "crac_failure" ∧ f.target = tgt) then 0
      else if l.any (fun f =>
          f.failure_type = "crac_degraded" ∧ f.target = tgt) then min x (1/2)
      else x := by
  induction l generalizing x with
  | nil => simp
  | cons f rest ih =>
      simp only [List.foldl_cons, List.any_cons, Bool.or_eq_true,
        decide_eq_true_eq]
      by_cases h1 : f.failure_type = "crac_failure" ∧ f.target = tgt
      · rw [show coolingFoldStep tgt x f = 0 from by simp [coolingFoldStep, h1],
          ih, if_pos (Or.inl h1)]
        have hmin : min (0:ℚ) (1/2) = 0 :=
          min_eq_left (by norm_num)
        split_ifs <;> simp [hmin]
      · by_cases h2 : f.failure_type = "crac_degraded" ∧ f.target = tgt
        · rw [show coolingFoldStep tgt x f = min x (1/2) from by
              simp [coolingFoldStep, h1, h2], ih]
          by_cases hf : (rest.any fun f =>
              decide (f.failure_type = "crac_failure" ∧ f.target = tgt)) = true
          · rw [if_pos hf, if_pos (Or.inr hf)]
          · rw [if_neg hf,
              if_neg (show ¬(f.failure_type = "crac_failure" ∧ f.target = tgt ∨
                (rest.any fun f => decide (f.failure_type = "crac_failure" ∧
                  f.target = tgt)) = true) from fun hor => hor.elim h1 hf),
              if_pos (Or.inl h2)]
            have hmin : min (min x (1/2)) (1/2) = min x (1/2) := by
              rw [min_assoc, min_self]
            split_ifs <;> simp [hmin]
        · rw [show coolingFoldStep tgt x f = x from by
              simp [coolingFoldStep, h1, h2], ih]
          simp only [h1, h2, false_or]

end FailureEngine

/-- C6.  `get_cooling_capacity_factor` maps the rack to its CRAC by
`crac_id = min(crac_units − 1, rack_id // max(1, num_racks // crac_units))`
and returns 0 if any active `crac_failure` targets that CRAC (whatever
the iteration order and however many `crac_degraded` entries coexist),
else 1/2 if at least one `crac_degraded` targets it (independent of
multiplicity), else 1.  The hypothesis rules out the
`ZeroDivisionError` configuration `crac_units = 0`. -/
theorem cooling_factor_characterisation
    (cfg : SimConfig) (s : EngineState) (rack_id : ℕ)
    (_h : 0 < cfg.thermal.crac_units) :
    FailureEngine.get_cooling_capacity_factor cfg s rack_id =
      (let crac_id := min (cfg.thermal.crac_units - 1)
        (rack_id / max 1 (cfg.facility.num_racks / cfg.thermal.crac_units))
       if s.active.any (fun f => f.failure_type = "crac_failure" ∧
           f.target = cracTarget crac_id) then 0
       else if s.active.any (fun f => f.failure_type = "crac_degraded" ∧
           f.target = cracTarget crac_id) then 1/2
       else 1) := by
  have hc : FailureEngine.cracOf cfg rack_id =
      min (cfg.thermal.crac_units - 1)
        (rack_id / max 1 (cfg.facility.num_racks / cfg.thermal.crac_units)) := by
    unfold FailureEngine.cracOf
    exact Nat.min_comm _ _
  unfold FailureEngine.get_cooling_capacity_factor
  rw [FailureEngine.coolingFold_char, hc]
  dsimp only
  rw [min_eq_right (show (1:ℚ)/2 ≤ 1 by norm_num)]

/-- Witness for C6 on the default configuration with one degraded and
one failed CRAC entry on the same unit. -/
theorem cooling_factor_characterisation_witness :
    0 < ({} : SimConfig).thermal.crac_units ∧
    FailureEngine.get_cooling_capacity_factor {}
      { active := [
          { failure_id := "a", failure_type := "crac_degraded",
            target := "crac-0", started_at := 0, duration_s := some 1200,
            effect := "" },
          { failure_id := "b", failure_type := "crac_failure",
            target := "crac-0", started_at := 0, duration_s := some 600,
            effect := "" }] } 0 =
      (let crac_id := min (({} : SimConfig).thermal.crac_units - 1)
        (0 / max 1 (({} : SimConfig).facility.num_racks /
          ({} : SimConfig).thermal.crac_units))
       if ([
          { failure_id := "a", failure_type := "crac_degraded",
            target := "crac-0", started_at := 0, duration_s := some 1200,
            effect := "" },
          { failure_id := "b", failure_type := "crac_failure",
            target := "crac-0", started_at := 0, duration_s := some 600,
            effect := "" }] : List ActiveFailure).any
            (fun f => f.failure_type = "crac_failure" ∧
              f.target = cracTarget crac_id) then 0
       else if ([
          { failure_id := "a", failure_type := "crac_degraded",
            target := "crac-0", started_at := 0, duration_s := some 1200,
            effect := "" },
          { failure_id := "b", failure_type := "crac_failure",
            target := "crac-0", started_at := 0, duration_s := some 600,
            effect := "" }] : List ActiveFailure).any
            (fun f => f.failure_type = "crac_degraded" ∧
              f.target = cracTarget crac_id) then 1/2
       else 1) :=
  ⟨Nat.succ_pos 1, cooling_factor_characterisation {} _ 0 (Nat.succ_pos 1)⟩

-- ── Decimal identifier strings are injective ───────────────────

theorem natStrAux_acc (fuel n : ℕ) (acc : List Char) :
    natStrAux fuel n acc = natStrAux fuel n [] ++ acc := by
  induction fuel generalizing n acc with
  | zero => simp [natStrAux]
  | succ fuel ih =>
      simp only [natStrAux]
      by_cases h : n < 10
      · simp [h]
      · simp only [h, if_false]
        rw [ih (n / 10) (digitChar (n % 10) :: acc),
          ih (n / 10) [digitChar (n % 10)]]
        simp

theorem natStrAux_fuel (fuel n : ℕ) (h : n < fuel) :
    natStrAux fuel n [] = natStrAux (n + 1) n [] := by
  induction n using Nat.strong_induction_on generalizing fuel with
  | _ n ih =>
      match fuel, h with
      | fuel + 1, h =>
        simp only [natStrAux]
        by_cases h10 : n < 10
        · simp [h10]
        · simp only [h10, if_false]
          rw [natStrAux_acc fuel, natStrAux_acc n]
          have hd : n / 10 < n := Nat.div_lt_self (by omega) (by omega)
          rw [ih (n / 10) hd fuel (by omega), ih (n / 10) hd n (by omega)]

/-- Decimal valuation of a character list. -/
def decVal (l : List Char) : ℕ :=
  l.foldl (fun a c => 10 * a + (c.toNat - 48)) 0

theorem decVal_append_digit (l : List Char) (c : Char) :
    decVal (l ++ [c]) = 10 * decVal l + (c.toNat - 48) := by
  simp [decVal, List.foldl_append]

theorem digitChar_toNat (d : ℕ) (h : d < 10) :
    (digitChar d).toNat = 48 + d := by
  interval_cases d <;> decide

/-- Reading `natStr n` back as a decimal number gives `n`, so `natStr`
is injective. -/
theorem decVal_natStr (n : ℕ) : decVal (natStr n).data = n := by
  induction n using Nat.strong_induction_on with
  | _ n ih =>
      by_cases h10 : n < 10
      · simp only [natStr, natStrAux, h10, if_true]
        simp only [decVal, List.foldl_cons, List.foldl_nil,
          Nat.mod_eq_of_lt h10]
        rw [digitChar_toNat n h10]
        omega
      · simp only [natStr, natStrAux, h10, if_false]
        rw [natStrAux_acc, natStrAux_fuel n (n / 10) (by omega)]
        have hd : n / 10 < n := Nat.div_lt_self (by omega) (by omega)
        have hv := ih (n / 10) hd
        simp only [natStr] at hv
        rw [decVal_append_digit, hv,
          digitChar_toNat _ (Nat.mod_lt n (by omega))]
        omega

theorem natStr_data_inj {m n : ℕ} (h : (natStr m).data = (natStr n).data) :
    m = n := by
  have : decVal (natStr m).data = decVal (natStr n).data := by rw [h]
  rwa [decVal_natStr, decVal_natStr] at this

/-- Every character of `natStr n` is a decimal digit. -/
theorem natStr_digits (n : ℕ) : ∀ c ∈ (natStr n).data, c.isDigit := by
  suffices h : ∀ fuel n acc, (∀ c ∈ acc, c.isDigit) →
      ∀ c ∈ natStrAux fuel n acc, c.isDigit by
    intro c hc
    exact h (n + 1) n [] (by simp) c hc
  intro fuel
  induction fuel with
  | zero => intro n acc hacc c hc; exact hacc c hc
  | succ fuel ih =>
      intro n acc hacc c hc
      have hdig : (digitChar (n % 10)).isDigit := by
        have hlt : n % 10 < 10 := Nat.mod_lt _ (by omega)
        interval_cases h : n % 10 <;> decide
      simp only [natStrAux] at hc
      by_cases h10 : n < 10
      · simp only [h10, if_true] at hc
        rcases List.mem_cons.mp hc with rfl | hc
        · simpa using hdig
        · exact hacc c hc
      · simp only [h10, if_false] at hc
        exact ih (n / 10) _ (fun c hc => by
          rcases List.mem_cons.mp hc with rfl | hc
          · simpa using hdig
          · exact hacc c hc) c hc

theorem natStr_no_dash (n : ℕ) : ∀ c ∈ (natStr n).data, c ≠ '-' := by
  intro c hc
  have hd := natStr_digits n c hc
  intro h
  rw [h] at hd
  exact absurd hd (by decide)

/-- A list with a distinguished first `'-'` separator splits uniquely. -/
theorem dash_split_unique (l1 l2 t1 t2 : List Char)
    (h1 : ∀ c ∈ l1, c ≠ '-') (h2 : ∀ c ∈ l2, c ≠ '-')
    (h : l1 ++ '-' :: t1 = l2 ++ '-' :: t2) : l1 = l2 ∧ t1 = t2 := by
  induction l1 generalizing l2 with
  | nil =>
      cases l2 with
      | nil => simpa using h
      | cons c l2 =>
          simp only [List.nil_append, List.cons_append, List.cons.injEq] at h
          exact absurd h.1.symm (h2 c (by simp))
  | cons c l1 ih =>
      cases l2 with
      | nil =>
          simp only [List.cons_append, List.nil_append, List.cons.injEq] at h
          exact absurd h.1 (h1 c (by simp))
      | cons d l2 =>
          simp only [List.cons_append, List.cons.injEq] at h
          obtain ⟨rfl, h⟩ := h
          obtain ⟨h3, h4⟩ := ih l2 (fun c hc => h1 c (List.mem_cons_of_mem _ hc))
            (fun c hc => h2 c (List.mem_cons_of_mem _ hc)) h
          exact ⟨by rw [h3], h4⟩

theorem serverId_inj (r s r' s' : ℕ) (h : serverId r s = serverId r' s') :
    r = r' ∧ s = s' := by
  have hd : "rack-".data ++ ((natStr r).data ++ '-' ::
        ('s' :: 'r' :: 'v' :: '-' :: (natStr s).data)) =
      "rack-".data ++ ((natStr r').data ++ '-' ::
        ('s' :: 'r' :: 'v' :: '-' :: (natStr s').data)) := by
    have hdata := congrArg String.data h
    simpa [serverId, List.append_assoc] using hdata
  have hmid := List.append_cancel_left hd
  obtain ⟨h1, h2⟩ := dash_split_unique _ _ _ _ (natStr_no_dash r)
    (natStr_no_dash r') hmid
  simp only [List.cons.injEq, true_and] at h2
  exact ⟨natStr_data_inj h1, natStr_data_inj h2⟩

/-- The configured server list has no duplicates. -/
theorem serverIdsList_nodup (cfg : SimConfig) : (serverIdsList cfg).Nodup := by
  unfold serverIdsList
  refine List.nodup_flatMap.2 ⟨?_, ?_⟩
  · intro r _
    exact (List.nodup_range _).map
      (fun a b hab => (serverId_inj r a r b hab).2)
  · refine List.Pairwise.imp ?_ (List.pairwise_lt_range _)
    intro r r' hlt x hx hy
    simp only [Function.onFun, List.mem_map] at hx hy
    obtain ⟨a, _, rfl⟩ := hx
    obtain ⟨b, _, hba⟩ := hy
    have := (serverId_inj r' b r a hba).1
    omega

-- ── Workload queue: slot-capacity machinery ────────────────────

namespace WorkloadQueue

theorem sortedServers_perm (cfg : SimConfig) :
    List.Perm (sortedServers cfg) (serverIdsList cfg) :=
  (serverIdsList cfg).perm_insertionSort _

theorem sortedServers_nodup (cfg : SimConfig) : (sortedServers cfg).Nodup :=
  (sortedServers_perm cfg).symm.nodup (serverIdsList_nodup cfg)

theorem serverLoad_append (l1 l2 : List Job) (sid : String) :
    serverLoad (l1 ++ l2) sid = serverLoad l1 sid + serverLoad l2 sid := by
  simp [serverLoad]

theorem serverLoad_cons (j : Job) (l : List Job) (sid : String) :
    serverLoad (j :: l) sid = j.assigned_servers.count sid + serverLoad l sid := by
  simp [serverLoad]

theorem serverLoad_filter_le (p : Job → Bool) (l : List Job) (sid : String) :
    serverLoad (l.filter p) sid ≤ serverLoad l sid := by
  induction l with
  | nil => simp [serverLoad]
  | cons j rest ih =>
      rw [serverLoad_cons]
      cases hp : p j
      · rw [List.filter_cons, if_neg (by simp [hp])]
        omega
      · rw [List.filter_cons, if_pos (by simp [hp]), serverLoad_cons]
        omega

/-- Per-server bound on what the `_find_placement` loop hands out: over
a duplicate-free server list, a server contributes at most its snapshot
availability. -/
theorem placeLoop_count (avail : String → ℤ) (sids : List String)
    (hnd : sids.Nodup) (needed : ℤ) (assigned : List String) (sid : String) :
    ((placeLoop avail sids needed assigned).1.count sid : ℤ) ≤
      assigned.count sid + (if sid ∈ sids then max 0 (avail sid) else 0) := by
  induction sids generalizing needed assigned with
  | nil => simp [placeLoop]
  | cons sid' rest ih =>
      have hnd' : rest.Nodup := hnd.of_cons
      have hnmem : sid' ∉ rest := (List.nodup_cons.mp hnd).1
      have hnn : (0:ℤ) ≤ if sid ∈ sid' :: rest then max 0 (avail sid) else 0 := by
        split
        · exact le_max_left _ _
        · exact le_refl 0
      simp only [placeLoop]
      by_cases h0 : needed ≤ 0
      · simp only [h0, if_true]
        omega
      · simp only [h0, if_false]
        by_cases hpos : 0 < min needed (avail sid')
        · simp only [hpos, if_true]
          have hb := ih hnd' (needed - min needed (avail sid'))
            (assigned ++ List.replicate (min needed (avail sid')).toNat sid')
          rw [List.count_append, List.count_replicate] at hb
          by_cases hss : sid = sid'
          · subst hss
            rw [if_pos (by simp)] at hb
            rw [if_neg (by simp [hnmem])] at hb
            rw [if_pos (List.mem_cons_self sid rest)]
            have htn : ((min needed (avail sid)).toNat : ℤ) =
                min needed (avail sid) := Int.toNat_of_nonneg (le_of_lt hpos)
            have hta : min needed (avail sid) ≤ avail sid := min_le_right _ _
            have hmax : min needed (avail sid) ≤ max 0 (avail sid) :=
              le_trans hta (le_max_right _ _)
            push_cast at hb ⊢
            omega
          · rw [if_neg (by simp [Ne.symm hss])] at hb
            by_cases hmem : sid ∈ rest
            · rw [if_pos hmem] at hb
              rw [if_pos (List.mem_cons_of_mem _ hmem)]
              push_cast at hb ⊢
              omega
            · rw [if_neg hmem] at hb
              rw [if_neg (by simp [hss, hmem])]
              push_cast at hb ⊢
              omega
        · simp only [hpos, if_false]
          have hb := ih hnd' needed assigned
          by_cases hmem : sid ∈ rest
          · rw [if_pos hmem] at hb
            rw [if_pos (List.mem_cons_of_mem _ hmem)]
            exact hb
          · rw [if_neg hmem] at hb
            omega

/-- Everything the placement loop assigns comes from the iterated
server list (or the starting accumulator). -/
theorem placeLoop_mem (avail : String → ℤ) (sids : List String)
    (needed : ℤ) (assigned : List String) :
    ∀ sid ∈ (placeLoop avail sids needed assigned).1,
      sid ∈ assigned ∨ sid ∈ sids := by
  induction sids generalizing needed assigned with
  | nil => intro sid h; simp only [placeLoop] at h; exact Or.inl h
  | cons sid' rest ih =>
      intro sid h
      simp only [placeLoop] at h
      by_cases h0 : needed ≤ 0
      · simp only [h0, if_true] at h; exact Or.inl h
      · simp only [h0, if_false] at h
        by_cases hpos : 0 < min needed (avail sid')
        · simp only [hpos, if_true] at h
          rcases ih _ _ sid h with hmem | hmem
          · rcases List.mem_append.mp hmem with hmem | hmem
            · exact Or.inl hmem
            · exact Or.inr (by
                have := List.eq_of_mem_replicate hmem
                simp [this])
          · exact Or.inr (List.mem_cons_of_mem _ hmem)
        · simp only [hpos, if_false] at h
          rcases ih _ _ sid h with hmem | hmem
          · exact Or.inl hmem
          · exact Or.inr (List.mem_cons_of_mem _ hmem)

theorem find_placement_count (cfg : SimConfig) (running : List Job)
    (gpu_req : ℕ) (placement : List String)
    (h : find_placement cfg running gpu_req = some placement) (sid : String) :
    (placement.count sid : ℤ) ≤ max 0 (availSlots cfg running sid) := by
  unfold find_placement at h
  set pr := placeLoop (availSlots cfg running) (sortedServers cfg)
    (gpu_req : ℤ) [] with hpr
  by_cases hz : pr.2 = 0
  · simp only [← hpr, hz, if_true] at h
    have hc := placeLoop_count (availSlots cfg running) (sortedServers cfg)
      (sortedServers_nodup cfg) (gpu_req : ℤ) [] sid
    rw [← hpr] at hc
    injection h with h
    subst h
    simp only [List.count_nil] at hc
    by_cases hmem : sid ∈ sortedServers cfg
    · simpa [hmem] using hc
    · simp only [hmem, if_false] at hc
      have := le_max_left (0:ℤ) (availSlots cfg running sid)
      omega
  · simp only [← hpr, hz, if_false] at h
    exact absurd h (by simp)

theorem find_placement_mem (cfg : SimConfig) (running : List Job)
    (gpu_req : ℕ) (placement : List String)
    (h : find_placement cfg running gpu_req = some placement) :
    ∀ sid ∈ placement, sid ∈ serverIdsList cfg := by
  unfold find_placement at h
  set pr := placeLoop (availSlots cfg running) (sortedServers cfg)
    (gpu_req : ℤ) [] with hpr
  by_cases hz : pr.2 = 0
  · simp only [← hpr, hz, if_true] at h
    injection h with h
    subst h
    intro sid hs
    rcases placeLoop_mem (availSlots cfg running) (sortedServers cfg)
      (gpu_req : ℤ) [] sid hs with hc | hc
    · exact absurd hc (by simp)
    · exact (sortedServers_perm cfg).mem_iff.mp hc
  · simp only [← hpr, hz, if_false] at h
    exact absurd h (by simp)

end WorkloadQueue

namespace WorkloadQueue

/-- The per-server capacity invariant of claim C9. -/
def CapOK (cfg : SimConfig) (running : List Job) : Prop :=
  ∀ sid ∈ serverIdsList cfg,
    serverLoad running sid ≤ cfg.facility.gpus_per_server

theorem serverLoad_nil (sid : String) : serverLoad [] sid = 0 := rfl

theorem scheduleLoop_cons (cfg : SimConfig) (t : ℚ) (job : Job)
    (rest kept running : List Job) :
    scheduleLoop cfg t (job :: rest) kept running =
      if job.status ≠ "queued" then
        scheduleLoop cfg t rest (kept ++ [job]) running
      else
        match find_placement cfg running job.gpu_requirement with
        | some placement =>
            scheduleLoop cfg t rest kept (running ++
              [{ job with assigned_servers := placement,
                          started_at := some t, status := "running" }])
        | none => scheduleLoop cfg t rest (kept ++ [job]) running := rfl

theorem scheduleLoop_cap (cfg : SimConfig) (t : ℚ) :
    ∀ (jobs kept running : List Job), CapOK cfg running →
      CapOK cfg (scheduleLoop cfg t jobs kept running).2 := by
  intro jobs
  induction jobs with
  | nil => intro kept running h; exact h
  | cons job rest ih =>
      intro kept running h
      rw [scheduleLoop_cons]
      by_cases hq : job.status ≠ "queued"
      · rw [if_pos hq]
        exact ih _ _ h
      · rw [if_neg hq]
        cases hp : find_placement cfg running job.gpu_requirement with
        | none => exact ih _ _ h
        | some placement =>
            refine ih _ _ ?_
            intro sid hsid
            rw [serverLoad_append, serverLoad_cons, serverLoad_nil]
            have hload := h sid hsid
            have hcnt := find_placement_count cfg running
              job.gpu_requirement placement hp sid
            have havail : availSlots cfg running sid =
                (cfg.facility.gpus_per_server : ℤ) -
                  (serverLoad running sid : ℤ) := rfl
            have hnn : (0:ℤ) ≤ availSlots cfg running sid := by
              rw [havail]; omega
            rw [max_eq_right hnn, havail] at hcnt
            push_cast at hcnt ⊢
            omega

theorem scheduleLoop_run_mem (cfg : SimConfig) (t : ℚ) :
    ∀ (jobs kept running : List Job) (j : Job),
      j ∈ (scheduleLoop cfg t jobs kept running).2 →
      j ∈ running ∨ ∃ j0 ∈ jobs, j0.status = "queued" ∧
        ∃ rl pl, find_placement cfg rl j0.gpu_requirement = some pl ∧
          j = { j0 with assigned_servers := pl, started_at := some t,
                        status := "running" } := by
  intro jobs
  induction jobs with
  | nil => intro kept running j h; exact Or.inl h
  | cons job rest ih =>
      intro kept running j h
      rw [scheduleLoop_cons] at h
      by_cases hq : job.status ≠ "queued"
      · rw [if_pos hq] at h
        rcases ih _ _ _ h with hm | ⟨j0, hj0, hrest⟩
        · exact Or.inl hm
        · exact Or.inr ⟨j0, List.mem_cons_of_mem _ hj0, hrest⟩
      · rw [if_neg hq] at h
        have hq' : job.status = "queued" := by
          by_contra hc; exact hq hc
        cases hp : find_placement cfg running job.gpu_requirement with
        | none =>
            rw [hp] at h
            rcases ih _ _ _ h with hm | ⟨j0, hj0, hrest⟩
            · exact Or.inl hm
            · exact Or.inr ⟨j0, List.mem_cons_of_mem _ hj0, hrest⟩
        | some placement =>
            rw [hp] at h
            rcases ih _ _ _ h with hm | ⟨j0, hj0, hrest⟩
            · rcases List.mem_append.mp hm with hm | hm
              · exact Or.inl hm
              · exact Or.inr ⟨job, List.mem_cons_self _ _, hq', running,
                  placement, hp, List.eq_of_mem_singleton hm⟩
            · exact Or.inr ⟨j0, List.mem_cons_of_mem _ hj0, hrest⟩

theorem scheduleLoop_kept_mem (cfg : SimConfig) (t : ℚ) :
    ∀ (jobs kept running : List Job) (j : Job),
      j ∈ (scheduleLoop cfg t jobs kept running).1 → j ∈ kept ∨ j ∈ jobs := by
  intro jobs
  induction jobs with
  | nil => intro kept running j h; exact Or.inl h
  | cons job rest ih =>
      intro kept running j h
      rw [scheduleLoop_cons] at h
      by_cases hq : job.status ≠ "queued"
      · rw [if_pos hq] at h
        rcases ih _ _ _ h with hm | hm
        · rcases List.mem_append.mp hm with hm | hm
          · exact Or.inl hm
          · exact Or.inr (by
              rw [List.eq_of_mem_singleton hm]; exact List.mem_cons_self _ _)
        · exact Or.inr (List.mem_cons_of_mem _ hm)
      · simp only [hq, if_false] at h
        cases hp : find_placement cfg running job.gpu_requirement with
        | none =>
            rw [hp] at h
            rcases ih _ _ _ h with hm | hm
            · rcases List.mem_append.mp hm with hm | hm
              · exact Or.inl hm
              · exact Or.inr (by
                  rw [List.eq_of_mem_singleton hm]; exact List.mem_cons_self _ _)
            · exact Or.inr (List.mem_cons_of_mem _ hm)
        | some placement =>
            rw [hp] at h
            rcases ih _ _ _ h with hm | hm
            · exact Or.inl hm
            · exact Or.inr (List.mem_cons_of_mem _ hm)

end WorkloadQueue

namespace WorkloadQueue

/-- Closed form of the completion loop: survivors and completions are
the two filter halves of the running list, in order. -/
theorem completionLoop_spec (t : ℚ) :
    ∀ (l run comp : List Job),
      completionLoop t l run comp =
        (run ++ l.filter (fun j => ¬ doneAt t j),
         comp ++ (l.filter (doneAt t)).map (markDone t)) := by
  intro l
  induction l with
  | nil => intro run comp; simp [completionLoop]
  | cons job rest ih =>
      intro run comp
      simp only [completionLoop]
      cases hd : doneAt t job
      · rw [if_neg (by simp [hd])]
        rw [ih]
        simp [List.filter_cons, hd]
      · rw [if_pos (by simp [hd])]
        rw [ih]
        simp [List.filter_cons, hd]

/-- `doneAt` implies the job had started. -/
theorem doneAt_started (t : ℚ) (j : Job) (h : doneAt t j = true) :
    j.started_at.isSome := by
  unfold doneAt at h
  cases hs : j.started_at with
  | none => rw [hs] at h; simp at h
  | some st => simp

/-- The job identifiers, as a multiset (Python object identity never
matters for them; only their multiset does). -/
def jobIds (l : List Job) : Multiset String :=
  (l.map (fun j => j.job_id) : List String)

theorem jobIds_append (l1 l2 : List Job) :
    jobIds (l1 ++ l2) = jobIds l1 + jobIds l2 := by
  simp [jobIds]

theorem jobIds_perm (l1 l2 : List Job) (h : List.Perm l1 l2) :
    jobIds l1 = jobIds l2 := by
  simp only [jobIds]
  exact Multiset.coe_eq_coe.mpr (h.map _)

theorem jobIds_cons (j : Job) (l : List Job) :
    jobIds (j :: l) = {j.job_id} + jobIds l := by
  simp only [jobIds, List.map_cons]
  rw [← Multiset.cons_coe, ← Multiset.singleton_add]

theorem jobIds_nil : jobIds [] = 0 := rfl

/-- The scheduling loop never invents or loses a job id. -/
theorem scheduleLoop_ids (cfg : SimConfig) (t : ℚ) :
    ∀ (jobs kept running : List Job),
      jobIds (scheduleLoop cfg t jobs kept running).1 +
        jobIds (scheduleLoop cfg t jobs kept running).2 =
      jobIds kept + jobIds jobs + jobIds running := by
  intro jobs
  induction jobs with
  | nil =>
      intro kept running
      simp [scheduleLoop, jobIds]
  | cons job rest ih =>
      intro kept running
      rw [scheduleLoop_cons]
      by_cases hq : job.status ≠ "queued"
      · rw [if_pos hq, ih]
        simp only [jobIds_append, jobIds_cons, jobIds_nil]
        abel
      · rw [if_neg hq]
        cases hp : find_placement cfg running job.gpu_requirement with
        | none =>
            rw [ih]
            simp only [jobIds_append, jobIds_cons, jobIds_nil]
            abel
        | some placement =>
            rw [ih]
            simp only [jobIds_append, jobIds_cons, jobIds_nil]
            abel

end WorkloadQueue

namespace WorkloadQueue

/-- All jobs held by the queue, in `pending + running + completed`
order (the aggregation the source uses everywhere). -/
def allJobs (q : WorkloadQueue) : List Job :=
  q.pending ++ q.running ++ q.completed

/-- The shape of every identifier the queue mints. -/
def idOfJob (k : ℕ) : String := "job-" ++ natStr k

theorem idOfJob_inj {a b : ℕ} (h : idOfJob a = idOfJob b) : a = b := by
  have hd := congrArg String.data h
  simp only [idOfJob] at hd
  rw [show ("job-" ++ natStr a).data = "job-".data ++ (natStr a).data by simp,
      show ("job-" ++ natStr b).data = "job-".data ++ (natStr b).data by simp]
    at hd
  exact natStr_data_inj (List.append_cancel_left hd)

/-- The reachable-state invariant of the workload queue: slot-capacity
(claim C9), unique minted identifiers, and the status/timestamp facts
(claim C4). -/
structure QInv (cfg : SimConfig) (q : WorkloadQueue) : Prop where
  cap : CapOK cfg q.running
  ids_nodup : ((allJobs q).map (fun j => j.job_id)).Nodup
  ids_below : ∀ j ∈ allJobs q, ∃ k < q.next_uuid, j.job_id = idOfJob k
  pq : ∀ j ∈ q.pending, j.status = "queued" ∧ j.started_at = none ∧
    j.completed_at = none
  rn : ∀ j ∈ q.running, j.status = "running" ∧ j.started_at.isSome ∧
    j.completed_at = none
  cp : ∀ j ∈ q.completed,
    (j.status = "completed" ∧ j.started_at.isSome ∧ j.completed_at.isSome) ∨
    ((j.status = "preempted" ∨ j.status = "failed") ∧ j.started_at.isSome ∧
      j.completed_at = none)

theorem slaUpdate_fields (t : ℚ) (j : Job) :
    (slaUpdate t j).job_id = j.job_id ∧
    (slaUpdate t j).status = j.status ∧
    (slaUpdate t j).started_at = j.started_at ∧
    (slaUpdate t j).completed_at = j.completed_at ∧
    (slaUpdate t j).assigned_servers = j.assigned_servers := by
  unfold slaUpdate
  split <;> exact ⟨rfl, rfl, rfl, rfl, rfl⟩

theorem jobIds_map_slaUpdate (t : ℚ) (l : List Job) :
    jobIds (l.map (slaUpdate t)) = jobIds l := by
  simp only [jobIds, List.map_map]
  congr 1
  apply List.map_congr_left
  intro j _
  exact (slaUpdate_fields t j).1

theorem jobIds_map_markDone (t : ℚ) (l : List Job) :
    jobIds (l.map (markDone t)) = jobIds l := by
  simp only [jobIds, List.map_map]
  rfl

theorem jobIds_filter_partition (p : Job → Bool) (l : List Job) :
    jobIds (l.filter (fun j => ¬ p j)) + jobIds (l.filter p) = jobIds l := by
  induction l with
  | nil => simp [jobIds]
  | cons j rest ih =>
      cases hp : p j
      · rw [List.filter_cons, if_pos (by simp [hp]),
          List.filter_cons, if_neg (by simp [hp]),
          jobIds_cons, jobIds_cons]
        rw [add_assoc] at *
        rw [ih]
      · rw [List.filter_cons, if_neg (by simp [hp]),
          List.filter_cons, if_pos (by simp [hp]),
          jobIds_cons, jobIds_cons]
        rw [← ih]
        abel

/-- The queue in its initial state satisfies the invariant. -/
theorem qinv_init (cfg : SimConfig) : QInv cfg (init cfg) := by
  refine ⟨?_, ?_, ?_, ?_, ?_, ?_⟩ <;>
    simp [init, allJobs, CapOK, serverLoad]

end WorkloadQueue

namespace WorkloadQueue

theorem nodup_of_jobIds_eq (l1 l2 : List Job) (h : jobIds l1 = jobIds l2)
    (hnd : (l2.map (fun j => j.job_id)).Nodup) :
    (l1.map (fun j => j.job_id)).Nodup := by
  rw [← Multiset.coe_nodup] at hnd ⊢
  exact (show (↑(l1.map (fun j => j.job_id)) : Multiset String) =
    ↑(l2.map (fun j => j.job_id)) from h) ▸ hnd

theorem stepCore_preserves (cfg : SimConfig) (t : ℚ) (q : WorkloadQueue)
    (pending1 : List Job) (uuid1 : ℕ)
    (hcap : CapOK cfg q.running)
    (hids : ((pending1 ++ q.running ++ q.completed).map
      (fun j => j.job_id)).Nodup)
    (hbelow : ∀ j ∈ pending1 ++ q.running ++ q.completed,
      ∃ k < uuid1, j.job_id = idOfJob k)
    (hpq : ∀ j ∈ pending1, j.status = "queued" ∧ j.started_at = none ∧
      j.completed_at = none)
    (hrn : ∀ j ∈ q.running, j.status = "running" ∧ j.started_at.isSome ∧
      j.completed_at = none)
    (hcp : ∀ j ∈ q.completed,
      (j.status = "completed" ∧ j.started_at.isSome ∧ j.completed_at.isSome) ∨
      ((j.status = "preempted" ∨ j.status = "failed") ∧ j.started_at.isSome ∧
        j.completed_at = none)) :
    QInv cfg (stepCore cfg t q pending1 uuid1).1 := by
  unfold stepCore
  set pending2 := pending1.map (slaUpdate t) with hp2
  set sorted := pending2.insertionSort (fun a b => b.priority ≤ a.priority)
    with hsortdef
  have hperm : List.Perm sorted pending2 := List.perm_insertionSort _ _
  have hsorted_origin : ∀ j ∈ sorted, ∃ j0 ∈ pending1,
      j.job_id = j0.job_id ∧ j.status = j0.status ∧
      j.started_at = j0.started_at ∧ j.completed_at = j0.completed_at := by
    intro j hj
    have hj2 : j ∈ pending2 := hperm.mem_iff.mp hj
    rw [hp2] at hj2
    obtain ⟨j0, hj0, rfl⟩ := List.mem_map.mp hj2
    obtain ⟨h1, h2, h3, h4, _⟩ := slaUpdate_fields t j0
    exact ⟨j0, hj0, h1, h2, h3, h4⟩
  have hpq2 : ∀ j ∈ sorted, j.status = "queued" ∧ j.started_at = none ∧
      j.completed_at = none := by
    intro j hj
    obtain ⟨j0, hj0, _, h2, h3, h4⟩ := hsorted_origin j hj
    obtain ⟨s1, s2, s3⟩ := hpq j0 hj0
    exact ⟨h2.trans s1, h3.trans s2, h4.trans s3⟩
  have hids_sorted : jobIds sorted = jobIds pending1 := by
    rw [jobIds_perm _ _ hperm, hp2, jobIds_map_slaUpdate]
  have hbelow_sorted : ∀ j ∈ sorted, ∃ k < uuid1, j.job_id = idOfJob k := by
    intro j hj
    obtain ⟨j0, hj0, hid, _, _, _⟩ := hsorted_origin j hj
    obtain ⟨k, hk, hk2⟩ := hbelow j0 (by simp [hj0])
    exact ⟨k, hk, hid.trans hk2⟩
  dsimp only
  split
  · -- KeyError branch: only pending was rewritten
    refine ⟨hcap, ?_, ?_, hpq2, hrn, hcp⟩
    · refine nodup_of_jobIds_eq _ _ ?_ hids
      show jobIds (sorted ++ q.running ++ q.completed) = _
      rw [jobIds_append, jobIds_append, jobIds_append, jobIds_append,
        hids_sorted]
    · intro j hj
      show ∃ k < uuid1, j.job_id = idOfJob k
      rcases List.mem_append.mp hj with hj | hj
      · rcases List.mem_append.mp hj with hj | hj
        · exact hbelow_sorted j hj
        · exact hbelow j (by simp [hj])
      · exact hbelow j (by simp [hj])
  · -- normal branch: schedule then complete
    rcases hsc : scheduleLoop cfg t sorted [] q.running with ⟨kept, running1⟩
    rw [completionLoop_spec]
    have hkept : ∀ j ∈ kept, j ∈ sorted := by
      intro j hj
      have := scheduleLoop_kept_mem cfg t sorted [] q.running j
        (by rw [hsc]; exact hj)
      rcases this with hm | hm
      · exact absurd hm (by simp)
      · exact hm
    have hrun1 : ∀ j ∈ running1, j ∈ q.running ∨ ∃ j0 ∈ sorted,
        j0.status = "queued" ∧ ∃ rl pl,
          find_placement cfg rl j0.gpu_requirement = some pl ∧
          j = { j0 with assigned_servers := pl, started_at := some t,
                        status := "running" } := by
      intro j hj
      exact scheduleLoop_run_mem cfg t sorted [] q.running j
        (by rw [hsc]; exact hj)
    have hrn1 : ∀ j ∈ running1, j.status = "running" ∧ j.started_at.isSome ∧
        j.completed_at = none := by
      intro j hj
      rcases hrun1 j hj with hm | ⟨j0, hj0, _, _, _, _, rfl⟩
      · exact hrn j hm
      · refine ⟨rfl, by simp, ?_⟩
        show j0.completed_at = none
        exact (hpq2 j0 hj0).2.2
    have hcap1 : CapOK cfg running1 := by
      have := scheduleLoop_cap cfg t sorted [] q.running hcap
      rwa [hsc] at this
    have hids1 : jobIds kept + jobIds running1 =
        jobIds pending1 + jobIds q.running := by
      have := scheduleLoop_ids cfg t sorted [] q.running
      rw [hsc] at this
      simp only at this
      rw [this, jobIds_nil, hids_sorted]
      abel
    refine ⟨?_, ?_, ?_, ?_, ?_, ?_⟩
    · -- capacity after completion filtering
      intro sid hsid
      calc serverLoad (running1.filter (fun j => ¬ doneAt t j)) sid
          ≤ serverLoad running1 sid := serverLoad_filter_le _ _ _
        _ ≤ cfg.facility.gpus_per_server := hcap1 sid hsid
    · -- ids nodup
      refine nodup_of_jobIds_eq _ _ ?_ hids
      show jobIds (kept ++ running1.filter (fun j => ¬ doneAt t j) ++
        (q.completed ++ (running1.filter (doneAt t)).map (markDone t))) = _
      rw [jobIds_append, jobIds_append, jobIds_append, jobIds_append,
        jobIds_append, jobIds_map_markDone]
      have hpart := jobIds_filter_partition (doneAt t) running1
      have h1 := hids1
      calc jobIds kept + jobIds (running1.filter (fun j => ¬ doneAt t j)) +
            (jobIds q.completed + jobIds (running1.filter (doneAt t)))
          = jobIds kept + (jobIds (running1.filter (fun j => ¬ doneAt t j)) +
              jobIds (running1.filter (doneAt t))) + jobIds q.completed := by
            abel
        _ = jobIds kept + jobIds running1 + jobIds q.completed := by
            rw [hpart]
        _ = jobIds pending1 + jobIds q.running + jobIds q.completed := by
            rw [h1]
    · -- ids below the (new) counter
      intro j hj
      show ∃ k < uuid1, j.job_id = idOfJob k
      rcases List.mem_append.mp hj with hj | hj
      · rcases List.mem_append.mp hj with hj | hj
        · exact hbelow_sorted j (hkept j hj)
        · have hj1 : j ∈ running1 := List.mem_of_mem_filter hj
          rcases hrun1 j hj1 with hm | ⟨j0, hj0, _, _, _, _, rfl⟩
          · exact hbelow j (by simp [hm])
          · obtain ⟨k, hk, hk2⟩ := hbelow_sorted j0 hj0
            exact ⟨k, hk, hk2⟩
      · rcases List.mem_append.mp hj with hj | hj
        · exact hbelow j (by simp [hj])
        · obtain ⟨j1, hj1, rfl⟩ := List.mem_map.mp hj
          have hj2 : j1 ∈ running1 := List.mem_of_mem_filter hj1
          rcases hrun1 j1 hj2 with hm | ⟨j0, hj0, _, _, _, _, rfl⟩
          · obtain ⟨k, hk, hk2⟩ := hbelow j1 (by simp [hm])
            exact ⟨k, hk, hk2⟩
          · obtain ⟨k, hk, hk2⟩ := hbelow_sorted j0 hj0
            exact ⟨k, hk, hk2⟩
    · -- kept pending jobs are untouched queued jobs
      intro j hj
      exact hpq2 j (hkept j hj)
    · -- surviving running jobs
      intro j hj
      exact hrn1 j (List.mem_of_mem_filter hj)
    · -- completed jobs
      intro j hj
      rcases List.mem_append.mp hj with hj | hj
      · exact hcp j hj
      · obtain ⟨j1, hj1, rfl⟩ := List.mem_map.mp hj
        left
        have hd : doneAt t j1 = true := List.of_mem_filter hj1
        refine ⟨rfl, ?_, by simp [markDone]⟩
        show j1.started_at.isSome
        exact doneAt_started t j1 hd

end WorkloadQueue

namespace WorkloadQueue

theorem step_preserves (cfg : SimConfig) (draw : Option JobDraw) (t : ℚ)
    (q : WorkloadQueue) (h : QInv cfg q) : QInv cfg (step cfg draw t q).1 := by
  cases draw with
  | none =>
      exact stepCore_preserves cfg t q q.pending q.next_uuid h.cap
        h.ids_nodup h.ids_below h.pq h.rn h.cp
  | some d =>
      have harr_id : (mkArrival d t q.next_uuid).job_id = idOfJob q.next_uuid :=
        rfl
      have hfresh : idOfJob q.next_uuid ∉
          ((allJobs q).map (fun j => j.job_id)) := by
        intro hmem
        obtain ⟨j, hj, hid⟩ := List.mem_map.mp hmem
        obtain ⟨k, hk, hk2⟩ := h.ids_below j hj
        rw [hk2] at hid
        exact absurd (idOfJob_inj hid) (by omega)
      refine stepCore_preserves cfg t q
        (q.pending ++ [mkArrival d t q.next_uuid]) (q.next_uuid + 1)
        h.cap ?_ ?_ ?_ h.rn h.cp
      · refine nodup_of_jobIds_eq _ (allJobs q ++ [mkArrival d t q.next_uuid])
          ?_ ?_
        · show jobIds (q.pending ++ [mkArrival d t q.next_uuid] ++ q.running ++
            q.completed) = _
          simp only [jobIds_append, allJobs]
          abel
        · rw [List.map_append]
          rw [List.nodup_append]
          refine ⟨h.ids_nodup, by simp, ?_⟩
          intro x hx hy
          simp only [List.map_cons, List.map_nil, List.mem_singleton] at hy
          rw [hy, harr_id] at hx
          exact hfresh hx
      · intro j hj
        rcases List.mem_append.mp hj with hj | hj
        · rcases List.mem_append.mp hj with hj | hj
          · rcases List.mem_append.mp hj with hj | hj
            · obtain ⟨k, hk, hk2⟩ := h.ids_below j (by simp [allJobs, hj])
              exact ⟨k, by omega, hk2⟩
            · rw [List.eq_of_mem_singleton hj]
              exact ⟨q.next_uuid, by omega, harr_id⟩
          · obtain ⟨k, hk, hk2⟩ := h.ids_below j (by simp [allJobs, hj])
            exact ⟨k, by omega, hk2⟩
        · obtain ⟨k, hk, hk2⟩ := h.ids_below j (by simp [allJobs, hj])
          exact ⟨k, by omega, hk2⟩
      · intro j hj
        rcases List.mem_append.mp hj with hj | hj
        · exact h.pq j hj
        · rw [List.eq_of_mem_singleton hj]
          exact ⟨rfl, rfl, rfl⟩

/-- A job that `get_job` finds with status `"running"` sits in the
running list (statuses in `pending` are `queued`, in `completed` are
terminal). -/
theorem get_job_running (cfg : SimConfig) (q : WorkloadQueue) (jid : String)
    (job : Job) (h : QInv cfg q) (hg : q.get_job jid = some job)
    (hs : job.status = "running") :
    job ∈ q.running ∧ job.job_id = jid := by
  have hmem : job ∈ q.pending ++ q.running ++ q.completed :=
    List.mem_of_find?_eq_some hg
  have hid : job.job_id = jid := by
    have := List.find?_some hg
    simpa using this
  refine ⟨?_, hid⟩
  rcases List.mem_append.mp hmem with hm | hm
  · rcases List.mem_append.mp hm with hm | hm
    · have := (h.pq job hm).1
      rw [this] at hs
      exact absurd hs (by decide)
    · exact hm
  · rcases h.cp job hm with ⟨hst, _⟩ | ⟨hst, _⟩
    · rw [hst] at hs; exact absurd hs (by decide)
    · rcases hst with hst | hst <;> (rw [hst] at hs; exact absurd hs (by decide))

end WorkloadQueue

namespace WorkloadQueue

/-- Per-server bound for the `migrate_job` loop (no positivity guard:
non-positive takes contribute nothing). -/
theorem migLoop_count (avail : String → ℤ) (sids : List String)
    (hnd : sids.Nodup) (needed : ℤ) (assigned : List String) (sid : String) :
    ((migLoop avail sids needed assigned).1.count sid : ℤ) ≤
      assigned.count sid + (if sid ∈ sids then max 0 (avail sid) else 0) := by
  induction sids generalizing needed assigned with
  | nil => simp [migLoop]
  | cons sid' rest ih =>
      have hnd' : rest.Nodup := hnd.of_cons
      have hnmem : sid' ∉ rest := (List.nodup_cons.mp hnd).1
      have hnn : (0:ℤ) ≤ if sid ∈ sid' :: rest then max 0 (avail sid) else 0 := by
        split
        · exact le_max_left _ _
        · exact le_refl 0
      simp only [migLoop]
      by_cases h0 : needed ≤ 0
      · simp only [h0, if_true]
        omega
      · simp only [h0, if_false]
        have hb := ih hnd' (needed - min needed (avail sid'))
          (assigned ++ List.replicate (min needed (avail sid')).toNat sid')
        rw [List.count_append, List.count_replicate] at hb
        by_cases hss : sid = sid'
        · subst hss
          rw [if_pos (by simp)] at hb
          rw [if_neg (by simp [hnmem])] at hb
          rw [if_pos (List.mem_cons_self sid rest)]
          have htn : ((min needed (avail sid)).toNat : ℤ) ≤
              max 0 (avail sid) := by
            rcases le_or_lt (min needed (avail sid)) 0 with hc | hc
            · rw [Int.toNat_of_nonpos hc]
              exact le_max_left _ _
            · rw [Int.toNat_of_nonneg (le_of_lt hc)]
              exact le_trans (min_le_right _ _) (le_max_right _ _)
          push_cast at hb ⊢
          omega
        · rw [if_neg (by simp [Ne.symm hss])] at hb
          by_cases hmem : sid ∈ rest
          · rw [if_pos hmem] at hb
            rw [if_pos (List.mem_cons_of_mem _ hmem)]
            push_cast at hb ⊢
            omega
          · rw [if_neg hmem] at hb
            rw [if_neg (by simp [hss, hmem])]
            push_cast at hb ⊢
            omega

theorem updAssign_fields (jid : String) (asg : List String) (j : Job) :
    (updAssign jid asg j).job_id = j.job_id ∧
    (updAssign jid asg j).status = j.status ∧
    (updAssign jid asg j).started_at = j.started_at ∧
    (updAssign jid asg j).completed_at = j.completed_at := by
  unfold updAssign
  split <;> exact ⟨rfl, rfl, rfl, rfl⟩

theorem jobIds_map_updAssign (jid : String) (asg : List String)
    (l : List Job) : jobIds (l.map (updAssign jid asg)) = jobIds l := by
  simp only [jobIds, List.map_map]
  congr 1
  apply List.map_congr_left
  intro j _
  exact (updAssign_fields jid asg j).1

/-- Effect of the reassignment map on one server's load, when at most
one job (the migrating one) carries the id. -/
theorem serverLoad_map_updAssign (jid : String) (asg : List String)
    (sid : String) :
    ∀ (l : List Job), (l.map (fun j => j.job_id)).Nodup →
      ∀ job ∈ l, job.job_id = jid →
      (serverLoad (l.map (updAssign jid asg)) sid : ℤ) =
        (serverLoad l sid : ℤ) - job.assigned_servers.count sid +
          asg.count sid := by
  intro l
  induction l with
  | nil => intro _ job hj; exact absurd hj (by simp)
  | cons j rest ih =>
      intro hnd job hjob hid
      have hnd' : (rest.map (fun j => j.job_id)).Nodup := by
        simp only [List.map_cons, List.nodup_cons] at hnd
        exact hnd.2
      have hjnot : j.job_id ∉ rest.map (fun j => j.job_id) := by
        simp only [List.map_cons, List.nodup_cons] at hnd
        exact hnd.1
      rcases List.mem_cons.mp hjob with rfl | hmem
      · -- the migrating job is the head
        have hrest : rest.map (updAssign jid asg) = rest := by
          rw [show rest = rest.map id by simp]
          rw [List.map_map]
          apply List.map_congr_left
          intro x hx
          have hne : x.job_id ≠ jid := by
            intro hc
            apply hjnot
            rw [hid]
            rw [← hc]
            exact List.mem_map.mpr ⟨x, by simpa using hx, rfl⟩
          simp [updAssign, hne]
        rw [List.map_cons, hrest, serverLoad_cons, serverLoad_cons,
          show updAssign jid asg job = { job with assigned_servers := asg }
            from by simp [updAssign, hid]]
        push_cast
        omega
      · -- the migrating job sits further down
        have hne : j.job_id ≠ jid := by
          intro hc
          apply hjnot
          rw [hc, ← hid]
          exact List.mem_map.mpr ⟨job, hmem, rfl⟩
        rw [List.map_cons, serverLoad_cons, serverLoad_cons,
          show updAssign jid asg j = j from by simp [updAssign, hne]]
        have := ih hnd' job hmem hid
        push_cast at this ⊢
        omega

end WorkloadQueue

namespace WorkloadQueue

theorem running_ids_nodup (cfg : SimConfig) (q : WorkloadQueue)
    (h : QInv cfg q) : (q.running.map (fun j => j.job_id)).Nodup := by
  have hall := h.ids_nodup
  simp only [allJobs, List.map_append] at hall
  exact (List.nodup_append.mp (List.nodup_append.mp hall).1).2.1

/-- Removing the (unique) occurrence of `jid` from a duplicate-free job
list removes exactly one id from the multiset. -/
theorem jobIds_filter_remove (jid : String) :
    ∀ (l : List Job), (l.map (fun j => j.job_id)).Nodup →
      ∀ job ∈ l, job.job_id = jid →
      jobIds (l.filter (fun j => ¬ j.job_id = jid)) + {jid} = jobIds l := by
  intro l
  induction l with
  | nil => intro _ job hj; exact absurd hj (by simp)
  | cons j rest ih =>
      intro hnd job hjob hid
      have hnd' : (rest.map (fun j => j.job_id)).Nodup := by
        simp only [List.map_cons, List.nodup_cons] at hnd
        exact hnd.2
      have hjnot : j.job_id ∉ rest.map (fun j => j.job_id) := by
        simp only [List.map_cons, List.nodup_cons] at hnd
        exact hnd.1
      rcases List.mem_cons.mp hjob with rfl | hmem
      · have hrest : rest.filter (fun j2 => ¬ j2.job_id = jid) = rest := by
          apply List.filter_eq_self.mpr
          intro x hx
          simp only [decide_eq_true_eq]
          intro hc
          exact hjnot (hid ▸ hc ▸ List.mem_map.mpr ⟨x, hx, rfl⟩)
        rw [List.filter_cons, if_neg (by simp [hid]), hrest, jobIds_cons, hid]
        abel
      · have hne : j.job_id ≠ jid := by
          intro hc
          exact hjnot (hc ▸ hid ▸ List.mem_map.mpr ⟨job, hmem, rfl⟩)
        rw [List.filter_cons, if_pos (by simp [hne]), jobIds_cons, jobIds_cons,
          ← ih hnd' job hmem hid]
        abel

theorem serverLoad_ge_count (l : List Job) (job : Job) (hmem : job ∈ l)
    (sid : String) : job.assigned_servers.count sid ≤ serverLoad l sid := by
  induction l with
  | nil => exact absurd hmem (by simp)
  | cons x rest ih =>
      rw [serverLoad_cons]
      rcases List.mem_cons.mp hmem with rfl | hmem
      · omega
      · have := ih hmem
        omega

theorem migrate_preserves (cfg : SimConfig) (jid : String) (r : ℕ)
    (q q' : WorkloadQueue) (b : Bool) (h : QInv cfg q)
    (hm : migrate_job cfg jid r q = some (q', b)) : QInv cfg q' := by
  unfold migrate_job at hm
  cases hg : q.get_job jid with
  | none =>
      rw [hg] at hm
      simp only [Option.some.injEq, Prod.mk.injEq] at hm
      exact hm.1 ▸ h
  | some job =>
      rw [hg] at hm
      dsimp only at hm
      by_cases hst : job.status ≠ "running"
      · rw [if_pos hst] at hm
        simp only [Option.some.injEq, Prod.mk.injEq] at hm
        exact hm.1 ▸ h
      · rw [if_neg hst] at hm
        have hs : job.status = "running" := not_not.mp hst
        by_cases hok : okServers cfg q.running = true
        · rw [if_neg (by simp [hok])] at hm
          obtain ⟨hjr, hjid⟩ := get_job_running cfg q jid job h hg hs
          split at hm
          · -- committed: reassign the job's servers
            simp only [Option.some.injEq, Prod.mk.injEq] at hm
            obtain ⟨hq', -⟩ := hm
            subst hq'
            set targets := (List.range cfg.facility.servers_per_rack).map
              (serverId r) with htg
            set asg := (migLoop (migAvail cfg q.running job) targets
              ((job.gpu_requirement : ℤ)) []).1 with hasg
            have htnd : targets.Nodup :=
              (List.nodup_range _).map
                (fun a b hab => (serverId_inj r a r b hab).2)
            have hcount : ∀ sid, ((asg.count sid : ℤ)) ≤
                (if sid ∈ targets then
                  max 0 (migAvail cfg q.running job sid) else 0) := by
              intro sid
              have h0 := migLoop_count (migAvail cfg q.running job) targets
                htnd (job.gpu_requirement : ℤ) [] sid
              rw [List.count_nil] at h0
              simpa using h0
            refine ⟨?_, ?_, ?_, ?_, ?_, ?_⟩
            · -- capacity
              intro sid hsid
              have hload := serverLoad_map_updAssign jid asg sid q.running
                (running_ids_nodup cfg q h) job hjr hjid
              have hcap := h.cap sid hsid
              have hc := hcount sid
              have hcj := serverLoad_ge_count q.running job hjr sid
              show serverLoad (q.running.map (updAssign jid asg)) sid ≤ _
              by_cases htm : sid ∈ targets
              · rw [if_pos htm] at hc
                have hma : migAvail cfg q.running job sid =
                    availSlots cfg q.running sid +
                      (job.assigned_servers.count sid : ℤ) := by
                  unfold migAvail
                  rw [if_pos (List.elem_iff.mpr hsid)]
                have hav : availSlots cfg q.running sid =
                    (cfg.facility.gpus_per_server : ℤ) -
                      (serverLoad q.running sid : ℤ) := rfl
                rw [hma, hav] at hc
                rcases max_cases (0:ℤ)
                    (((cfg.facility.gpus_per_server : ℤ) -
                      (serverLoad q.running sid : ℤ)) +
                      (job.assigned_servers.count sid : ℤ)) with
                  ⟨he, _⟩ | ⟨he, _⟩ <;>
                  (rw [he] at hc; push_cast at hload hc ⊢; omega)
              · rw [if_neg htm] at hc
                push_cast at hload hc ⊢
                omega
            · -- ids nodup
              refine nodup_of_jobIds_eq _ _ ?_ h.ids_nodup
              show jobIds (q.pending.map (updAssign jid asg) ++
                q.running.map (updAssign jid asg) ++
                q.completed.map (updAssign jid asg)) = jobIds (allJobs q)
              simp only [jobIds_append, jobIds_map_updAssign, allJobs]
            · -- ids below
              intro j hj
              show ∃ k < q.next_uuid, j.job_id = idOfJob k
              have horig : ∃ j0 ∈ allJobs q, j.job_id = j0.job_id := by
                rcases List.mem_append.mp hj with hj | hj
                · rcases List.mem_append.mp hj with hj | hj
                  · obtain ⟨j0, hj0, rfl⟩ := List.mem_map.mp hj
                    exact ⟨j0, by simp [allJobs, hj0],
                      (updAssign_fields jid asg j0).1⟩
                  · obtain ⟨j0, hj0, rfl⟩ := List.mem_map.mp hj
                    exact ⟨j0, by simp [allJobs, hj0],
                      (updAssign_fields jid asg j0).1⟩
                · obtain ⟨j0, hj0, rfl⟩ := List.mem_map.mp hj
                  exact ⟨j0, by simp [allJobs, hj0],
                    (updAssign_fields jid asg j0).1⟩
              obtain ⟨j0, hj0, hid⟩ := horig
              obtain ⟨k, hk, hk2⟩ := h.ids_below j0 hj0
              exact ⟨k, hk, hid.trans hk2⟩
            · -- pending statuses
              intro j hj
              obtain ⟨j0, hj0, rfl⟩ := List.mem_map.mp hj
              obtain ⟨-, h2, h3, h4⟩ := updAssign_fields jid asg j0
              obtain ⟨s1, s2, s3⟩ := h.pq j0 hj0
              exact ⟨h2.trans s1, h3.trans s2, h4.trans s3⟩
            · -- running statuses
              intro j hj
              obtain ⟨j0, hj0, rfl⟩ := List.mem_map.mp hj
              obtain ⟨-, h2, h3, h4⟩ := updAssign_fields jid asg j0
              obtain ⟨s1, s2, s3⟩ := h.rn j0 hj0
              refine ⟨h2.trans s1, ?_, h4.trans s3⟩
              rw [h3]; exact s2
            · -- completed statuses
              intro j hj
              obtain ⟨j0, hj0, rfl⟩ := List.mem_map.mp hj
              obtain ⟨-, h2, h3, h4⟩ := updAssign_fields jid asg j0
              rcases h.cp j0 hj0 with ⟨s1, s2, s3⟩ | ⟨s1, s2, s3⟩
              · left
                refine ⟨h2.trans s1, ?_, ?_⟩
                · rw [h3]; exact s2
                · rw [h4]; exact s3
              · right
                refine ⟨?_, ?_, h4.trans s3⟩
                · rw [h2]; exact s1
                · rw [h3]; exact s2
          · -- not enough room: unchanged
            simp only [Option.some.injEq, Prod.mk.injEq] at hm
            exact hm.1 ▸ h
        · rw [if_pos (by simpa using hok)] at hm
          exact absurd hm (by simp)

end WorkloadQueue

namespace WorkloadQueue

theorem preempt_preserves (cfg : SimConfig) (jid : String) (m : Bool)
    (q : WorkloadQueue) (h : QInv cfg q) :
    QInv cfg (preempt_job jid m q).1 := by
  unfold preempt_job
  cases hg : q.get_job jid with
  | none => exact h
  | some job =>
      dsimp only
      by_cases hst : job.status ≠ "running"
      · rw [if_pos hst]
        exact h
      · rw [if_neg hst]
        have hs : job.status = "running" := not_not.mp hst
        obtain ⟨hjr, hjid⟩ := get_job_running cfg q jid job h hg hs
        obtain ⟨-, hstarted, hcompleted⟩ := h.rn job hjr
        refine ⟨?_, ?_, ?_, h.pq, ?_, ?_⟩
        · -- capacity only shrinks
          intro sid hsid
          calc serverLoad (q.running.filter (fun j => ¬ j.job_id = jid)) sid
              ≤ serverLoad q.running sid := serverLoad_filter_le _ _ _
            _ ≤ cfg.facility.gpus_per_server := h.cap sid hsid
        · -- id multiset is preserved (one removed, one appended)
          refine nodup_of_jobIds_eq _ _ ?_ h.ids_nodup
          show jobIds (q.pending ++ q.running.filter (fun j => ¬ j.job_id = jid)
            ++ (q.completed ++ [{ job with status :=
              if m then "failed" else "preempted" }])) = jobIds (allJobs q)
          simp only [jobIds_append, allJobs]
          have hrem := jobIds_filter_remove jid q.running
            (running_ids_nodup cfg q h) job hjr hjid
          have hone : jobIds [{ job with status :=
              if m then "failed" else "preempted" }] = {jid} := by
            rw [show jobIds [{ job with status :=
                if m then "failed" else "preempted" }] =
              {job.job_id} from rfl, hjid]
          rw [hone, ← hrem]
          abel
        · -- ids stay below the counter
          intro j hj
          show ∃ k < q.next_uuid, j.job_id = idOfJob k
          rcases List.mem_append.mp hj with hj | hj
          · rcases List.mem_append.mp hj with hj | hj
            · exact h.ids_below j (by simp [allJobs, hj])
            · exact h.ids_below j
                (by simp [allJobs, List.mem_of_mem_filter hj])
          · rcases List.mem_append.mp hj with hj | hj
            · exact h.ids_below j (by simp [allJobs, hj])
            · rw [List.eq_of_mem_singleton hj]
              obtain ⟨k, hk, hk2⟩ := h.ids_below job (by simp [allJobs, hjr])
              exact ⟨k, hk, hk2⟩
        · -- running statuses
          intro j hj
          exact h.rn j (List.mem_of_mem_filter hj)
        · -- completed statuses
          intro j hj
          rcases List.mem_append.mp hj with hj | hj
          · exact h.cp j hj
          · rw [List.eq_of_mem_singleton hj]
            right
            refine ⟨?_, hstarted, hcompleted⟩
            cases m
            · left; rfl
            · right; rfl

/-- The reachable states of a `WorkloadQueue`: its initial state closed
under `step` (any draw, any time — including the partially mutated
state a `KeyError` leaves behind), successful `migrate_job` calls, and
`preempt_job`. -/
inductive Reach (cfg : SimConfig) : WorkloadQueue → Prop where
  | init : Reach cfg (init cfg)
  | step (draw : Option JobDraw) (t : ℚ) (q : WorkloadQueue) :
      Reach cfg q → Reach cfg (step cfg draw t q).1
  | migrate (jid : String) (r : ℕ) (q q' : WorkloadQueue) (b : Bool) :
      Reach cfg q → migrate_job cfg jid r q = some (q', b) → Reach cfg q'
  | preempt (jid : String) (m : Bool) (q : WorkloadQueue) :
      Reach cfg q → Reach cfg (preempt_job jid m q).1

/-- Every reachable queue state satisfies the invariant. -/
theorem qinv_reach (cfg : SimConfig) (q : WorkloadQueue)
    (h : Reach cfg q) : QInv cfg q := by
  induction h with
  | init => exact qinv_init cfg
  | step draw t q _ ih => exact step_preserves cfg draw t q ih
  | migrate jid r q q' b _ hm ih => exact migrate_preserves cfg jid r q q' b ih hm
  | preempt jid m q _ ih => exact preempt_preserves cfg jid m q ih

end WorkloadQueue

namespace WorkloadQueue

theorem placeLoop_cons (avail : String → ℤ) (sid : String) (rest : List String)
    (needed : ℤ) (assigned : List String) :
    placeLoop avail (sid :: rest) needed assigned =
      if needed ≤ 0 then (assigned, needed)
      else
        let take := min needed (avail sid)
        if 0 < take then
          placeLoop avail rest (needed - take)
            (assigned ++ List.replicate take.toNat sid)
        else placeLoop avail rest needed assigned := rfl

theorem placeLoop_done (avail : String → ℤ) (l : List String) (needed : ℤ)
    (assigned : List String) (h : needed ≤ 0) :
    placeLoop avail l needed assigned = (assigned, needed) := by
  cases l with
  | nil => rfl
  | cons sid rest => rw [placeLoop_cons, if_pos h]

end WorkloadQueue

/-- C9: after every workload-queue operation — in every queue state reachable
by `init`, `step`, `migrate_job` and `preempt_job` — the occupied GPU slots of
every configured server (occurrences of its id across the `assigned_servers`
multisets of the running jobs) stay within `gpus_per_server`. -/
theorem server_capacity_invariant (cfg : SimConfig) (q : WorkloadQueue)
    (h : WorkloadQueue.Reach cfg q) :
    ∀ sid ∈ serverIdsList cfg,
      serverLoad q.running sid ≤ cfg.facility.gpus_per_server :=
  (WorkloadQueue.qinv_reach cfg q h).cap

/-- Witness for C9: the capacity bound at the concrete reachable state after
one `step` of the default configuration, at server `rack-0-srv-0`. -/
theorem server_capacity_invariant_witness :
    serverLoad ((WorkloadQueue.step {} none 0 (WorkloadQueue.init {})).1).running
      "rack-0-srv-0" ≤ ({} : SimConfig).facility.gpus_per_server :=
  server_capacity_invariant {} _
    (WorkloadQueue.Reach.step none 0 _ WorkloadQueue.Reach.init)
    "rack-0-srv-0" (by decide)

-- ── Concrete reachable states for claim C4 ─────────────────────

/-- Default configuration used by the C4 scenario. -/
def c4cfg : SimConfig := {}

/-- The arrival draw of the C4 scenario: a batch job asking for one GPU,
running 600 s, with a 600 s SLA deadline. -/
def c4draw : WorkloadQueue.JobDraw :=
  { type_idx := 2, gpu_draw := 1, dur_draw := 600, pri_draw := 0,
    sla_draw := 600 }

/-- The job that arrives at time 0 from `c4draw` (uuid 0). -/
def c4job : Job := WorkloadQueue.mkArrival c4draw 0 0

/-- `c4job` once scheduled at time 0 on the placement `pl`. -/
def c4jobR (pl : List String) : Job :=
  { c4job with
    assigned_servers := pl
    started_at := some 0
    status := "running" }

/-- The queue after one `step` at time 0: `c4job` arrives and is placed. -/
def c4q1 : WorkloadQueue :=
  (WorkloadQueue.step c4cfg (some c4draw) 0 (WorkloadQueue.init c4cfg)).1

/-- The queue after preempting `job-0` (`mark_as_failed = false`). -/
def c4q : WorkloadQueue := (WorkloadQueue.preempt_job "job-0" false c4q1).1

theorem c4job_status : c4job.status = "queued" := rfl

theorem c4job_req : c4job.gpu_requirement = 1 := rfl

theorem c4_sla : WorkloadQueue.slaUpdate 0 c4job = c4job := by
  have h : ¬((0:ℚ) - c4job.submitted_at ≥ c4job.sla_deadline_s) := by
    rw [show c4job.submitted_at = (0:ℚ) from rfl,
        show c4job.sla_deadline_s = (600:ℚ) from rfl]
    norm_num
  unfold WorkloadQueue.slaUpdate
  rw [if_neg h]

theorem c4_find : ∃ a ∈ serverIdsList c4cfg,
    WorkloadQueue.find_placement c4cfg [] 1 = some [a] := by
  obtain ⟨a, tl, hat⟩ : ∃ a tl, sortedServers c4cfg = a :: tl := by
    cases hs : sortedServers c4cfg with
    | nil =>
        have hlen := (WorkloadQueue.sortedServers_perm c4cfg).length_eq
        rw [hs] at hlen
        exact absurd hlen (by decide)
    | cons a tl => exact ⟨a, tl, rfl⟩
  have hmem : a ∈ serverIdsList c4cfg :=
    (WorkloadQueue.sortedServers_perm c4cfg).subset
      (hat ▸ List.mem_cons_self a tl)
  refine ⟨a, hmem, ?_⟩
  unfold WorkloadQueue.find_placement
  simp only [Nat.cast_one]
  rw [hat, WorkloadQueue.placeLoop_cons]
  rw [if_neg (show ¬((1:ℤ) ≤ 0) by norm_num)]
  rw [show availSlots c4cfg [] a = 4 from rfl]
  rw [show min (1:ℤ) 4 = 1 from by decide]
  dsimp only
  rw [if_pos (show (0:ℤ) < 1 by norm_num)]
  rw [WorkloadQueue.placeLoop_done _ _ _ _ (show (1:ℤ) - 1 ≤ 0 by norm_num)]
  dsimp only
  rw [if_pos (show (1:ℤ) - 1 = 0 by norm_num)]
  rfl

theorem c4_notdone (pl : List String) :
    WorkloadQueue.doneAt 0 (c4jobR pl) = false := by
  show decide ((0:ℚ) - 0 ≥ ((c4jobR pl).duration_s : ℚ)) = false
  rw [show (c4jobR pl).duration_s = (600:ℤ) from rfl]
  rw [decide_eq_false_iff_not]
  push_cast
  norm_num

theorem c4q1_eq : ∃ a ∈ serverIdsList c4cfg, c4q1 =
    { pending := []
      running := [c4jobR [a]]
      completed := []
      server_util := (serverIdsList c4cfg).map
        (fun sid => (sid, WorkloadQueue.utilFor c4cfg [c4jobR [a]] sid))
      seed := 42
      rng_cursor := 1
      next_uuid := 1 } := by
  obtain ⟨a, ha, hfp⟩ := c4_find
  have hsched : WorkloadQueue.scheduleLoop c4cfg 0 [c4job] [] [] =
      ([], [c4jobR [a]]) := by
    rw [WorkloadQueue.scheduleLoop_cons]
    rw [if_neg (show ¬(c4job.status ≠ "queued") from fun h => h c4job_status)]
    rw [c4job_req, hfp]
    rfl
  have hcomp : WorkloadQueue.completionLoop 0 [c4jobR [a]] [] [] =
      ([c4jobR [a]], []) := by
    rw [WorkloadQueue.completionLoop_spec]
    simp [c4_notdone]
  refine ⟨a, ha, ?_⟩
  show (WorkloadQueue.stepCore c4cfg 0 (WorkloadQueue.init c4cfg)
    [c4job] 1).1 = _
  unfold WorkloadQueue.stepCore
  simp only [List.map_cons, List.map_nil, c4_sla]
  simp only [List.insertionSort, List.orderedInsert]
  rw [if_neg (show ¬((([c4job].any fun j => j.status = "queued") = true) ∧
    ¬(okServers c4cfg (WorkloadQueue.init c4cfg).running = true)) from
    fun h => h.2 rfl)]
  rw [show (WorkloadQueue.init c4cfg).running = [] from rfl]
  rw [hsched]
  dsimp only
  rw [hcomp]
  rfl

theorem c4q1_spec : ∃ pl, c4q1.pending = [] ∧ c4q1.running = [c4jobR pl] ∧
    c4q1.completed = [] := by
  obtain ⟨a, _, hq⟩ := c4q1_eq
  exact ⟨[a], by rw [hq], by rw [hq], by rw [hq]⟩

/-- C4, counterexample: starting from the default configuration, one arrival
step followed by `preempt_job` reaches a queue whose preempted job has
`started_at` set and `completed_at` null while its status is `"preempted"` —
the ⇐ direction of the claimed biconditional
`running ⇔ started_at ≠ null ∧ completed_at = null` is false. -/
theorem running_status_iff_cex :
    WorkloadQueue.Reach c4cfg c4q ∧
    ∃ j ∈ WorkloadQueue.allJobs c4q,
      (j.started_at.isSome ∧ j.completed_at = none) ∧ ¬ j.status = "running" := by
  constructor
  · exact WorkloadQueue.Reach.preempt "job-0" false c4q1
      (WorkloadQueue.Reach.step (some c4draw) 0 _ WorkloadQueue.Reach.init)
  · obtain ⟨pl, hp, hr, hc⟩ := c4q1_spec
    have hget : c4q1.get_job "job-0" = some (c4jobR pl) := by
      unfold WorkloadQueue.get_job
      rw [hp, hr, hc]
      rfl
    have hqc : c4q.completed = [{ c4jobR pl with status := "preempted" }] := by
      show ((WorkloadQueue.preempt_job "job-0" false c4q1).1).completed = _
      unfold WorkloadQueue.preempt_job
      rw [hget]
      dsimp only
      rw [if_neg (show ¬((c4jobR pl).status ≠ "running") from fun h => h rfl)]
      dsimp only
      rw [hc]
      rfl
    refine ⟨{ c4jobR pl with status := "preempted" }, ?_, ⟨rfl, rfl⟩, ?_⟩
    · show _ ∈ c4q.pending ++ c4q.running ++ c4q.completed
      rw [hqc]
      exact List.mem_append_right _ (List.mem_cons_self _ _)
    · intro h
      rw [show ({ c4jobR pl with status := "preempted" } : Job).status =
        "preempted" from rfl] at h
      exact absurd h (by decide)

/-- C4 (amended): in every reachable queue state, a job's status is
`"running"` only if `started_at` is set and `completed_at` is null, a job
whose status is `"queued"` has `started_at` null, and a job with
`started_at` set and `completed_at` null has status `"running"`,
`"preempted"` or `"failed"` — after `preempt_job` the biconditional of the
original claim no longer holds, only this weakening. -/
theorem running_status_iff_amended (cfg : SimConfig) (q : WorkloadQueue)
    (h : WorkloadQueue.Reach cfg q) :
    ∀ j ∈ WorkloadQueue.allJobs q,
      (j.status = "running" → j.started_at.isSome ∧ j.completed_at = none) ∧
      (j.status = "queued" → j.started_at = none) ∧
      ((j.started_at.isSome ∧ j.completed_at = none) →
        j.status = "running" ∨ j.status = "preempted" ∨
          j.status = "failed") := by
  intro j hj
  have hinv := WorkloadQueue.qinv_reach cfg q h
  rcases List.mem_append.mp hj with hj' | hcomp
  · rcases List.mem_append.mp hj' with hpend | hrun
    · obtain ⟨hs, hst, _⟩ := hinv.pq j hpend
      refine ⟨?_, fun _ => hst, ?_⟩
      · intro hr
        rw [hs] at hr
        exact absurd hr (by decide)
      · intro hsome
        rw [hst] at hsome
        exact absurd hsome.1 (by decide)
    · obtain ⟨hs, hst, hc⟩ := hinv.rn j hrun
      refine ⟨fun _ => ⟨hst, hc⟩, ?_, fun _ => Or.inl hs⟩
      intro hqd
      rw [hs] at hqd
      exact absurd hqd (by decide)
  · rcases hinv.cp j hcomp with ⟨hs, _, hcs⟩ | ⟨hs, hst, hc⟩
    · refine ⟨?_, ?_, ?_⟩
      · intro hr
        rw [hs] at hr
        exact absurd hr (by decide)
      · intro hqd
        rw [hs] at hqd
        exact absurd hqd (by decide)
      · intro hsome
        rw [hsome.2] at hcs
        exact absurd hcs (by decide)
    · refine ⟨fun hr => ?_, fun hqd => ?_, fun _ => Or.inr ?_⟩
      · rcases hs with hs | hs <;> (rw [hs] at hr; exact absurd hr (by decide))
      · rcases hs with hs | hs <;> (rw [hs] at hqd; exact absurd hqd (by decide))
      · rcases hs with hs | hs
        · exact Or.inl hs
        · exact Or.inr hs

/-- Configuration with no racks, used for the amended-C4 witness: an arriving
job cannot be placed and stays pending. -/
def c4wcfg : SimConfig := { facility := { num_racks := 0 } }

/-- The rack-less queue after one arrival step at time 0. -/
def c4wq : WorkloadQueue :=
  (WorkloadQueue.step c4wcfg (some c4draw) 0 (WorkloadQueue.init c4wcfg)).1

theorem c4wq_pending : c4wq.pending = [c4job] := by
  show (WorkloadQueue.stepCore c4wcfg 0 (WorkloadQueue.init c4wcfg)
    [c4job] 1).1.pending = _
  unfold WorkloadQueue.stepCore
  simp only [List.map_cons, List.map_nil, c4_sla]
  simp only [List.insertionSort, List.orderedInsert]
  rw [if_neg (show ¬((([c4job].any fun j => j.status = "queued") = true) ∧
    ¬(okServers c4wcfg (WorkloadQueue.init c4wcfg).running = true)) from
    fun h => h.2 rfl)]
  rfl

/-- Witness for the amended C4 theorem: the characterisation instantiated at
the concrete pending job of the rack-less one-step state, whose `"queued"`
status makes the second clause hold non-vacuously. -/
theorem running_status_iff_amended_witness :
    (c4job.status = "running" →
      c4job.started_at.isSome ∧ c4job.completed_at = none) ∧
    (c4job.status = "queued" → c4job.started_at = none) ∧
    ((c4job.started_at.isSome ∧ c4job.completed_at = none) →
      c4job.status = "running" ∨ c4job.status = "preempted" ∨
        c4job.status = "failed") :=
  running_status_iff_amended c4wcfg c4wq
    (WorkloadQueue.Reach.step (some c4draw) 0 _ WorkloadQueue.Reach.init)
    c4job (by
      show c4job ∈ c4wq.pending ++ c4wq.running ++ c4wq.completed
      rw [c4wq_pending]
      exact List.mem_append_left _
        (List.mem_append_left _ (List.mem_cons_self _ _)))

-- ── Concrete simulator run for claim C1 ────────────────────────

/-- A trivial physical-model chain: every claim about the control flow of
`Simulator.tick` holds for an arbitrary chain, and the concrete runs below
instantiate it with the chain that reports the default snapshot. -/
def unitPhysics : Physics Unit :=
  { init := fun _ => (), step := fun _ _ => ((), {}) }

/-- The engine oracle whose per-tick random-injection coin never fires. -/
def quietEngO : EngOracle := fun _ _ => FailureEngine.InjChoice.quiet

/-- The workload oracle whose arrival coin never fires. -/
def noneArrO : ArrOracle := fun _ _ => none

/-- The active failure created by
`inject("network_partition", "rack-{r}", None)` on a fresh engine. -/
def c1fail (r : ℕ) : ActiveFailure :=
  { failure_id := "failure-0"
    failure_type := "network_partition"
    target := rackTarget r
    started_at := 0
    duration_s := some 0
    effect := "Jobs on rack fail" }

/-- The engine state holding exactly that one active partition. -/
def c1eng (r : ℕ) : EngineState :=
  { active := [c1fail r], current_time := 0, seed := 42, rng_cursor := 0,
    next_uuid := 1 }

/-- `c1eng r` really is the state a manual `inject` call produces. -/
theorem c1eng_inject (r : ℕ) :
    (FailureEngine.inject "network_partition" (rackTarget r) none
      (FailureEngine.init 42)).1 = c1eng r := rfl

/-- The simulator state holding the one-running-job queue `c4q1` and the
freshly injected partition, just before its next tick. -/
def c1state (r : ℕ) : SimState Unit :=
  { config := c4cfg
    clock := { tick_interval_s := 60 }
    queue := c4q1
    engine := c1eng r
    phys := () }

/-- The engine after the in-tick expiry sweep at time `t`: the duration-0
partition is removed before `Simulator.tick` reads the partition racks. -/
def c1eng1 (t : ℚ) : EngineState :=
  { active := [], current_time := t, seed := 42, rng_cursor := 1,
    next_uuid := 1 }

theorem c1engtick (r : ℕ) (t : ℚ) (h : ¬(t - 0 < (0:ℚ))) :
    FailureEngine.tick c4cfg FailureEngine.InjChoice.quiet t
      (FailureEngine.set_current_time t (c1eng r)) = (c1eng1 t, []) := by
  unfold FailureEngine.tick FailureEngine.set_current_time c1eng c1fail c1eng1
  dsimp only
  rw [List.filter_cons]
  dsimp only
  rw [decide_eq_false h]
  rw [if_neg Bool.false_ne_true]
  rfl

/-- The queue after the workload step inside that tick (the job keeps
running: 60 s elapsed of its 600 s duration). -/
def c1q2 (pl : List String) : WorkloadQueue :=
  { pending := []
    running := [c4jobR pl]
    completed := []
    server_util := (serverIdsList c4cfg).map
      (fun sid => (sid, WorkloadQueue.utilFor c4cfg [c4jobR pl] sid))
    seed := 42
    rng_cursor := 2
    next_uuid := 1 }

theorem c4_notdone60 (pl : List String) :
    WorkloadQueue.doneAt (60:ℚ) (c4jobR pl) = false := by
  show decide ((60:ℚ) - 0 ≥ ((c4jobR pl).duration_s : ℚ)) = false
  rw [show (c4jobR pl).duration_s = (600:ℤ) from rfl]
  rw [decide_eq_false_iff_not]
  push_cast
  norm_num

theorem c1wstep : ∃ pl, c4q1.running = [c4jobR pl] ∧
    WorkloadQueue.step c4cfg none ((0:ℚ) + 60) c4q1 = (c1q2 pl, true) := by
  obtain ⟨a, _, hq⟩ := c4q1_eq
  refine ⟨[a], by rw [hq], ?_⟩
  rw [hq]
  unfold WorkloadQueue.step WorkloadQueue.stepCore
  dsimp only
  simp only [List.map_nil]
  simp only [List.insertionSort]
  rw [if_neg (show ¬((List.any ([] : List Job)
      fun j => decide (j.status = "queued")) = true ∧
    ¬(okServers c4cfg [c4jobR [a]] = true)) from fun hc => Bool.noConfusion hc.1)]
  rw [show WorkloadQueue.scheduleLoop c4cfg ((0:ℚ) + 60) [] [] [c4jobR [a]] =
    ([], [c4jobR [a]]) from rfl]
  dsimp only
  rw [WorkloadQueue.completionLoop_spec]
  simp [c4_notdone60, c1q2]

/-- The facility-state record the tick reports. -/
def c1st : FacilityState :=
  { current_time := (0:ℚ) + 60
    tick_count := 1
    phys := {}
    workload_pending := 0
    workload_running := 1
    workload_completed := 0
    sla_violations := 0 }

/-- The simulator state after the tick. -/
def c1s1 (pl : List String) : SimState Unit :=
  { config := c4cfg
    clock := { tick_interval_s := 60, current_time := (0:ℚ) + 60,
               tick_count := 1 }
    queue := c1q2 pl
    engine := c1eng1 ((0:ℚ) + 60)
    phys := ()
    telemetry := [((0:ℚ) + 60, c1st)] }

theorem c1simTick (r : ℕ) : ∃ out,
    simTick unitPhysics quietEngO noneArrO (c1state r) = some out ∧
    out.1.queue.running = c4q1.running := by
  obtain ⟨pl, hrun, hstep⟩ := c1wstep
  refine ⟨(c1s1 pl, c1st), ?_, ?_⟩
  · unfold simTick
    dsimp only [c1state, SimClock.tick, quietEngO, noneArrO]
    rw [c1engtick r ((0:ℚ) + 60) (by norm_num)]
    dsimp only
    rw [show FailureEngine.get_network_partition_racks (c1eng1 ((0:ℚ) + 60)) =
      ([] : List ℕ) from rfl]
    simp only [List.foldl_nil]
    rw [hstep]
    dsimp only [unitPhysics]
    rfl
  · show (c1q2 pl).running = c4q1.running
    rw [hrun]
    rfl

theorem isPrefixOf_append (l m : List Char) : l.isPrefixOf (l ++ m) = true := by
  induction l with
  | nil => cases m <;> rfl
  | cons c t ih => simp [List.isPrefixOf, ih]

/-- `"rack-{r}-srv-{s}"` starts with `"rack-{r}-"`. -/
theorem serverId_startsWith (r s : ℕ) :
    strStartsWith (rackTarget r ++ "-") (serverId r s) = true := by
  have hdata : (serverId r s).data =
      (rackTarget r ++ "-").data ++ ("srv-" ++ natStr s).data := by
    show "rack-".data ++ (natStr r).data ++ "-srv-".data ++ (natStr s).data =
      ("rack-".data ++ (natStr r).data ++ "-".data) ++
        ("srv-".data ++ (natStr s).data)
    simp only [List.append_assoc]
    rfl
  show ((rackTarget r ++ "-").data).isPrefixOf (serverId r s).data = true
  rw [hdata]
  exact isPrefixOf_append _ _

theorem mem_serverIdsList (cfg : SimConfig) (a : String)
    (h : a ∈ serverIdsList cfg) : ∃ r < cfg.facility.num_racks,
      ∃ s < cfg.facility.servers_per_rack, a = serverId r s := by
  unfold serverIdsList at h
  rw [List.mem_flatMap] at h
  obtain ⟨r, hr, hmap⟩ := h
  rw [List.mem_map] at hmap
  obtain ⟨s, hs, rfl⟩ := hmap
  exact ⟨r, List.mem_range.mp hr, s, List.mem_range.mp hs, rfl⟩

/-- C1, code bug: a freshly injected `network_partition` on rack `r`, with a
running job whose first assigned server lies on rack `r`, does not make the
next `Simulator.tick` fail that job: the engine's expiry sweep (run by
`FailureEngine.tick` before `Simulator.tick` reads
`get_network_partition_racks`) removes the duration-0 partition first, so the
job is still in the running list after the tick — the spec's "drops all
running jobs ... to `failed`" never happens. -/
theorem network_partition_never_fails_jobs :
    ∃ (r : ℕ) (j : Job) (out : SimState Unit × FacilityState),
      (∃ f ∈ (c1state r).engine.active,
        f.failure_type = "network_partition" ∧ f.target = rackTarget r) ∧
      j ∈ (c1state r).queue.running ∧ j.status = "running" ∧
      (j.assigned_servers.head?.elim false
        (fun h => strStartsWith (rackTarget r ++ "-") h)) = true ∧
      simTick unitPhysics quietEngO noneArrO (c1state r) = some out ∧
      j ∈ out.1.queue.running := by
  obtain ⟨a, ha, hq⟩ := c4q1_eq
  obtain ⟨r, hr, s, hs, haid⟩ := mem_serverIdsList c4cfg a ha
  obtain ⟨out, hout, hrun⟩ := c1simTick r
  have hq1run : c4q1.running = [c4jobR [a]] := by rw [hq]
  refine ⟨r, c4jobR [a], out, ⟨c1fail r, List.mem_cons_self _ _, rfl, rfl⟩,
    ?_, rfl, ?_, hout, ?_⟩
  · show c4jobR [a] ∈ c4q1.running
    rw [hq1run]
    exact List.mem_cons_self _ _
  · show (some a).elim false
      (fun h => strStartsWith (rackTarget r ++ "-") h) = true
    rw [haid]
    exact serverId_startsWith r s
  · rw [hrun, hq1run]
    exact List.mem_cons_self _ _

-- ── Evaluation framework (evaluation.py) ───────────────────────

/-- `FailureInjection` (a scripted failure of a scenario). -/
structure FailureInjection where
  at_tick : ℕ
  failure_type : String
  target : String
  duration_s : Option ℤ := none
deriving Repr, DecidableEq

/-- `ScenarioDefinition` (`workload_overrides` holds the single field
`mean_job_arrival_interval_s` of `ScenarioConfig`). -/
structure ScenarioDefinition where
  scenario_id : String
  name : String
  duration_ticks : ℕ
  rng_seed : ℤ
  failure_injections : List FailureInjection := []
  workload_overrides : ℚ := 300
deriving Repr, DecidableEq

/-- `DimensionScore` (name, score, weight; the `metrics`/`notes`
presentation fields carry no score information and are omitted). -/
structure DimensionScore where
  name : String
  score : ℚ
  weight : ℚ
deriving Repr, DecidableEq

/-- `EvaluationResult` (the `metadata` dict — agent name, tick counters and
wall-clock time — is presentation-only and omitted). -/
structure EvaluationResult where
  scenario_id : String
  run_type : String
  composite_score : ℚ
  dimensions : List DimensionScore
  duration_ticks : ℕ
  total_sim_time_s : ℚ
deriving Repr, DecidableEq

/-- `_clamp(value)` with the default bounds 0 and 100. -/
def clamp (v : ℚ) : ℚ := max 0 (min 100 v)

/-- `_norm(value, target, worst)`. -/
def qnorm (value target worst : ℚ) : ℚ :=
  if |worst - target| < 1/1000000000 then (if value ≤ target then 100 else 0)
  else clamp (100 - 100 * (value - target) / (worst - target))

/-- Python `round(x, 2)`.  Python rounds half-cents to even; `round` rounds
them up.  The two agree everywhere else, and every property proved below
(boundedness, determinism) is insensitive to the tie rule. -/
def round2 (x : ℚ) : ℚ := (round (100 * x) : ℤ) / 100

/-- Python dict assignment `m[k] = v` on an insertion-ordered
association list. -/
def dictInsert {α β : Type} [DecidableEq α] (m : List (α × β)) (k : α)
    (v : β) : List (α × β) :=
  if m.any (fun p => p.1 = k) then
    m.map (fun p => if p.1 = k then (k, v) else p)
  else m ++ [(k, v)]

/-- `e.params.get(key, "")` restricted to string values. -/
def paramStr (ps : List (String × ParamValue)) (k : String) : String :=
  match ps.lookup k with
  | some (ParamValue.str v) => v
  | _ => ""

namespace Evaluator

/-- `Evaluator._score_sla()`. -/
def score_sla (all_jobs : List Job) : DimensionScore :=
  let completed_ok := all_jobs.filter (fun j => j.status = "completed")
  let total := all_jobs.length
  let violated := all_jobs.filter (fun j => j.sla_violated)
  let violation_rate : ℚ := (violated.length : ℚ) / ((max 1 total : ℕ) : ℚ)
  let sla_score := clamp (100 - violation_rate * 200)
  let completion_rate : ℚ := (completed_ok.length : ℚ) / ((max 1 total : ℕ) : ℚ)
  let completion_score := completion_rate * 100
  let wait_times := completed_ok.filterMap (fun j =>
    j.started_at.map (fun st => st - j.submitted_at))
  let avg_wait : ℚ := if wait_times.isEmpty then 0
    else wait_times.sum / ((max 1 wait_times.length : ℕ) : ℚ)
  let wait_score := qnorm avg_wait 300 3600
  { name := "sla_quality"
    score := round2 (clamp (1/2 * sla_score + 3/10 * completion_score +
      1/5 * wait_score))
    weight := 25/100 }

/-- `Evaluator._score_energy()`. -/
def score_energy (cfg : SimConfig) (states : List FacilityState)
    (all_jobs : List Job) : DimensionScore :=
  if states.isEmpty then { name := "energy_efficiency", score := 50, weight := 20/100 }
  else
    let pues := states.map (fun s => s.phys.pue)
    let avg_pue := pues.sum / (pues.length : ℚ)
    let pue_score := qnorm avg_pue (12/10) 2
    let tick_s := cfg.clock.tick_interval_s
    let total_kwh := (states.map
      (fun s => s.phys.total_power_kw * (tick_s / 3600))).sum
    let completed_count := (all_jobs.filter
      (fun j => j.status = "completed")).length
    let kwh_per_job := total_kwh / ((max 1 completed_count : ℕ) : ℚ)
    let kwh_score := qnorm kwh_per_job 5 50
    let gpu_utils := states.map (fun s => s.phys.avg_sm_util_pct)
    let avg_gpu := gpu_utils.sum / (gpu_utils.length : ℚ)
    let gpu_score := clamp avg_gpu
    { name := "energy_efficiency"
      score := round2 (clamp (4/10 * pue_score + 3/10 * kwh_score +
        3/10 * gpu_score))
      weight := 20/100 }

/-- `Evaluator._score_carbon()` (`states[-1]` guarded by the emptiness
check, hence the `getLast?` match). -/
def score_carbon (cfg : SimConfig) (scn : ScenarioDefinition)
    (states : List FacilityState) : DimensionScore :=
  match states.getLast? with
  | none => { name := "carbon", score := 50, weight := 15/100 }
  | some last =>
    let total_carbon := last.phys.cumulative_carbon_kg
    let tick_s := cfg.clock.tick_interval_s
    let duration_h := (scn.duration_ticks : ℚ) * tick_s / 3600
    let reference := duration_h * 100 * 200 / 1000
    let carbon_score := qnorm total_carbon 0 reference
    let gpu_hours := (states.map (fun s =>
      (s.phys.healthy_gpus : ℚ) * (s.phys.avg_sm_util_pct / 100) *
        (tick_s / 3600))).sum
    let carbon_per_gpu_h := (total_carbon * 1000) / max (1/1000) gpu_hours
    let efficiency_score := qnorm carbon_per_gpu_h 500 5000
    let low := (states.filter (fun s =>
      s.phys.carbon_intensity_gco2_kwh < 180)).map
        (fun s => s.phys.avg_sm_util_pct)
    let high := (states.filter (fun s =>
      s.phys.carbon_intensity_gco2_kwh ≥ 250)).map
        (fun s => s.phys.avg_sm_util_pct)
    let awareness_score := if ¬ low.isEmpty ∧ ¬ high.isEmpty then
        clamp (50 + (low.sum / (low.length : ℚ) -
          high.sum / (high.length : ℚ)) / 100 * 50)
      else 50
    { name := "carbon"
      score := round2 (clamp (4/10 * carbon_score + 35/100 * efficiency_score +
        25/100 * awareness_score))
      weight := 15/100 }

/-- `Evaluator._score_thermal()`.  `none` models the `ValueError` of
`max()` over an empty generator: the history is non-empty but no state
carries a thermal rack. -/
def score_thermal (cfg : SimConfig) (states : List FacilityState) :
    Option DimensionScore :=
  if states.isEmpty then some { name := "thermal_safety", score := 100, weight := 15/100 }
  else
    let total_rack_ticks := cfg.facility.num_racks * states.length
    let throttled_count := (states.map (fun s =>
      (s.phys.thermal_racks.filter (fun r => r.throttled)).length)).sum
    let throttled_frac : ℚ :=
      (throttled_count : ℚ) / ((max 1 total_rack_ticks : ℕ) : ℚ)
    let throttle_score := clamp (100 - throttled_frac * 500)
    let inlets := states.flatMap (fun s =>
      s.phys.thermal_racks.map (fun r => r.inlet_temp_c))
    match inlets.max? with
    | none => none
    | some peak =>
        let safe := cfg.thermal.max_safe_inlet_temp_c
        let crit := cfg.thermal.critical_inlet_temp_c
        let peak_score := if peak ≤ safe then (100:ℚ)
          else if peak ≥ crit then 0
          else 100 * (crit - peak) / (crit - safe)
        let event_ticks := (states.filter (fun s =>
          s.phys.thermal_racks.any (fun r => decide (r.inlet_temp_c > safe)))).length
        let event_rate : ℚ := (event_ticks : ℚ) / ((max 1 states.length : ℕ) : ℚ)
        let event_score := clamp (100 - event_rate * 300)
        some
          { name := "thermal_safety"
            score := round2 (clamp (4/10 * throttle_score +
              35/100 * peak_score + 25/100 * event_score))
            weight := 15/100 }

/-- `Evaluator._score_cost()`. -/
def score_cost (cfg : SimConfig) (scn : ScenarioDefinition)
    (states : List FacilityState) (all_jobs : List Job) : DimensionScore :=
  match states.getLast? with
  | none => { name := "cost", score := 50, weight := 10/100 }
  | some last =>
    let total_cost := last.phys.cumulative_cost_gbp
    let tick_s := cfg.clock.tick_interval_s
    let duration_h := (scn.duration_ticks : ℚ) * tick_s / 3600
    let reference := duration_h * 100 * (20/100)
    let cost_score := qnorm total_cost 0 reference
    let completed_count := (all_jobs.filter
      (fun j => j.status = "completed")).length
    let cost_per_job := total_cost / ((max 1 completed_count : ℕ) : ℚ)
    let cpj_score := qnorm cost_per_job (1/2) 5
    let cheap := (states.filter (fun s =>
      s.phys.electricity_price_gbp_kwh < 12/100)).map
        (fun s => s.phys.it_power_kw)
    let expensive := (states.filter (fun s =>
      s.phys.electricity_price_gbp_kwh > 1/5)).map
        (fun s => s.phys.it_power_kw)
    let price_score := if ¬ cheap.isEmpty ∧ ¬ expensive.isEmpty then
        let expensive_avg := expensive.sum / (expensive.length : ℚ)
        clamp (50 + (cheap.sum / (cheap.length : ℚ) - expensive_avg) /
          max 1 expensive_avg * 50)
      else 50
    { name := "cost"
      score := round2 (clamp (45/100 * cost_score + 3/10 * cpj_score +
        25/100 * price_score))
      weight := 10/100 }

/-- `Evaluator._score_infra()`. -/
def score_infra (states : List FacilityState) : DimensionScore :=
  match states.getLast? with
  | none => { name := "infra_health", score := 100, weight := 10/100 }
  | some last =>
    let ecc_vals := states.map (fun s => s.phys.ecc_error_gpus)
    let avg_ecc := ecc_vals.sum / (ecc_vals.length : ℚ)
    let ecc_score := clamp (100 - avg_ecc * 10)
    let loss_vals := states.map (fun s => s.phys.total_packet_loss_pct)
    let avg_loss := loss_vals.sum / (loss_vals.length : ℚ)
    let packet_score := clamp (100 - avg_loss * 1000)
    let crc_vals := states.map (fun s => s.phys.total_crc_errors)
    let avg_crc := crc_vals.sum / (crc_vals.length : ℚ)
    let crc_score := clamp (100 - avg_crc * 5)
    let rack_healths := last.phys.storage_racks.map (fun r => r.drive_health_pct)
    let avg_health : ℚ := if ¬ rack_healths.isEmpty then
        rack_healths.sum / ((max 1 rack_healths.length : ℕ) : ℚ)
      else 100
    let storage_score := clamp avg_health
    { name := "infra_health"
      score := round2 (clamp (3/10 * ecc_score + 3/10 * packet_score +
        1/5 * crc_score + 1/5 * storage_score))
      weight := 10/100 }

/-- `Evaluator._score_failure_response()`. -/
def score_failure_response (cfg : SimConfig) (scn : ScenarioDefinition)
    (all_jobs : List Job) (audit : List AuditEntry) : DimensionScore :=
  if scn.failure_injections.isEmpty then
    { name := "failure_response", score := 100, weight := 5/100 }
  else
    let tick_s := cfg.clock.tick_interval_s
    let inject_entries := audit.filter (fun e =>
      e.action = "inject_failure" ∧ e.source = "scenario")
    let resolve_entries := audit.filter (fun e => e.action = "resolve_failure")
    let inject_map := inject_entries.foldl (fun m e =>
      let fid := paramStr e.params "failure_id"
      if fid ≠ "" then dictInsert m fid e.timestamp else m) []
    let rt := resolve_entries.foldl (fun (acc : List ℚ × List String) e =>
      let fid := paramStr e.params "failure_id"
      match inject_map.lookup fid with
      | some t0 =>
          if fid ∈ acc.2 then acc
          else (acc.1 ++ [e.timestamp - t0], acc.2 ++ [fid])
      | none => acc) ([], [])
    let response_times := rt.1
    let expected := scn.failure_injections.length
    let unresolved : ℚ := (expected : ℚ) - (response_times.length : ℚ)
    let ttr_score0 : ℚ := if ¬ response_times.isEmpty then
        qnorm (response_times.sum / (response_times.length : ℚ)) 300 3600
      else (if 0 < expected then 0 else 100)
    let unresolved_penalty := unresolved / ((max 1 expected : ℕ) : ℚ) * 50
    let ttr_score := clamp (ttr_score0 - unresolved_penalty)
    let violation_count := (scn.failure_injections.map (fun fi =>
      let inject_time := (fi.at_tick : ℚ) * tick_s
      let dur : ℚ := match fi.duration_s with
        | some d => if d = 0 then 3600 else (d : ℚ)
        | none => 3600
      let end_time := inject_time + dur
      (all_jobs.filter (fun j => j.sla_violated ∧
        inject_time ≤ j.submitted_at ∧ j.submitted_at ≤ end_time)).length)).sum
    let failure_sla_score := clamp (100 - (violation_count : ℚ) * 20)
    { name := "failure_response"
      score := round2 (clamp (7/10 * ttr_score + 3/10 * failure_sla_score))
      weight := 5/100 }

/-- `Evaluator.compute()` over the state the constructor captures: the
telemetry history, the concatenated job lists, the audit entries, the
config, the scenario, and the clock's current time.  `none` models the
`ValueError` escaping from `_score_thermal`. -/
def compute (cfg : SimConfig) (scn : ScenarioDefinition)
    (states : List FacilityState) (all_jobs : List Job)
    (audit : List AuditEntry) (sim_time : ℚ) : Option EvaluationResult :=
  match score_thermal cfg states with
  | none => none
  | some thermal =>
      let dims := [score_sla all_jobs, score_energy cfg states all_jobs,
        score_carbon cfg scn states, thermal,
        score_cost cfg scn states all_jobs, score_infra states,
        score_failure_response cfg scn all_jobs audit]
      let composite := (dims.map (fun d => d.score * d.weight)).sum
      some
        { scenario_id := scn.scenario_id
          run_type := "agent"
          composite_score := round2 composite
          dimensions := dims
          duration_ticks := states.length
          total_sim_time_s := sim_time }

end Evaluator

-- ── Predefined scenarios (evaluation.py) ───────────────────────

/-- `STEADY_STATE` -/
def STEADY_STATE : ScenarioDefinition :=
  { scenario_id := "steady_state"
    name := "STEADY_STATE"
    duration_ticks := 240
    rng_seed := 42 }

/-- `THERMAL_CRISIS` (a `crac_failure` on `crac-0` scripted at tick 30). -/
def THERMAL_CRISIS : ScenarioDefinition :=
  { scenario_id := "thermal_crisis"
    name := "THERMAL_CRISIS"
    duration_ticks := 120
    rng_seed := 123
    failure_injections := [{ at_tick := 30
                             failure_type := "crac_failure"
                             target := "crac-0"
                             duration_s := some 2700 }] }

/-- `CARBON_VALLEY` -/
def CARBON_VALLEY : ScenarioDefinition :=
  { scenario_id := "carbon_valley"
    name := "CARBON_VALLEY"
    duration_ticks := 1440
    rng_seed := 77 }

/-- `OVERLOAD` (tripled arrival rate). -/
def OVERLOAD : ScenarioDefinition :=
  { scenario_id := "overload"
    name := "OVERLOAD"
    duration_ticks := 120
    rng_seed := 55
    workload_overrides := 100 }

/-- `CASCADE` (five sequential scripted failures). -/
def CASCADE : ScenarioDefinition :=
  { scenario_id := "cascade"
    name := "CASCADE"
    duration_ticks := 120
    rng_seed := 99
    failure_injections := [
      { at_tick := 10
        failure_type := "crac_degraded"
        target := "crac-0"
        duration_s := some 1200 },
      { at_tick := 25
        failure_type := "gpu_degraded"
        target := "rack-2-srv-1"
        duration_s := none },
      { at_tick := 40
        failure_type := "pdu_spike"
        target := "rack-4"
        duration_s := some 300 },
      { at_tick := 60
        failure_type := "network_partition"
        target := "rack-3"
        duration_s := some 0 },
      { at_tick := 80
        failure_type := "crac_failure"
        target := "crac-1"
        duration_s := some 1800 }] }

-- ── Bounds of the evaluation scores (claim C7) ─────────────────

theorem clamp_nonneg (v : ℚ) : 0 ≤ clamp v := le_max_left 0 _

theorem clamp_le (v : ℚ) : clamp v ≤ 100 :=
  max_le (by norm_num) (min_le_left _ _)

theorem qnorm_nonneg (value target worst : ℚ) : 0 ≤ qnorm value target worst := by
  unfold qnorm
  split
  · split
    · norm_num
    · norm_num
  · exact clamp_nonneg _

theorem qnorm_le (value target worst : ℚ) : qnorm value target worst ≤ 100 := by
  unfold qnorm
  split
  · split
    · norm_num
    · norm_num
  · exact clamp_le _

theorem round2_bounds (x : ℚ) (h0 : 0 ≤ x) (h1 : x ≤ 100) :
    0 ≤ round2 x ∧ round2 x ≤ 100 := by
  unfold round2
  constructor
  · apply div_nonneg _ (by norm_num : (0:ℚ) ≤ 100)
    have hr : 0 ≤ round (100 * x) := by
      rw [round_eq]
      apply Int.floor_nonneg.mpr
      linarith
    exact_mod_cast hr
  · rw [div_le_iff₀ (by norm_num : (0:ℚ) < 100)]
    have hr : round (100 * x) ≤ 10000 := by
      rw [round_eq]
      calc ⌊100 * x + 1/2⌋ ≤ ⌊(20001/2 : ℚ)⌋ := Int.floor_mono (by linarith)
        _ = 10000 := by
            rw [Int.floor_eq_iff]
            constructor <;> norm_num
    calc ((round (100 * x) : ℤ) : ℚ) ≤ ((10000 : ℤ) : ℚ) := by exact_mod_cast hr
      _ = 100 * 100 := by norm_num

theorem round2_clamp_bounds (x : ℚ) :
    0 ≤ round2 (clamp x) ∧ round2 (clamp x) ≤ 100 :=
  round2_bounds _ (clamp_nonneg x) (clamp_le x)

namespace Evaluator

theorem score_sla_bounds (jobs : List Job) :
    0 ≤ (score_sla jobs).score ∧ (score_sla jobs).score ≤ 100 := by
  unfold score_sla
  exact round2_clamp_bounds _

theorem score_sla_weight (jobs : List Job) :
    (score_sla jobs).weight = 25/100 := by
  unfold score_sla
  rfl

theorem score_energy_bounds (cfg : SimConfig) (states : List FacilityState)
    (jobs : List Job) :
    0 ≤ (score_energy cfg states jobs).score ∧
      (score_energy cfg states jobs).score ≤ 100 := by
  unfold score_energy
  split
  · exact ⟨by norm_num, by norm_num⟩
  · exact round2_clamp_bounds _

theorem score_energy_weight (cfg : SimConfig) (states : List FacilityState)
    (jobs : List Job) : (score_energy cfg states jobs).weight = 20/100 := by
  unfold score_energy
  split
  · rfl
  · rfl

theorem score_carbon_bounds (cfg : SimConfig) (scn : ScenarioDefinition)
    (states : List FacilityState) :
    0 ≤ (score_carbon cfg scn states).score ∧
      (score_carbon cfg scn states).score ≤ 100 := by
  unfold score_carbon
  split
  · exact ⟨by norm_num, by norm_num⟩
  · exact round2_clamp_bounds _

theorem score_carbon_weight (cfg : SimConfig) (scn : ScenarioDefinition)
    (states : List FacilityState) :
    (score_carbon cfg scn states).weight = 15/100 := by
  unfold score_carbon
  split
  · rfl
  · rfl

theorem score_cost_bounds (cfg : SimConfig) (scn : ScenarioDefinition)
    (states : List FacilityState) (jobs : List Job) :
    0 ≤ (score_cost cfg scn states jobs).score ∧
      (score_cost cfg scn states jobs).score ≤ 100 := by
  unfold score_cost
  split
  · exact ⟨by norm_num, by norm_num⟩
  · exact round2_clamp_bounds _

theorem score_cost_weight (cfg : SimConfig) (scn : ScenarioDefinition)
    (states : List FacilityState) (jobs : List Job) :
    (score_cost cfg scn states jobs).weight = 10/100 := by
  unfold score_cost
  split
  · rfl
  · rfl

theorem score_infra_bounds (states : List FacilityState) :
    0 ≤ (score_infra states).score ∧ (score_infra states).score ≤ 100 := by
  unfold score_infra
  split
  · exact ⟨by norm_num, by norm_num⟩
  · exact round2_clamp_bounds _

theorem score_infra_weight (states : List FacilityState) :
    (score_infra states).weight = 10/100 := by
  unfold score_infra
  split
  · rfl
  · rfl

theorem score_fr_bounds (cfg : SimConfig) (scn : ScenarioDefinition)
    (jobs : List Job) (audit : List AuditEntry) :
    0 ≤ (score_failure_response cfg scn jobs audit).score ∧
      (score_failure_response cfg scn jobs audit).score ≤ 100 := by
  unfold score_failure_response
  split
  · exact ⟨by norm_num, by norm_num⟩
  · exact round2_clamp_bounds _

theorem score_fr_weight (cfg : SimConfig) (scn : ScenarioDefinition)
    (jobs : List Job) (audit : List AuditEntry) :
    (score_failure_response cfg scn jobs audit).weight = 5/100 := by
  unfold score_failure_response
  split
  · rfl
  · rfl

theorem score_thermal_some (cfg : SimConfig) (states : List FacilityState)
    (h : states = [] ∨ ∃ s ∈ states, s.phys.thermal_racks ≠ []) :
    ∃ d, score_thermal cfg states = some d ∧
      0 ≤ d.score ∧ d.score ≤ 100 ∧ d.weight = 15/100 := by
  rcases h with rfl | ⟨s, hs, hr⟩
  · exact ⟨_, rfl, by norm_num, by norm_num, rfl⟩
  · have hne : states ≠ [] := fun he => by rw [he] at hs; exact absurd hs (by simp)
    unfold score_thermal
    rw [if_neg (by simp [List.isEmpty_iff, hne])]
    have hmem : ∃ x, x ∈ states.flatMap (fun s =>
        s.phys.thermal_racks.map (fun r => r.inlet_temp_c)) := by
      obtain ⟨r0, hr0⟩ := List.exists_mem_of_ne_nil _ hr
      exact ⟨r0.inlet_temp_c, List.mem_flatMap.mpr
        ⟨s, hs, List.mem_map.mpr ⟨r0, hr0, rfl⟩⟩⟩
    obtain ⟨x, hx⟩ := hmem
    obtain ⟨y, ys, hys⟩ := List.exists_cons_of_ne_nil
      (List.ne_nil_of_mem hx)
    rw [hys]
    exact ⟨_, rfl, (round2_clamp_bounds _).1, (round2_clamp_bounds _).2, rfl⟩

end Evaluator

/-- C7 (amended): `Evaluator.compute` succeeds — and then every one of the
seven dimension scores and the composite lie in [0, 100] — whenever the
telemetry history is empty or some state of it carries a thermal rack.  (On a
non-empty history whose states all lack thermal racks, `_score_thermal`'s
`max()` raises `ValueError`: the original totality claim is false.) -/
theorem evaluator_scores_bounded (cfg : SimConfig) (scn : ScenarioDefinition)
    (states : List FacilityState) (all_jobs : List Job)
    (audit : List AuditEntry) (sim_time : ℚ)
    (h : states = [] ∨ ∃ s ∈ states, s.phys.thermal_racks ≠ []) :
    ∃ res, Evaluator.compute cfg scn states all_jobs audit sim_time =
        some res ∧
      res.dimensions.length = 7 ∧
      (∀ d ∈ res.dimensions, 0 ≤ d.score ∧ d.score ≤ 100) ∧
      0 ≤ res.composite_score ∧ res.composite_score ≤ 100 := by
  obtain ⟨dt, hdt, hdt0, hdt1, hdtw⟩ := Evaluator.score_thermal_some cfg states h
  unfold Evaluator.compute
  rw [hdt]
  refine ⟨_, rfl, rfl, ?_, ?_, ?_⟩
  · intro d hd
    simp only [List.mem_cons, List.not_mem_nil, or_false] at hd
    rcases hd with rfl | rfl | rfl | rfl | rfl | rfl | rfl
    · exact Evaluator.score_sla_bounds all_jobs
    · exact Evaluator.score_energy_bounds cfg states all_jobs
    · exact Evaluator.score_carbon_bounds cfg scn states
    · exact ⟨hdt0, hdt1⟩
    · exact Evaluator.score_cost_bounds cfg scn states all_jobs
    · exact Evaluator.score_infra_bounds states
    · exact Evaluator.score_fr_bounds cfg scn all_jobs audit
  · have hb1 := Evaluator.score_sla_bounds all_jobs
    have hb2 := Evaluator.score_energy_bounds cfg states all_jobs
    have hb3 := Evaluator.score_carbon_bounds cfg scn states
    have hb5 := Evaluator.score_cost_bounds cfg scn states all_jobs
    have hb6 := Evaluator.score_infra_bounds states
    have hb7 := Evaluator.score_fr_bounds cfg scn all_jobs audit
    have hw1 := Evaluator.score_sla_weight all_jobs
    have hw2 := Evaluator.score_energy_weight cfg states all_jobs
    have hw3 := Evaluator.score_carbon_weight cfg scn states
    have hw5 := Evaluator.score_cost_weight cfg scn states all_jobs
    have hw6 := Evaluator.score_infra_weight states
    have hw7 := Evaluator.score_fr_weight cfg scn all_jobs audit
    dsimp only
    simp only [List.map_cons, List.map_nil, List.sum_cons, List.sum_nil]
    rw [hw1, hw2, hw3, hdtw, hw5, hw6, hw7]
    exact (round2_bounds _ (by nlinarith [hb1.1, hb2.1, hb3.1, hdt0, hb5.1,
      hb6.1, hb7.1]) (by nlinarith [hb1.2, hb2.2, hb3.2, hdt1, hb5.2,
      hb6.2, hb7.2, hb1.1, hb2.1, hb3.1, hdt0, hb5.1, hb6.1, hb7.1])).1
  · have hb1 := Evaluator.score_sla_bounds all_jobs
    have hb2 := Evaluator.score_energy_bounds cfg states all_jobs
    have hb3 := Evaluator.score_carbon_bounds cfg scn states
    have hb5 := Evaluator.score_cost_bounds cfg scn states all_jobs
    have hb6 := Evaluator.score_infra_bounds states
    have hb7 := Evaluator.score_fr_bounds cfg scn all_jobs audit
    have hw1 := Evaluator.score_sla_weight all_jobs
    have hw2 := Evaluator.score_energy_weight cfg states all_jobs
    have hw3 := Evaluator.score_carbon_weight cfg scn states
    have hw5 := Evaluator.score_cost_weight cfg scn states all_jobs
    have hw6 := Evaluator.score_infra_weight states
    have hw7 := Evaluator.score_fr_weight cfg scn all_jobs audit
    dsimp only
    simp only [List.map_cons, List.map_nil, List.sum_cons, List.sum_nil]
    rw [hw1, hw2, hw3, hdtw, hw5, hw6, hw7]
    exact (round2_bounds _ (by nlinarith [hb1.1, hb2.1, hb3.1, hdt0, hb5.1,
      hb6.1, hb7.1]) (by nlinarith [hb1.2, hb2.2, hb3.2, hdt1, hb5.2,
      hb6.2, hb7.2, hb1.1, hb2.1, hb3.1, hdt0, hb5.1, hb6.1, hb7.1])).2

/-- A telemetry state carrying no thermal racks (the physical snapshot a
zero-rack configuration produces). -/
def c7state : FacilityState :=
  { current_time := 0, tick_count := 1, phys := {}, workload_pending := 0,
    workload_running := 0, workload_completed := 0, sla_violations := 0 }

/-- C7, counterexample: on a one-state history whose state has no thermal
racks, `Evaluator.compute` does not return a result (`_score_thermal` raises
`ValueError: max() arg is an empty sequence`) — the evaluator is not total. -/
theorem evaluator_not_total_cex :
    Evaluator.compute {} STEADY_STATE [c7state] [] [] 0 = none := rfl

/-- Witness for the amended C7 theorem: the empty history instance. -/
theorem evaluator_scores_bounded_witness :
    ∃ res, Evaluator.compute {} STEADY_STATE [] [] [] 0 = some res ∧
      res.dimensions.length = 7 ∧
      (∀ d ∈ res.dimensions, 0 ≤ d.score ∧ d.score ≤ 100) ∧
      0 ≤ res.composite_score ∧ res.composite_score ≤ 100 :=
  evaluator_scores_bounded {} STEADY_STATE [] [] [] 0 (Or.inl rfl)

-- ── Session management (evaluation.py) ─────────────────────────

/-- `SessionState` (the wall-clock field `started_at_real` is
presentation-only and omitted). -/
structure SessionState where
  scenario_id : String
  scenario : ScenarioDefinition
  agent_name : String
  current_tick : ℕ
  max_ticks : ℕ
  injections_by_tick : List (ℕ × List FailureInjection)
  original_config : SimConfig
  active : Bool := true

/-- `SessionManager`: the owned simulator plus the optional session. -/
structure SessionMgr (Φ : Type) where
  sim : SimState Φ
  session : Option SessionState := none

/-- `SessionManager.active` -/
def SessionMgr.isActive {Φ : Type} (m : SessionMgr Φ) : Bool :=
  match m.session with
  | some ss => ss.active
  | none => false

/-- The `injections_by_tick` pre-sorting loop (`setdefault(...).append`). -/
def injectionsByTick (l : List FailureInjection) :
    List (ℕ × List FailureInjection) :=
  l.foldl (fun m fi =>
    if m.any (fun p => p.1 = fi.at_tick) then
      m.map (fun p => if p.1 = fi.at_tick then (p.1, p.2 ++ [fi]) else p)
    else m ++ [(fi.at_tick, [fi])]) []

/-- The scenario config: `model_copy` of the base with the scenario's
seed and arrival-interval override. -/
def scenarioCfg (base : SimConfig) (scn : ScenarioDefinition) : SimConfig :=
  { base with rng_seed := scn.rng_seed,
              workload := { mean_job_arrival_interval_s :=
                scn.workload_overrides } }

/-- `SessionManager.start(...)` with an explicit `ScenarioDefinition`
(the claim's "same explicit scenario" path, which skips the
`SCENARIOS` lookup). -/
def startSession {Φ : Type} (P : Physics Φ) (scn : ScenarioDefinition)
    (agent : String) (m : SessionMgr Φ) : Except String (SessionMgr Φ) :=
  if m.isActive then .error "A session is already active. End it first."
  else if m.sim.running then
    .error "Stop continuous simulation before starting a session."
  else
    .ok { sim := initSim P (scenarioCfg m.sim.config scn),
          session := some {
            scenario_id := scn.scenario_id
            scenario := scn
            agent_name := agent
            current_tick := 0
            max_ticks := scn.duration_ticks
            injections_by_tick := injectionsByTick scn.failure_injections
            original_config := m.sim.config } }

/-- One element of `failures_injected` in a step's result. -/
structure InjectedInfo where
  failure_id : String
  type : String
  target : String
  effect : String
deriving Repr, DecidableEq

/-- The scripted-injection loop at the head of `SessionManager.step`:
each successful `inject` is recorded in the audit log with
`source="scenario"` and the new failure id, and reported in
`failures_injected`. -/
def stepInjections (t : ℚ) :
    List FailureInjection → EngineState → List AuditEntry →
      List InjectedInfo → EngineState × List AuditEntry × List InjectedInfo
  | [], eng, audit, inj => (eng, audit, inj)
  | fi :: rest, eng, audit, inj =>
      let eng1 := FailureEngine.set_current_time t eng
      let out := FailureEngine.inject fi.failure_type fi.target fi.duration_s eng1
      match out.2 with
      | [] => stepInjections t rest out.1 audit inj
      | f :: _ =>
          let e : AuditEntry :=
            { timestamp := t
              action := "inject_failure"
              params := [("type", ParamValue.str fi.failure_type),
                ("target", ParamValue.str fi.target),
                ("duration_s", match fi.duration_s with
                  | some d => ParamValue.int d
                  | none => ParamValue.noneV),
                ("failure_id", ParamValue.str f.failure_id)]
              result := "ok"
              source := "scenario" }
          stepInjections t rest out.1 (auditRecord audit e)
            (inj ++ [{ failure_id := f.failure_id, type := fi.failure_type,
                       target := fi.target, effect := f.effect }])

/-- The step-result fields the claims read (the `state` dict is a
presentation of the facility state and is omitted). -/
structure StepResult where
  tick : ℕ
  max_ticks : ℕ
  done : Bool
  sim_time_s : ℚ
  failures_injected : List InjectedInfo
  active_failures : List ActiveFailure
deriving Repr, DecidableEq

/-- `SessionManager.step()`.  The `.error` values are the raised
`ValueError`s; the `KeyError` escaping `Simulator.tick` is its message. -/
def stepSession {Φ : Type} (P : Physics Φ) (engO : EngOracle)
    (arrO : ArrOracle) (m : SessionMgr Φ) :
    Except String (StepResult × SessionMgr Φ) :=
  match m.session with
  | none => .error "No active session"
  | some ss =>
      if ¬ ss.active then .error "No active session"
      else if ss.max_ticks ≤ ss.current_tick then
        .error "Session already completed all ticks"
      else
        let fis := (ss.injections_by_tick.lookup ss.current_tick).getD []
        let out := stepInjections m.sim.clock.current_time fis
          m.sim.engine m.sim.audit []
        let sim1 := { m.sim with engine := out.1, audit := out.2.1 }
        match simTick P engO arrO sim1 with
        | none => .error "KeyError"
        | some (sim2, _) =>
            let ct := ss.current_tick + 1
            .ok ({ tick := ct
                   max_ticks := ss.max_ticks
                   done := decide (ss.max_ticks ≤ ct)
                   sim_time_s := sim2.clock.current_time
                   failures_injected := out.2.2
                   active_failures :=
                     FailureEngine.get_active_failures sim2.engine },
                 { sim := sim2, session := some { ss with current_tick := ct } })

/-- `SessionManager.end()`: scores with the evaluator (over the
session's scenario, the telemetry states, all jobs and the audit log),
restores the original config, and clears the session. -/
def endSession {Φ : Type} (m : SessionMgr Φ) :
    Except String (EvaluationResult × SessionMgr Φ) :=
  match m.session with
  | none => .error "No active session"
  | some ss =>
      if ¬ ss.active then .error "No active session"
      else
        match Evaluator.compute m.sim.config ss.scenario
          (m.sim.telemetry.map (fun p => p.2))
          (WorkloadQueue.allJobs m.sim.queue) m.sim.audit
          m.sim.clock.current_time with
        | none => .error "ValueError"
        | some result =>
            .ok (result, { sim := { m.sim with config := ss.original_config },
                           session := none })

/-- `step()` iterated. -/
def runSteps {Φ : Type} (P : Physics Φ) (engO : EngOracle) (arrO : ArrOracle) :
    ℕ → SessionMgr Φ → Except String (SessionMgr Φ)
  | 0, m => .ok m
  | n + 1, m =>
      match stepSession P engO arrO m with
      | .error e => .error e
      | .ok (_, m1) => runSteps P engO arrO n m1

/-- A whole session against a simulator state: `start` with an explicit
scenario, `step()` for all `duration_ticks`, then `end()`; the result and
the simulator the manager leaves behind. -/
def fullRun {Φ : Type} (P : Physics Φ) (engO : EngOracle) (arrO : ArrOracle)
    (scn : ScenarioDefinition) (agent : String) (s : SimState Φ) :
    Except String (EvaluationResult × SimState Φ) :=
  match startSession P scn agent { sim := s } with
  | .error e => .error e
  | .ok m1 =>
      match runSteps P engO arrO scn.duration_ticks m1 with
      | .error e => .error e
      | .ok m2 =>
          match endSession m2 with
          | .error e => .error e
          | .ok (res, m3) => .ok (res, m3.sim)

/-- The simulator state a completed run leaves behind (the starting state
when the run fails). -/
def secondState {Φ : Type} (P : Physics Φ) (engO : EngOracle)
    (arrO : ArrOracle) (scn : ScenarioDefinition) (agent : String)
    (s : SimState Φ) : SimState Φ :=
  match fullRun P engO arrO scn agent s with
  | .ok (_, s1) => s1
  | .error _ => s

theorem startSession_ext {Φ : Type} (P : Physics Φ) (scn : ScenarioDefinition)
    (agent : String) (s s' : SimState Φ) (hc : s.config = s'.config)
    (hr : s.running = s'.running) :
    startSession P scn agent { sim := s } = startSession P scn agent { sim := s' } := by
  unfold startSession
  dsimp only [SessionMgr.isActive]
  rw [hc, hr]

theorem fullRun_ext {Φ : Type} (P : Physics Φ) (engO : EngOracle)
    (arrO : ArrOracle) (scn : ScenarioDefinition) (agent : String)
    (s s' : SimState Φ) (hc : s.config = s'.config)
    (hr : s.running = s'.running) :
    fullRun P engO arrO scn agent s = fullRun P engO arrO scn agent s' := by
  unfold fullRun
  rw [startSession_ext P scn agent s s' hc hr]

theorem simTick_fields {Φ : Type} (P : Physics Φ) (engO : EngOracle)
    (arrO : ArrOracle) (s : SimState Φ) (out : SimState Φ × FacilityState)
    (h : simTick P engO arrO s = some out) :
    out.1.running = s.running ∧ out.1.config = s.config := by
  unfold simTick at h
  dsimp only at h
  repeat' split at h
  all_goals try exact Option.noConfusion h
  all_goals injection h with h1
  all_goals subst h1
  all_goals exact ⟨rfl, rfl⟩

theorem startSession_inv {Φ : Type} (P : Physics Φ)
    (scn : ScenarioDefinition) (agent : String) (s : SimState Φ)
    (m1 : SessionMgr Φ) (h : startSession P scn agent { sim := s } = .ok m1) :
    s.running = false ∧ m1.sim.running = false ∧
    m1.session.map (fun ss => ss.original_config) = some s.config ∧
    m1.session.map (fun ss => ss.active) = some true := by
  unfold startSession at h
  dsimp only [SessionMgr.isActive] at h
  rw [if_neg Bool.false_ne_true] at h
  cases hb : s.running with
  | true => rw [hb] at h; rw [if_pos rfl] at h; exact Except.noConfusion h
  | false =>
      rw [hb] at h
      rw [if_neg Bool.false_ne_true] at h
      injection h with h2
      subst h2
      exact ⟨rfl, rfl, rfl, rfl⟩

theorem stepSession_inv {Φ : Type} (P : Physics Φ) (engO : EngOracle)
    (arrO : ArrOracle) (m : SessionMgr Φ) (r1 : StepResult)
    (m1 : SessionMgr Φ) (h : stepSession P engO arrO m = .ok (r1, m1)) :
    m1.sim.running = m.sim.running ∧ m1.sim.config = m.sim.config ∧
    m1.session.map (fun ss => ss.original_config) =
      m.session.map (fun ss => ss.original_config) := by
  unfold stepSession at h
  cases hm : m.session with
  | none => rw [hm] at h; exact Except.noConfusion h
  | some ss =>
      rw [hm] at h
      dsimp only at h
      split at h
      · exact Except.noConfusion h
      · split at h
        · exact Except.noConfusion h
        · split at h
          · exact Except.noConfusion h
          · rename_i sim2 st heq
            injection h with h2
            rw [Prod.mk.injEq] at h2
            obtain ⟨h3, h4⟩ := h2
            subst h4
            obtain ⟨hsr, hsc⟩ := simTick_fields P engO arrO _ _ heq
            exact ⟨hsr, hsc, rfl⟩

theorem endSession_inv {Φ : Type} (m : SessionMgr Φ) (res : EvaluationResult)
    (m3 : SessionMgr Φ) (h : endSession m = .ok (res, m3)) :
    ∃ ss, m.session = some ss ∧ m3.sim.running = m.sim.running ∧
      m3.sim.config = ss.original_config := by
  unfold endSession at h
  cases hm : m.session with
  | none => rw [hm] at h; exact Except.noConfusion h
  | some ss =>
      rw [hm] at h
      dsimp only at h
      split at h
      · exact Except.noConfusion h
      · split at h
        · exact Except.noConfusion h
        · injection h with h2
          rw [Prod.mk.injEq] at h2
          obtain ⟨h3, h4⟩ := h2
          subst h4
          exact ⟨ss, rfl, rfl, rfl⟩

theorem runSteps_inv {Φ : Type} (P : Physics Φ) (engO : EngOracle)
    (arrO : ArrOracle) : ∀ (n : ℕ) (m m2 : SessionMgr Φ),
    runSteps P engO arrO n m = .ok m2 →
    m2.sim.running = m.sim.running ∧
    m2.session.map (fun ss => ss.original_config) =
      m.session.map (fun ss => ss.original_config) := by
  intro n
  induction n with
  | zero =>
      intro m m2 h
      injection h with h1
      subst h1
      exact ⟨rfl, rfl⟩
  | succ k ih =>
      intro m m2 h
      unfold runSteps at h
      cases hs : stepSession P engO arrO m with
      | error e => rw [hs] at h; exact Except.noConfusion h
      | ok pr =>
          obtain ⟨r1, m1⟩ := pr
          rw [hs] at h
          dsimp only at h
          obtain ⟨h1, h2, h3⟩ := stepSession_inv P engO arrO m r1 m1 hs
          obtain ⟨h4, h5⟩ := ih m1 m2 h
          exact ⟨h4.trans h1, h5.trans h3⟩

theorem fullRun_inv {Φ : Type} (P : Physics Φ) (engO : EngOracle)
    (arrO : ArrOracle) (scn : ScenarioDefinition) (agent : String)
    (s : SimState Φ) (res : EvaluationResult) (s1 : SimState Φ)
    (h : fullRun P engO arrO scn agent s = .ok (res, s1)) :
    s1.config = s.config ∧ s1.running = s.running := by
  unfold fullRun at h
  cases hst : startSession P scn agent { sim := s } with
  | error e => rw [hst] at h; exact Except.noConfusion h
  | ok m1 =>
      rw [hst] at h
      dsimp only at h
      cases hrn : runSteps P engO arrO scn.duration_ticks m1 with
      | error e => rw [hrn] at h; exact Except.noConfusion h
      | ok m2 =>
          rw [hrn] at h
          dsimp only at h
          cases hen : endSession m2 with
          | error e => rw [hen] at h; exact Except.noConfusion h
          | ok pr =>
              obtain ⟨res2, m3⟩ := pr
              rw [hen] at h
              dsimp only at h
              injection h with h2
              rw [Prod.mk.injEq] at h2
              obtain ⟨h3, h4⟩ := h2
              subst h4
              obtain ⟨hs0, hm1run, hm1oc, _⟩ :=
                startSession_inv P scn agent s m1 hst
              obtain ⟨hr2run, hr2oc⟩ :=
                runSteps_inv P engO arrO scn.duration_ticks m1 m2 hrn
              obtain ⟨ss2, hss2, hm3run, hm3cfg⟩ := endSession_inv m2 res2 m3 hen
              constructor
              · rw [hm3cfg]
                have hoc : (some ss2).map (fun ss => ss.original_config) =
                    some s.config := by
                  rw [← hss2, hr2oc, hm1oc]
                simpa using hoc
              · rw [hm3run, hr2run, hm1run, hs0]

/-- C5: running the same explicit scenario twice from the same simulator —
`start` (which resets the simulator from the scenario config), `step()` for
all `duration_ticks`, then `end()` (which restores the original config) —
returns the same `EvaluationResult`: the same composite score and the same
score in all seven dimensions.  The second run starts from whatever state the
first left behind (`secondState`). -/
theorem session_rerun_deterministic {Φ : Type} (P : Physics Φ)
    (engO : EngOracle) (arrO : ArrOracle) (scn : ScenarioDefinition)
    (agent : String) (s : SimState Φ) :
    fullRun P engO arrO scn agent (secondState P engO arrO scn agent s) =
      fullRun P engO arrO scn agent s := by
  cases hf : fullRun P engO arrO scn agent s with
  | error e =>
      have h2 : secondState P engO arrO scn agent s = s := by
        unfold secondState
        rw [hf]
      rw [h2]
      exact hf
  | ok pair =>
      obtain ⟨res, s1⟩ := pair
      have h2 : secondState P engO arrO scn agent s = s1 := by
        unfold secondState
        rw [hf]
      rw [h2]
      obtain ⟨hc, hr⟩ := fullRun_inv P engO arrO scn agent s res s1 hf
      rw [fullRun_ext P engO arrO scn agent s1 s hc hr]
      rw [hf]

theorem any_key_lookup (m : List (ℕ × List FailureInjection)) (k : ℕ) :
    m.any (fun p => p.1 = k) = (m.lookup k).isSome := by
  induction m with
  | nil => rfl
  | cons p rest ih =>
      obtain ⟨pk, pv⟩ := p
      by_cases h : pk = k
      · subst h
        simp [List.lookup]
      · have hb : (k == pk) = false := beq_false_of_ne (Ne.symm h)
        simp [List.lookup, h, hb, ih]

theorem lookup_cons_self {β : Type} (k : ℕ) (v : β) (l : List (ℕ × β)) :
    List.lookup k ((k, v) :: l) = some v := by
  simp [List.lookup]

theorem lookup_cons_ne {β : Type} (t k : ℕ) (v : β) (l : List (ℕ × β))
    (h : ¬ t = k) : List.lookup t ((k, v) :: l) = List.lookup t l := by
  have hb : (t == k) = false := beq_false_of_ne h
  simp [List.lookup, hb]

theorem lookup_update (k : ℕ) (fi : FailureInjection)
    (m : List (ℕ × List FailureInjection)) (t : ℕ) :
    (m.map (fun p => if p.1 = k then (p.1, p.2 ++ [fi]) else p)).lookup t =
      if t = k then (m.lookup t).map (fun v => v ++ [fi])
      else m.lookup t := by
  induction m with
  | nil => by_cases h : t = k <;> simp [List.lookup, h]
  | cons p rest ih =>
      obtain ⟨pk, pv⟩ := p
      rw [List.map_cons]
      by_cases hpk : pk = k
      · subst hpk
        rw [if_pos rfl]
        by_cases ht : t = pk
        · subst ht
          rw [lookup_cons_self, if_pos rfl, lookup_cons_self]
          rfl
        · rw [lookup_cons_ne t pk _ _ ht, ih, if_neg ht, if_neg ht,
            lookup_cons_ne t pk _ _ ht]
      · rw [if_neg (show ¬ ((pk, pv).1 = k) from hpk)]
        by_cases ht : t = pk
        · subst ht
          rw [lookup_cons_self, if_neg hpk, lookup_cons_self]
        · rw [lookup_cons_ne t pk _ _ ht, ih]
          by_cases htk : t = k
          · rw [if_pos htk, if_pos htk, lookup_cons_ne t pk _ _ ht]
          · rw [if_neg htk, if_neg htk, lookup_cons_ne t pk _ _ ht]

theorem lookup_append_of_none {β : Type} (m l2 : List (ℕ × β)) (t : ℕ)
    (h : m.lookup t = none) : (m ++ l2).lookup t = l2.lookup t := by
  induction m with
  | nil => rfl
  | cons p rest ih =>
      obtain ⟨pk, pv⟩ := p
      by_cases ht : t = pk
      · subst ht
        rw [lookup_cons_self] at h
        exact Option.noConfusion h
      · rw [lookup_cons_ne t pk _ _ ht] at h
        rw [List.cons_append, lookup_cons_ne t pk _ _ ht]
        exact ih h

theorem lookup_append_of_some {β : Type} (m l2 : List (ℕ × β)) (t : ℕ) (v : β)
    (h : m.lookup t = some v) : (m ++ l2).lookup t = some v := by
  induction m with
  | nil => exact Option.noConfusion h
  | cons p rest ih =>
      obtain ⟨pk, pv⟩ := p
      by_cases ht : t = pk
      · subst ht
        rw [lookup_cons_self] at h
        rw [List.cons_append, lookup_cons_self]
        exact h
      · rw [lookup_cons_ne t pk _ _ ht] at h
        rw [List.cons_append, lookup_cons_ne t pk _ _ ht]
        exact ih h

theorem injectionsByTick_loop (t : ℕ) : ∀ (l : List FailureInjection)
    (m : List (ℕ × List FailureInjection)),
    ((l.foldl (fun m fi =>
        if m.any (fun p => p.1 = fi.at_tick) then
          m.map (fun p => if p.1 = fi.at_tick then (p.1, p.2 ++ [fi]) else p)
        else m ++ [(fi.at_tick, [fi])]) m).lookup t).getD [] =
      (m.lookup t).getD [] ++ l.filter (fun fi => fi.at_tick = t) := by
  intro l
  induction l with
  | nil => intro m; simp
  | cons fi rest ih =>
      intro m
      rw [List.foldl_cons, ih, List.filter_cons]
      by_cases hany : m.any (fun p => p.1 = fi.at_tick) = true
      · rw [if_pos hany, lookup_update]
        by_cases hft : fi.at_tick = t
        · subst hft
          rw [if_pos rfl]
          obtain ⟨v, hv⟩ := Option.isSome_iff_exists.mp
            (by rw [← any_key_lookup]; exact hany)
          rw [hv]
          simp
        · have htf : ¬ (t = fi.at_tick) := fun hc => hft hc.symm
          rw [if_neg htf]
          simp [hft]
      · rw [if_neg hany]
        cases hm : m.lookup t with
        | some v =>
            rw [lookup_append_of_some m _ t v hm]
            have hft : ¬ (fi.at_tick = t) := by
              intro hc
              apply hany
              rw [any_key_lookup, hc, hm]
              rfl
            simp [hft]
        | none =>
            rw [lookup_append_of_none m _ t hm]
            by_cases hft : fi.at_tick = t
            · subst hft
              simp [List.lookup]
            · have hb : (t == fi.at_tick) = false :=
                beq_false_of_ne (fun hc => hft hc.symm)
              simp [List.lookup, hb, hft]

theorem injectionsByTick_lookup (l : List FailureInjection) (t : ℕ) :
    ((injectionsByTick l).lookup t).getD [] =
      l.filter (fun fi => fi.at_tick = t) := by
  unfold injectionsByTick
  rw [injectionsByTick_loop]
  rfl

theorem pushCap_subset {α : Type} (cap : ℕ) (l : List α) (x : α) :
    ∀ e ∈ pushCap cap l x, e ∈ l ∨ e = x := by
  intro e he
  unfold pushCap at he
  dsimp only at he
  split at he
  · have hmem := List.drop_subset _ _ he
    rcases List.mem_append.mp hmem with h | h
    · exact Or.inl h
    · exact Or.inr (List.mem_singleton.mp h)
  · rcases List.mem_append.mp he with h | h
    · exact Or.inl h
    · exact Or.inr (List.mem_singleton.mp h)

theorem stepInjections_audit (t : ℚ) : ∀ (fis : List FailureInjection)
    (eng : EngineState) (audit : List AuditEntry) (inj : List InjectedInfo),
    ∀ e ∈ (stepInjections t fis eng audit inj).2.1,
      e ∈ audit ∨ (e.action = "inject_failure" ∧ e.source = "scenario" ∧
        e.timestamp = t ∧
        ∃ fid, ("failure_id", ParamValue.str fid) ∈ e.params) := by
  intro fis
  induction fis with
  | nil => intro eng audit inj e he; exact Or.inl he
  | cons fi rest ih =>
      intro eng audit inj e he
      rw [show stepInjections t (fi :: rest) eng audit inj =
        (match (FailureEngine.inject fi.failure_type fi.target fi.duration_s
            (FailureEngine.set_current_time t eng)).2 with
         | [] => stepInjections t rest
             (FailureEngine.inject fi.failure_type fi.target fi.duration_s
               (FailureEngine.set_current_time t eng)).1 audit inj
         | f :: _ => stepInjections t rest
             (FailureEngine.inject fi.failure_type fi.target fi.duration_s
               (FailureEngine.set_current_time t eng)).1
             (auditRecord audit
               { timestamp := t
                 action := "inject_failure"
                 params := [("type", ParamValue.str fi.failure_type),
                   ("target", ParamValue.str fi.target),
                   ("duration_s", match fi.duration_s with
                     | some d => ParamValue.int d
                     | none => ParamValue.noneV),
                   ("failure_id", ParamValue.str f.failure_id)]
                 result := "ok"
                 source := "scenario" })
             (inj ++ [{ failure_id := f.failure_id, type := fi.failure_type,
                        target := fi.target, effect := f.effect }])) from rfl]
        at he
      cases hout : (FailureEngine.inject fi.failure_type fi.target fi.duration_s
          (FailureEngine.set_current_time t eng)).2 with
      | nil =>
          rw [hout] at he
          exact ih _ audit inj e he
      | cons f fs =>
          rw [hout] at he
          rcases ih _ _ _ e he with hmem | hshape
          · rcases pushCap_subset 5000 audit _ e hmem with h | h
            · exact Or.inl h
            · subst h
              exact Or.inr ⟨rfl, rfl, rfl, f.failure_id, by simp⟩
          · exact Or.inr hshape

theorem failRack_id (r : ℕ) (q : WorkloadQueue) (h : q.running = []) :
    failRack r q = q := by
  unfold failRack
  rw [h]
  rfl

theorem foldl_failRack_empty (racks : List ℕ) (q : WorkloadQueue)
    (h : q.running = []) :
    racks.foldl (fun q1 r => failRack r q1) q = q := by
  induction racks with
  | nil => rfl
  | cons r rest ih =>
      rw [List.foldl_cons, failRack_id r q h]
      exact ih

theorem wstep_empty (cfg : SimConfig) (t : ℚ) (q : WorkloadQueue)
    (h1 : q.pending = []) (h2 : q.running = []) :
    WorkloadQueue.step cfg none t q =
      ({ pending := []
         running := []
         completed := q.completed
         server_util := (serverIdsList cfg).map
           (fun sid => (sid, WorkloadQueue.utilFor cfg [] sid))
         seed := q.seed
         rng_cursor := q.rng_cursor + 1
         next_uuid := q.next_uuid }, true) := by
  unfold WorkloadQueue.step WorkloadQueue.stepCore
  dsimp only
  rw [h1, h2]
  simp only [List.map_nil]
  simp only [List.insertionSort]
  rw [if_neg (show ¬((List.any ([] : List Job)
      fun j => decide (j.status = "queued")) = true ∧
    ¬(okServers cfg ([] : List Job) = true)) from fun hc => Bool.noConfusion hc.1)]
  rw [show WorkloadQueue.scheduleLoop cfg t [] [] ([] : List Job) = ([], []) from
    rfl]
  rw [show WorkloadQueue.completionLoop t [] [] [] = ([], []) from rfl]
  simp

theorem simTick_empty {Φ : Type} (P : Physics Φ) (engO : EngOracle)
    (s : SimState Φ) (h1 : s.queue.pending = []) (h2 : s.queue.running = []) :
    simTick P engO noneArrO s ≠ none ∧
    ∀ out, simTick P engO noneArrO s = some out →
      out.1.queue.pending = [] ∧ out.1.queue.running = [] := by
  unfold simTick
  dsimp only [noneArrO]
  rw [foldl_failRack_empty _ _ h2]
  rw [wstep_empty s.config (SimClock.tick s.clock).current_time s.queue h1 h2]
  dsimp only
  constructor
  · exact fun hc => Option.noConfusion hc
  · intro out hout
    injection hout with h3
    rw [← h3]
    exact ⟨rfl, rfl⟩

/-- The scripted injection of `THERMAL_CRISIS`. -/
def c8fi : FailureInjection :=
  { at_tick := 30, failure_type := "crac_failure", target := "crac-0",
    duration_s := some 2700 }

/-- The session state `k` completed steps into a `thermal_crisis` session. -/
def c8ss (k : ℕ) : SessionState :=
  { scenario_id := "thermal_crisis"
    scenario := THERMAL_CRISIS
    agent_name := "agent"
    current_tick := k
    max_ticks := 120
    injections_by_tick := injectionsByTick THERMAL_CRISIS.failure_injections
    original_config := {} }

/-- The manager right after `start("thermal_crisis")` on a fresh simulator. -/
def c8m1 : SessionMgr Unit :=
  { sim := initSim unitPhysics (scenarioCfg {} THERMAL_CRISIS)
    session := some (c8ss 0) }

theorem c8m1_start :
    startSession unitPhysics THERMAL_CRISIS "agent"
      { sim := initSim unitPhysics {} } = .ok c8m1 := rfl

theorem c8step (engO : EngOracle) (m : SessionMgr Unit) (ss : SessionState)
    (hss : m.session = some ss) (ha : ss.active = true)
    (hk : ss.current_tick < ss.max_ticks)
    (h1 : m.sim.queue.pending = []) (h2 : m.sim.queue.running = []) :
    ∃ r m', stepSession unitPhysics engO noneArrO m = .ok (r, m') ∧
      r.failures_injected = (stepInjections m.sim.clock.current_time
        ((ss.injections_by_tick.lookup ss.current_tick).getD [])
        m.sim.engine m.sim.audit []).2.2 ∧
      m'.session = some { ss with current_tick := ss.current_tick + 1 } ∧
      m'.sim.queue.pending = [] ∧ m'.sim.queue.running = [] := by
  unfold stepSession
  rw [hss]
  dsimp only
  rw [if_neg (show ¬¬(ss.active = true) from fun hn => hn ha)]
  rw [if_neg (not_le.mpr hk)]
  obtain ⟨hne, hsome⟩ := simTick_empty unitPhysics engO
    { m.sim with
      engine := (stepInjections m.sim.clock.current_time
        ((ss.injections_by_tick.lookup ss.current_tick).getD [])
        m.sim.engine m.sim.audit []).1
      audit := (stepInjections m.sim.clock.current_time
        ((ss.injections_by_tick.lookup ss.current_tick).getD [])
        m.sim.engine m.sim.audit []).2.1 } h1 h2
  split
  · rename_i heq
    exact absurd heq hne
  · rename_i sim2 st heq
    obtain ⟨hp, hr⟩ := hsome _ heq
    exact ⟨_, _, rfl, rfl, rfl, hp, hr⟩

theorem runSteps_succ {Φ : Type} (P : Physics Φ) (engO : EngOracle)
    (arrO : ArrOracle) : ∀ (n : ℕ) (m : SessionMgr Φ),
    runSteps P engO arrO (n + 1) m =
      match runSteps P engO arrO n m with
      | .error e => .error e
      | .ok m1 =>
          match stepSession P engO arrO m1 with
          | .error e => .error e
          | .ok (_, m2) => .ok m2 := by
  intro n
  induction n with
  | zero =>
      intro m
      show (match stepSession P engO arrO m with
        | Except.error e => Except.error e
        | Except.ok (_, m1) => runSteps P engO arrO 0 m1) = _
      rw [show runSteps P engO arrO 0 m = Except.ok m from rfl]
      dsimp only
      cases h : stepSession P engO arrO m with
      | error e => rfl
      | ok pr => obtain ⟨r, m1⟩ := pr; rfl
  | succ k ih =>
      intro m
      show (match stepSession P engO arrO m with
        | Except.error e => Except.error e
        | Except.ok (_, m1) => runSteps P engO arrO (k + 1) m1) = _
      cases h : stepSession P engO arrO m with
      | error e =>
          rw [show runSteps P engO arrO (k + 1) m =
            (match stepSession P engO arrO m with
             | Except.error e => Except.error e
             | Except.ok (_, m9) => runSteps P engO arrO k m9) from rfl]
          rw [h]
      | ok pr =>
          obtain ⟨r, m1⟩ := pr
          dsimp only
          rw [ih m1]
          rw [show runSteps P engO arrO (k + 1) m =
            (match stepSession P engO arrO m with
             | Except.error e => Except.error e
             | Except.ok (_, m9) => runSteps P engO arrO k m9) from rfl]
          rw [h]

theorem c8run : ∀ (k : ℕ), k ≤ 120 →
    ∃ m, runSteps unitPhysics quietEngO noneArrO k c8m1 = .ok m ∧
      m.sim.queue.pending = [] ∧ m.sim.queue.running = [] ∧
      m.session = some (c8ss k) := by
  intro k
  induction k with
  | zero => exact fun _ => ⟨c8m1, rfl, rfl, rfl, rfl⟩
  | succ n ih =>
      intro hk
      obtain ⟨m, hm, h1, h2, h3⟩ := ih (Nat.le_of_succ_le hk)
      obtain ⟨r, m', hstep, _, hsess, hp, hr⟩ :=
        c8step quietEngO m (c8ss n) h3 rfl (Nat.lt_of_succ_le hk) h1 h2
      rw [runSteps_succ, hm]
      dsimp only
      rw [hstep]
      exact ⟨m', rfl, hp, hr, hsess⟩

/-- The audit entry recorded by the scripted `crac_failure` injection of
`thermal_crisis` when it fires on a fresh engine at time 0. -/
def c8entry : AuditEntry :=
  { timestamp := 0
    action := "inject_failure"
    params := [("type", ParamValue.str "crac_failure"),
      ("target", ParamValue.str "crac-0"),
      ("duration_s", ParamValue.int 2700),
      ("failure_id", ParamValue.str "failure-0")]
    result := "ok"
    source := "scenario" }

theorem stepInjections_crac (t : ℚ) (eng : EngineState)
    (audit : List AuditEntry) :
    (stepInjections t [c8fi] eng audit []).2.2 =
      [{ failure_id := FailureEngine.freshId eng.next_uuid,
         type := "crac_failure", target := "crac-0",
         effect := "0% cooling capacity" }] := rfl

/-- C8: scripted failures are injected exactly at their tick — the
per-tick table `start` builds answers every tick lookup with precisely the
scenario's injections scripted for that tick (first conjunct); every audit
entry the injection loop of `step` adds carries `action="inject_failure"`,
`source="scenario"`, the step's timestamp, and a `failure_id` parameter
(second conjunct); and in a `thermal_crisis` session driven for 30 steps,
the 31st `step()` call reports a `crac_failure` entry in
`failures_injected` (third conjunct). -/
theorem scripted_injection_timing :
    (∀ (l : List FailureInjection) (t : ℕ),
      ((injectionsByTick l).lookup t).getD [] =
        l.filter (fun fi => fi.at_tick = t)) ∧
    (∀ (t : ℚ) (fis : List FailureInjection) (eng : EngineState)
        (audit : List AuditEntry) (inj : List InjectedInfo),
      ∀ e ∈ (stepInjections t fis eng audit inj).2.1,
        e ∈ audit ∨ (e.action = "inject_failure" ∧ e.source = "scenario" ∧
          e.timestamp = t ∧
          ∃ fid, ("failure_id", ParamValue.str fid) ∈ e.params)) ∧
    (∃ m30 r m31,
      runSteps unitPhysics quietEngO noneArrO 30 c8m1 = .ok m30 ∧
      stepSession unitPhysics quietEngO noneArrO m30 = .ok (r, m31) ∧
      (r.failures_injected.any (fun i => i.type = "crac_failure")) = true) := by
  refine ⟨injectionsByTick_lookup, stepInjections_audit, ?_⟩
  obtain ⟨m30, hm30, h1, h2, h3⟩ := c8run 30 (by norm_num)
  obtain ⟨r, m31, hstep, hfi, _, _, _⟩ :=
    c8step quietEngO m30 (c8ss 30) h3 rfl
      (show (c8ss 30).current_tick < (c8ss 30).max_ticks by
        show (30:ℕ) < 120
        norm_num) h1 h2
  refine ⟨m30, r, m31, hm30, hstep, ?_⟩
  rw [hfi]
  rw [show ((c8ss 30).injections_by_tick.lookup (c8ss 30).current_tick).getD [] =
    [c8fi] from rfl]
  rw [stepInjections_crac]
  rfl

/-- Witness for C8's audit conjunct: the entry the `thermal_crisis`
injection records on a fresh engine is in the required shape. -/
theorem scripted_injection_timing_witness :
    c8entry ∈ ([] : List AuditEntry) ∨
      (c8entry.action = "inject_failure" ∧ c8entry.source = "scenario" ∧
        c8entry.timestamp = 0 ∧
        ∃ fid, ("failure_id", ParamValue.str fid) ∈ c8entry.params) :=
  scripted_injection_timing.2.1 0 [c8fi] (FailureEngine.init 42) [] [] c8entry
    (show c8entry ∈ [c8entry] from List.mem_cons_self _ _)

-- ── Action handlers (api/routes.py) ────────────────────────────

namespace Routes

/-- `POST /actions/migrate_workload`: calls `migrate_job`, records one
audit entry (result `ok`/`not_found`), then raises 404 on failure.
`none` is the `KeyError` escaping `migrate_job` before the `record`
call: nothing is audited and the request fails with a 500. -/
def migrate_workload {Φ : Type} (job_id : String) (target_rack_id : ℕ)
    (s : SimState Φ) : Option (SimState Φ × Bool) :=
  match WorkloadQueue.migrate_job s.config job_id target_rack_id s.queue with
  | none => none
  | some (q1, ok) =>
      let e : AuditEntry :=
        { timestamp := s.clock.current_time
          action := "migrate_workload"
          params := [("job_id", ParamValue.str job_id),
            ("target_rack_id", ParamValue.int target_rack_id)]
          result := if ok then "ok" else "not_found" }
      some ({ s with queue := q1, audit := auditRecord s.audit e }, ok)

/-- `POST /actions/adjust_cooling` (always succeeds). -/
def adjust_cooling {Φ : Type} (rack_id : ℕ) (setpoint_c : ℚ)
    (s : SimState Φ) : SimState Φ × Bool :=
  let e : AuditEntry :=
    { timestamp := s.clock.current_time
      action := "adjust_cooling"
      params := [("rack_id", ParamValue.int rack_id),
        ("setpoint_c", ParamValue.rat setpoint_c)] }
  ({ s with crac_setpoints := dictInsert s.crac_setpoints rack_id setpoint_c,
            audit := auditRecord s.audit e }, true)

/-- `POST /actions/throttle_gpu` (`set_server_power_cap`; `none` clears
the cap). -/
def throttle_gpu {Φ : Type} (server_id : String) (power_cap_pct : Option ℚ)
    (s : SimState Φ) : SimState Φ × Bool :=
  let caps := match power_cap_pct with
    | none => s.server_power_caps.filter (fun p => ¬ p.1 = server_id)
    | some v => dictInsert s.server_power_caps server_id v
  let e : AuditEntry :=
    { timestamp := s.clock.current_time
      action := "throttle_gpu"
      params := [("server_id", ParamValue.str server_id),
        ("power_cap_pct", match power_cap_pct with
          | some v => ParamValue.rat v
          | none => ParamValue.noneV)] }
  ({ s with server_power_caps := caps, audit := auditRecord s.audit e }, true)

/-- `POST /actions/preempt_job` (`mark_as_failed` keeps its default
`False`). -/
def preempt_job {Φ : Type} (job_id : String) (s : SimState Φ) :
    SimState Φ × Bool :=
  let out := WorkloadQueue.preempt_job job_id false s.queue
  let e : AuditEntry :=
    { timestamp := s.clock.current_time
      action := "preempt_job"
      params := [("job_id", ParamValue.str job_id)]
      result := if out.2 then "ok" else "not_found" }
  ({ s with queue := out.1, audit := auditRecord s.audit e }, out.2)

/-- `POST /actions/resolve_failure`. -/
def resolve_failure {Φ : Type} (failure_id : String) (s : SimState Φ) :
    SimState Φ × Bool :=
  let out := FailureEngine.resolve failure_id s.engine
  let e : AuditEntry :=
    { timestamp := s.clock.current_time
      action := "resolve_failure"
      params := [("failure_id", ParamValue.str failure_id)]
      result := if out.2 then "ok" else "not_found" }
  ({ s with engine := out.1, audit := auditRecord s.audit e }, out.2)

end Routes

theorem migrate_job_ok (cfg : SimConfig) (jid : String) (rack : ℕ)
    (q : WorkloadQueue) (h : okServers cfg q.running = true) :
    WorkloadQueue.migrate_job cfg jid rack q ≠ none := by
  unfold WorkloadQueue.migrate_job
  cases hg : q.get_job jid with
  | none => exact fun hc => Option.noConfusion hc
  | some job =>
      dsimp only
      by_cases hst : job.status ≠ "running"
      · rw [if_pos hst]
        exact fun hc => Option.noConfusion hc
      · rw [if_neg hst]
        rw [if_neg (show ¬¬(okServers cfg q.running = true) from fun hn => hn h)]
        repeat' split
        all_goals exact fun hc => Option.noConfusion hc

/-- The record shape `c4q1_eq` establishes for `c4q1`, parametrised by
the server the scheduler placed `job-0` on. -/
def c10rec (a : String) : WorkloadQueue :=
  { pending := []
    running := [c4jobR [a]]
    completed := []
    server_util := (serverIdsList c4cfg).map
      (fun sid => (sid, WorkloadQueue.utilFor c4cfg [c4jobR [a]] sid))
    seed := 42
    rng_cursor := 1
    next_uuid := 1 }

/-- The job `job-0` as `migrate_job` to rack 999 rewrites it: assigned
to a server of a nonexistent rack (the `slots.get` default hands out
`gpus_per_server` phantom slots for unknown server ids). -/
def c10jobBad (a : String) : Job :=
  { c4jobR [a] with assigned_servers := ["rack-999-srv-0"] }

/-- The queue after migrating `job-0` to rack 999. -/
def c10q1 (a : String) : WorkloadQueue :=
  { pending := []
    running := [c10jobBad a]
    completed := []
    server_util := (serverIdsList c4cfg).map
      (fun sid => (sid, WorkloadQueue.utilFor c4cfg [c4jobR [a]] sid))
    seed := 42
    rng_cursor := 1
    next_uuid := 1 }

/-- Simulator state holding the scheduled `job-0` of the C4 scenario. -/
def c10s : SimState Unit :=
  { config := c4cfg
    clock := { tick_interval_s := 60 }
    queue := c4q1
    engine := FailureEngine.init 42
    phys := () }

/-- Fresh simulator state with an empty workload queue. -/
def c10w : SimState Unit :=
  { config := c4cfg
    clock := { tick_interval_s := 60 }
    queue := WorkloadQueue.init c4cfg
    engine := FailureEngine.init 42
    phys := () }

/-- C10 (amended): `adjust_cooling`, `throttle_gpu`, `preempt_job` and
`resolve_failure` always append exactly one audit entry with the
correct result label, and `migrate_workload` does so whenever every
running job's assigned servers are configured servers — but not in
general: `migrate_job` can raise `KeyError` before the audit call (see
the counterexample). -/
theorem audit_every_action_amended {Φ : Type} :
    (∀ (jid : String) (rack : ℕ) (s : SimState Φ),
      okServers s.config s.queue.running = true →
      ∃ s1 ok, Routes.migrate_workload jid rack s = some (s1, ok) ∧
        s1.audit = auditRecord s.audit
          { timestamp := s.clock.current_time
            action := "migrate_workload"
            params := [("job_id", ParamValue.str jid),
              ("target_rack_id", ParamValue.int rack)]
            result := if ok then "ok" else "not_found" }) ∧
    (∀ (rack : ℕ) (sp : ℚ) (s : SimState Φ),
      (Routes.adjust_cooling rack sp s).1.audit = auditRecord s.audit
        { timestamp := s.clock.current_time
          action := "adjust_cooling"
          params := [("rack_id", ParamValue.int rack),
            ("setpoint_c", ParamValue.rat sp)]
          result := "ok" }) ∧
    (∀ (sid : String) (cap : Option ℚ) (s : SimState Φ),
      (Routes.throttle_gpu sid cap s).1.audit = auditRecord s.audit
        { timestamp := s.clock.current_time
          action := "throttle_gpu"
          params := [("server_id", ParamValue.str sid),
            ("power_cap_pct", match cap with
              | some v => ParamValue.rat v
              | none => ParamValue.noneV)]
          result := "ok" }) ∧
    (∀ (jid : String) (s : SimState Φ),
      (Routes.preempt_job jid s).1.audit = auditRecord s.audit
        { timestamp := s.clock.current_time
          action := "preempt_job"
          params := [("job_id", ParamValue.str jid)]
          result := if (Routes.preempt_job jid s).2 then "ok"
            else "not_found" }) ∧
    (∀ (fid : String) (s : SimState Φ),
      (Routes.resolve_failure fid s).1.audit = auditRecord s.audit
        { timestamp := s.clock.current_time
          action := "resolve_failure"
          params := [("failure_id", ParamValue.str fid)]
          result := if (Routes.resolve_failure fid s).2 then "ok"
            else "not_found" }) := by
  refine ⟨?_, fun rack sp s => rfl, fun sid cap s => rfl,
    fun jid s => rfl, fun fid s => rfl⟩
  intro jid rack s h
  cases hm : WorkloadQueue.migrate_job s.config jid rack s.queue with
  | none => exact absurd hm (migrate_job_ok s.config jid rack s.queue h)
  | some pr =>
      obtain ⟨q1, ok⟩ := pr
      have h1 : Routes.migrate_workload jid rack s = some
          ({ s with
              queue := q1
              audit := auditRecord s.audit
                { timestamp := s.clock.current_time
                  action := "migrate_workload"
                  params := [("job_id", ParamValue.str jid),
                    ("target_rack_id", ParamValue.int rack)]
                  result := if ok then "ok" else "not_found" } }, ok) := by
        unfold Routes.migrate_workload
        rw [hm]
      exact ⟨_, ok, h1, rfl⟩

/-- Witness for the `migrate_workload` conjunct of C10's amended
property: on a fresh simulator state the call succeeds and appends the
audit entry. -/
theorem audit_every_action_amended_witness :
    ∃ s1 ok, Routes.migrate_workload "job-0" 0 c10w = some (s1, ok) ∧
      s1.audit = auditRecord c10w.audit
        { timestamp := c10w.clock.current_time
          action := "migrate_workload"
          params := [("job_id", ParamValue.str "job-0"),
            ("target_rack_id", ParamValue.int 0)]
          result := if ok then "ok" else "not_found" } :=
  (@audit_every_action_amended Unit).1 "job-0" 0 c10w rfl

/-- C10 counterexample: migrating `job-0` to the nonexistent rack 999
succeeds (the target's phantom servers come from the `slots.get`
default) and audits one `ok` entry, but the immediately following
`migrate_workload` call on the same job raises `KeyError` inside
`_server_gpus_available()` before the audit call, so the handler
records no entry and the exception leaks past the action boundary. -/
theorem audit_every_action_cex :
    ∃ s1 : SimState Unit,
      Routes.migrate_workload "job-0" 999 c10s = some (s1, true) ∧
      s1.audit = c10s.audit ++
        [{ timestamp := 0
           action := "migrate_workload"
           params := [("job_id", ParamValue.str "job-0"),
             ("target_rack_id", ParamValue.int 999)]
           result := "ok" }] ∧
      Routes.migrate_workload "job-0" 0 s1 = none := by
  obtain ⟨a, ha, hq⟩ := c4q1_eq
  have hq' : c4q1 = c10rec a := hq
  have hok : okServers c4cfg (c10rec a).running = true := by
    show okServers c4cfg [c4jobR [a]] = true
    unfold okServers
    rw [List.all_cons, List.all_nil]
    rw [show (c4jobR [a]).assigned_servers = [a] from rfl]
    rw [List.all_cons, List.all_nil]
    rw [show (serverIdsList c4cfg).contains a = true from
      List.elem_eq_true_of_mem ha]
    rfl
  have hmig1 : WorkloadQueue.migrate_job c4cfg "job-0" 999 (c10rec a) =
      some (c10q1 a, true) := by
    unfold WorkloadQueue.migrate_job
    rw [show WorkloadQueue.get_job (c10rec a) "job-0" =
      some (c4jobR [a]) from rfl]
    dsimp only
    rw [if_neg (show ¬((c4jobR [a]).status ≠ "running") from fun hh => hh rfl)]
    rw [if_neg (show ¬¬(okServers c4cfg (c10rec a).running = true) from
      fun hn => hn hok)]
    rfl
  have h1 : Routes.migrate_workload "job-0" 999 c10s = some
      ({ c10s with
          queue := c10q1 a
          audit := auditRecord c10s.audit
            { timestamp := 0
              action := "migrate_workload"
              params := [("job_id", ParamValue.str "job-0"),
                ("target_rack_id", ParamValue.int 999)]
              result := "ok" } }, true) := by
    unfold Routes.migrate_workload
    rw [show WorkloadQueue.migrate_job c10s.config "job-0" 999 c10s.queue =
      some (c10q1 a, true) from by
        show WorkloadQueue.migrate_job c4cfg "job-0" 999 c4q1 = _
        rw [hq']
        exact hmig1]
    rfl
  exact ⟨_, h1, rfl, rfl⟩
